import Mathlib

/-!
MCP2210 USB-to-SPI bridge library: field codec, packet transport, SPI transfer engine

A shallow embedding of the packet accessors of `mcp2210.h` and of the transport and transfer
functions of `mcp2210.c`.

Conventions of the embedding:

* `mcp2210_packet` is `unsigned char[64]`: a total map from the 64 offsets to bytes.
* C values of type `unsigned short`, `unsigned int` and non-negative `int` are natural
  numbers; `int` is 32 bits wide and `long` is 64 bits wide (LP64, the Linux hidraw targets
  of the library).  Storing into an `unsigned char` keeps the value modulo 256.
* An in-place update of a packet is a function returning the updated packet.
* `<<`, `>>`, `|` and `&` on non-negative `int` operands are the operations on natural
  numbers; this is exact as long as the C result fits an `int`, which holds for the pin
  indices 0..8 the pin accessors are used with. `~x` is the 32-bit complement `int_not x`.
  The one expression that reaches the sign bit, in `mcp2210_spi_get_bitrate`, is modelled in
  two's complement.
* A function result is converted to the return type only where the conversion can change the
  value (`mcp2210_usb_string_get_len`).
* A function that talks to the device takes the device `fd` and the history of the device
  calls made so far, and returns the extended history with its result.
-/

namespace MCP2210

/-! ## Constants of `mcp2210.h` -/

def MCP2210_PACKET_SIZE : Nat := 64
def MCP2210_SPI_CHUNK : Nat := 58
def MCP2210_GPIO_PINS : Nat := 8
def MCP2210_USB_STRING : Nat := 58
def MCP2210_PASSWORD_LEN : Nat := 8
def MCP2210_SPI_TX_MAX : Nat := 65535
def MCP2210_EEPROM_READ : Nat := 0x50
def MCP2210_NVRAM_SET : Nat := 0x60
def MCP2210_NVRAM_GET : Nat := 0x61
def MCP2210_SPI_TRANSFER : Nat := 0x42
def MCP2210_SPI_END : Nat := 0x10
def MCP2210_SPI_STARTED : Nat := 0x20
def MCP2210_SPI_DATA : Nat := 0x30
def MCP2210_ESPIINPROGRESS : Int := 0xf8
def MCP2210_EWRSHORT : Int := 0x101
def MCP2210_ERDSHORT : Int := 0x102
def MCP2210_EBADCMD : Int := 0x103
def MCP2210_EBADSUBCMD : Int := 0x104
def MCP2210_EBADADDR : Int := 0x105
def MCP2210_EBADTXSTAT : Int := 0x106

/-! ## Packets -/

/-- One `unsigned char`. -/
abbrev Byte := Fin 256

/-- The C type `mcp2210_packet`, `unsigned char[MCP2210_PACKET_SIZE]`. -/
abbrev mcp2210_packet := Fin 64 → Byte

/-- The expression `packet[i]` read as an rvalue (promoted to `int`). Offsets outside the
packet are not accessed by any well-defined execution; the embedding reads them as 0. -/
def rd (p : mcp2210_packet) (i : Nat) : Nat :=
  if h : i < 64 then (p ⟨i, h⟩).val else 0

/-- The assignment `packet[i] = v`: the value is converted to `unsigned char`. -/
def wr (p : mcp2210_packet) (i : Nat) (v : Nat) : mcp2210_packet :=
  fun j => if j.val = i then ⟨v % 256, Nat.mod_lt v (by decide)⟩ else p j

/-- The packet `{ 0, }`, also the result of `memset (packet, 0, MCP2210_PACKET_SIZE)`. -/
def zero_packet : mcp2210_packet := fun _ => 0

/-- Builds a packet from a list of byte values: offset `i` holds the `i`-th element (kept
modulo 256), and 0 past the end of the list. -/
def packet_of_list (l : List Nat) : mcp2210_packet :=
  fun j => ⟨l.getD j.val 0 % 256, Nat.mod_lt _ (by decide)⟩

/-- The bit pattern of `~x` for a 32-bit `int` operand `x`. -/
def int_not (x : Nat) : Nat := 2 ^ 32 - 1 - x % 2 ^ 32

/-- The C expression `!!x`. -/
def bang_bang (x : Nat) : Nat := if x ≠ 0 then 1 else 0

/-! ## GPIO pin packets -/

def mcp2210_gpio_get_pin (gpio_packet : mcp2210_packet) (pin : Nat) : Nat :=
  (((rd gpio_packet 5 <<< 8) ||| rd gpio_packet 4) >>> pin) &&& 1

def mcp2210_gpio_set_pin (gpio_packet : mcp2210_packet) (pin val : Nat) : mcp2210_packet :=
  if pin < 8 then
    if val ≠ 0 then
      wr gpio_packet 4 (rd gpio_packet 4 ||| (1 <<< pin))
    else
      wr gpio_packet 4 (rd gpio_packet 4 &&& int_not (1 <<< pin))
  else
    if val ≠ 0 then
      wr gpio_packet 5 (rd gpio_packet 5 ||| (1 <<< (pin - 8)))
    else
      wr gpio_packet 5 (rd gpio_packet 5 &&& int_not (1 <<< (pin - 8)))

/-! ## Chip settings packets -/

def mcp2210_chip_get_function (chip_packet : mcp2210_packet) (pin : Nat) : Nat :=
  rd chip_packet (4 + pin)

def mcp2210_chip_set_function (chip_packet : mcp2210_packet) (pin func : Nat) :
    mcp2210_packet :=
  wr chip_packet (4 + pin) func

def mcp2210_chip_get_default_output (chip_packet : mcp2210_packet) (pin : Nat) : Nat :=
  (((rd chip_packet 14 <<< 8) ||| rd chip_packet 13) >>> pin) &&& 1

def mcp2210_chip_set_default_output (chip_packet : mcp2210_packet) (pin val : Nat) :
    mcp2210_packet :=
  if pin < 8 then
    if val ≠ 0 then
      wr chip_packet 13 (rd chip_packet 13 ||| (1 <<< pin))
    else
      wr chip_packet 13 (rd chip_packet 13 &&& int_not (1 <<< pin))
  else
    if val ≠ 0 then
      wr chip_packet 14 (rd chip_packet 14 ||| (1 <<< (pin - 8)))
    else
      wr chip_packet 14 (rd chip_packet 14 &&& int_not (1 <<< (pin - 8)))

def mcp2210_chip_get_default_direction (chip_packet : mcp2210_packet) (pin : Nat) : Nat :=
  (((rd chip_packet 16 <<< 8) ||| rd chip_packet 15) >>> pin) &&& 1

def mcp2210_chip_set_default_direction (chip_packet : mcp2210_packet) (pin val : Nat) :
    mcp2210_packet :=
  if pin < 8 then
    if val ≠ 0 then
      wr chip_packet 15 (rd chip_packet 15 ||| (1 <<< pin))
    else
      wr chip_packet 15 (rd chip_packet 15 &&& int_not (1 <<< pin))
  else
    if val ≠ 0 then
      wr chip_packet 16 (rd chip_packet 16 ||| (1 <<< (pin - 8)))
    else
      wr chip_packet 16 (rd chip_packet 16 &&& int_not (1 <<< (pin - 8)))

def mcp2210_chip_get_wakeup (chip_packet : mcp2210_packet) : Nat :=
  bang_bang (rd chip_packet 17 &&& 0x10)

def mcp2210_chip_set_wakeup (chip_packet : mcp2210_packet) (enabled : Nat) : mcp2210_packet :=
  let p1 := wr chip_packet 17 (rd chip_packet 17 &&& int_not 0x10)
  wr p1 17 (rd p1 17 ||| (bang_bang enabled <<< 4))

def mcp2210_chip_get_gp6_mode (chip_packet : mcp2210_packet) : Nat :=
  (rd chip_packet 17 >>> 1) &&& 7

def mcp2210_chip_set_gp6_mode (chip_packet : mcp2210_packet) (mode : Nat) : mcp2210_packet :=
  let p1 := wr chip_packet 17 (rd chip_packet 17 &&& int_not 0xe)
  wr p1 17 (rd p1 17 ||| (mode <<< 1))

def mcp2210_chip_get_no_spi_release (chip_packet : mcp2210_packet) : Nat :=
  bang_bang (rd chip_packet 17 &&& 0x1)

def mcp2210_chip_set_no_spi_release (chip_packet : mcp2210_packet) (no_release : Nat) :
    mcp2210_packet :=
  let p1 := wr chip_packet 17 (rd chip_packet 17 &&& int_not 0x1)
  wr p1 17 (rd p1 17 ||| bang_bang no_release)

def mcp2210_chip_get_access_control (chip_packet : mcp2210_packet) : Nat :=
  rd chip_packet 18

def mcp2210_chip_set_access_control (chip_packet : mcp2210_packet) (setting : Nat) :
    mcp2210_packet :=
  wr chip_packet 18 setting

/-! ## SPI settings packets -/

/-- The value of a 32-bit two's complement bit pattern, as `int`. -/
def int_of_bits32 (x : Nat) : Int :=
  if x % 2 ^ 32 < 2 ^ 31 then ((x % 2 ^ 32 : Nat) : Int) else ((x % 2 ^ 32 : Nat) : Int) - 2 ^ 32

/-- The four bytes are promoted to `int` and combined in `int`; `spi_packet[7] << 24` reaches
the sign bit when the byte is 0x80 or more, so the `int` result is the two's complement
reading of the 32-bit pattern (the behaviour GCC documents for signed `<<`), which the
conversion to `long` then sign-extends. -/
def mcp2210_spi_get_bitrate (spi_packet : mcp2210_packet) : Int :=
  int_of_bits32 (rd spi_packet 4 ||| (rd spi_packet 5 <<< 8) |||
    (rd spi_packet 6 <<< 16) ||| (rd spi_packet 7 <<< 24))

/-- The expression `x & 0xff` for a `long` operand `x` (two's complement). -/
def long_and_ff (x : Int) : Nat := (x % 256).toNat

/-- The bit rate is a `long`; `>>` on it is an arithmetic shift. -/
def mcp2210_spi_set_bitrate (spi_packet : mcp2210_packet) (bitrate : Int) : mcp2210_packet :=
  let p1 := wr spi_packet 4 (long_and_ff bitrate)
  let p2 := wr p1 5 (long_and_ff (Int.shiftRight bitrate 8))
  let p3 := wr p2 6 (long_and_ff (Int.shiftRight bitrate 16))
  wr p3 7 (long_and_ff (Int.shiftRight bitrate 24))

def mcp2210_spi_get_pin_active_cs (spi_packet : mcp2210_packet) (pin : Nat) : Nat :=
  (((rd spi_packet 9 <<< 8) ||| rd spi_packet 8) >>> pin) &&& 1

def mcp2210_spi_set_pin_active_cs (spi_packet : mcp2210_packet) (pin val : Nat) :
    mcp2210_packet :=
  if pin < 8 then
    if val ≠ 0 then
      wr spi_packet 8 (rd spi_packet 8 ||| (1 <<< pin))
    else
      wr spi_packet 8 (rd spi_packet 8 &&& int_not (1 <<< pin))
  else
    if val ≠ 0 then
      wr spi_packet 9 (rd spi_packet 9 ||| (1 <<< (pin - 8)))
    else
      wr spi_packet 9 (rd spi_packet 9 &&& int_not (1 <<< (pin - 8)))

def mcp2210_spi_get_pin_idle_cs (spi_packet : mcp2210_packet) (pin : Nat) : Nat :=
  (((rd spi_packet 11 <<< 8) ||| rd spi_packet 10) >>> pin) &&& 1

def mcp2210_spi_set_pin_idle_cs (spi_packet : mcp2210_packet) (pin val : Nat) :
    mcp2210_packet :=
  if pin < 8 then
    if val ≠ 0 then
      wr spi_packet 10 (rd spi_packet 10 ||| (1 <<< pin))
    else
      wr spi_packet 10 (rd spi_packet 10 &&& int_not (1 <<< pin))
  else
    if val ≠ 0 then
      wr spi_packet 11 (rd spi_packet 11 ||| (1 <<< (pin - 8)))
    else
      wr spi_packet 11 (rd spi_packet 11 &&& int_not (1 <<< (pin - 8)))

def mcp2210_spi_get_cs_data_delay_100us (spi_packet : mcp2210_packet) : Nat :=
  rd spi_packet 12 ||| (rd spi_packet 13 <<< 8)

def mcp2210_spi_set_cs_data_delay_100us (spi_packet : mcp2210_packet) (delay_100us : Nat) :
    mcp2210_packet :=
  let p1 := wr spi_packet 12 (delay_100us &&& 0xff)
  wr p1 13 ((delay_100us >>> 8) &&& 0xff)

def mcp2210_spi_get_data_cs_delay_100us (spi_packet : mcp2210_packet) : Nat :=
  rd spi_packet 14 ||| (rd spi_packet 15 <<< 8)

def mcp2210_spi_set_data_cs_delay_100us (spi_packet : mcp2210_packet) (delay_100us : Nat) :
    mcp2210_packet :=
  let p1 := wr spi_packet 14 (delay_100us &&& 0xff)
  wr p1 15 ((delay_100us >>> 8) &&& 0xff)

def mcp2210_spi_get_byte_delay_100us (spi_packet : mcp2210_packet) : Nat :=
  rd spi_packet 16 ||| (rd spi_packet 17 <<< 8)

def mcp2210_spi_set_byte_delay_100us (spi_packet : mcp2210_packet) (delay_100us : Nat) :
    mcp2210_packet :=
  let p1 := wr spi_packet 16 (delay_100us &&& 0xff)
  wr p1 17 ((delay_100us >>> 8) &&& 0xff)

def mcp2210_spi_get_transaction_size (spi_packet : mcp2210_packet) : Nat :=
  rd spi_packet 18 ||| (rd spi_packet 19 <<< 8)

def mcp2210_spi_set_transaction_size (spi_packet : mcp2210_packet) (size : Nat) :
    mcp2210_packet :=
  let p1 := wr spi_packet 18 (size &&& 0xff)
  wr p1 19 ((size >>> 8) &&& 0xff)

def mcp2210_spi_get_mode (spi_packet : mcp2210_packet) : Nat :=
  rd spi_packet 20

def mcp2210_spi_set_mode (spi_packet : mcp2210_packet) (mode : Nat) : mcp2210_packet :=
  wr spi_packet 20 mode

/-! ## USB key packets -/

def mcp2210_usb_key_get_vid (usb_key_packet : mcp2210_packet) : Nat :=
  if rd usb_key_packet 0 = MCP2210_NVRAM_SET then
    rd usb_key_packet 4 ||| (rd usb_key_packet 5 <<< 8)
  else
    rd usb_key_packet 12 ||| (rd usb_key_packet 13 <<< 8)

def mcp2210_usb_key_set_vid (usb_key_packet : mcp2210_packet) (vid : Nat) : mcp2210_packet :=
  if rd usb_key_packet 0 = MCP2210_NVRAM_GET then
    let p1 := wr usb_key_packet 12 (vid &&& 0xff)
    wr p1 13 ((vid >>> 8) &&& 0xff)
  else
    let p1 := wr usb_key_packet 4 (vid &&& 0xff)
    wr p1 5 ((vid >>> 8) &&& 0xff)

def mcp2210_usb_key_get_pid (usb_key_packet : mcp2210_packet) : Nat :=
  if rd usb_key_packet 0 = MCP2210_NVRAM_SET then
    rd usb_key_packet 6 ||| (rd usb_key_packet 7 <<< 8)
  else
    rd usb_key_packet 14 ||| (rd usb_key_packet 15 <<< 8)

def mcp2210_usb_key_set_pid (usb_key_packet : mcp2210_packet) (pid : Nat) : mcp2210_packet :=
  if rd usb_key_packet 0 = MCP2210_NVRAM_GET then
    let p1 := wr usb_key_packet 14 (pid &&& 0xff)
    wr p1 15 ((pid >>> 8) &&& 0xff)
  else
    let p1 := wr usb_key_packet 6 (pid &&& 0xff)
    wr p1 7 ((pid >>> 8) &&& 0xff)

def mcp2210_usb_key_get_host_powered (usb_key_packet : mcp2210_packet) : Nat :=
  if rd usb_key_packet 0 = MCP2210_NVRAM_SET then
    bang_bang (rd usb_key_packet 8 &&& 0x80)
  else
    bang_bang (rd usb_key_packet 29 &&& 0x80)

def mcp2210_usb_key_set_host_powered (usb_key_packet : mcp2210_packet) (on_ : Nat) :
    mcp2210_packet :=
  if rd usb_key_packet 0 = MCP2210_NVRAM_GET then
    let p1 := wr usb_key_packet 29 (rd usb_key_packet 29 &&& int_not 0x80)
    wr p1 29 (rd p1 29 ||| (bang_bang on_ <<< 7))
  else
    let p1 := wr usb_key_packet 8 (rd usb_key_packet 8 &&& int_not 0x80)
    wr p1 8 (rd p1 8 ||| (bang_bang on_ <<< 7))

def mcp2210_usb_key_get_self_powered (usb_key_packet : mcp2210_packet) : Nat :=
  if rd usb_key_packet 0 = MCP2210_NVRAM_SET then
    bang_bang (rd usb_key_packet 8 &&& 0x40)
  else
    bang_bang (rd usb_key_packet 29 &&& 0x40)

def mcp2210_usb_key_set_self_powered (usb_key_packet : mcp2210_packet) (on_ : Nat) :
    mcp2210_packet :=
  if rd usb_key_packet 0 = MCP2210_NVRAM_GET then
    let p1 := wr usb_key_packet 29 (rd usb_key_packet 29 &&& int_not 0x40)
    wr p1 29 (rd p1 29 ||| (bang_bang on_ <<< 6))
  else
    let p1 := wr usb_key_packet 8 (rd usb_key_packet 8 &&& int_not 0x40)
    wr p1 8 (rd p1 8 ||| (bang_bang on_ <<< 6))

def mcp2210_usb_key_get_remote_wakeup (usb_key_packet : mcp2210_packet) : Nat :=
  if rd usb_key_packet 0 = MCP2210_NVRAM_SET then
    bang_bang (rd usb_key_packet 8 &&& 0x20)
  else
    bang_bang (rd usb_key_packet 29 &&& 0x20)

def mcp2210_usb_key_set_remote_wakeup (usb_key_packet : mcp2210_packet) (on_ : Nat) :
    mcp2210_packet :=
  if rd usb_key_packet 0 = MCP2210_NVRAM_GET then
    let p1 := wr usb_key_packet 29 (rd usb_key_packet 29 &&& int_not 0x20)
    wr p1 29 (rd p1 29 ||| (bang_bang on_ <<< 5))
  else
    let p1 := wr usb_key_packet 8 (rd usb_key_packet 8 &&& int_not 0x20)
    wr p1 8 (rd p1 8 ||| (bang_bang on_ <<< 5))

def mcp2210_usb_key_get_current_2ma (usb_key_packet : mcp2210_packet) : Nat :=
  if rd usb_key_packet 0 = MCP2210_NVRAM_SET then
    rd usb_key_packet 9
  else
    rd usb_key_packet 30

def mcp2210_usb_key_set_current_2ma (usb_key_packet : mcp2210_packet) (current : Nat) :
    mcp2210_packet :=
  wr usb_key_packet (if rd usb_key_packet 0 = MCP2210_NVRAM_GET then 30 else 9) current

/-- The function updates the packet `set` from the packet `get`; the result is the updated
`set`. -/
def mcp2210_usb_key_get_to_set (get set : mcp2210_packet) : mcp2210_packet :=
  let s0 := wr set 0 MCP2210_NVRAM_SET
  let s1 := wr s0 1 (rd get 1)
  let s4 := wr s1 4 (rd get 12)
  let s5 := wr s4 5 (rd get 13)
  let s6 := wr s5 6 (rd get 14)
  let s7 := wr s6 7 (rd get 15)
  let s8 := wr s7 8 (rd get 29)
  wr s8 9 (rd get 30)

/-! ## USB string descriptor packets -/

/-- The call `memcpy (&packet[off], src, n)`: the first `n` bytes of the buffer `src` go to
offsets `off .. off + n - 1` of the packet. -/
def memcpy_to_packet (packet : mcp2210_packet) (off : Nat) (src : List Byte) :
    Nat → mcp2210_packet
  | 0 => packet
  | n + 1 => wr (memcpy_to_packet packet off src n) (off + n) (src.getD n 0).val

/-- The function returns the pointer `&packet[6]`: the bytes of the packet from offset 6 on,
byte `i` of the string being `packet[6 + i]`. -/
def mcp2210_usb_string_get (packet : mcp2210_packet) (i : Nat) : Nat :=
  rd packet (6 + i)

/-- The `int` value `packet[4] - 2` is converted to the return type `unsigned short`. -/
def mcp2210_usb_string_get_len (packet : mcp2210_packet) : Nat :=
  (((rd packet 4 : Int) - 2) % 65536).toNat

/-- The buffer `string` holds the bytes the pointer refers to; `len` is taken non-negative. -/
def mcp2210_usb_string_set (packet : mcp2210_packet) (string : List Byte) (len : Nat) :
    mcp2210_packet :=
  let p1 := memcpy_to_packet packet 6 string len
  wr p1 4 (len + 2)

/-! ## The shared shape of the 16-bit little-endian accessors

The four 16-bit SPI getter/setter pairs have the same body up to the offset `lo` of the low
byte (CS-to-data delay 12, data-to-CS delay 14, inter-byte delay 16, transaction size 18). -/

def u16_get (lo : Nat) (packet : mcp2210_packet) : Nat :=
  rd packet lo ||| (rd packet (lo + 1) <<< 8)

def u16_set (lo : Nat) (packet : mcp2210_packet) (v : Nat) : mcp2210_packet :=
  let p1 := wr packet lo (v &&& 0xff)
  wr p1 (lo + 1) ((v >>> 8) &&& 0xff)

/-! ## The shared shape of the flag accessors of the USB key packets

The three power flags are single bits (mask `mask`, bit number `k`) of the byte at offset
`off`, which is 8 in the set layout and 29 in the get layout. -/

def flag_get (off mask : Nat) (packet : mcp2210_packet) : Nat :=
  bang_bang (rd packet off &&& mask)

def flag_set (off mask k : Nat) (packet : mcp2210_packet) (on_ : Nat) : mcp2210_packet :=
  let p1 := wr packet off (rd packet off &&& int_not mask)
  wr p1 off (rd p1 off ||| (bang_bang on_ <<< k))

/-! ## Decoding a settings view and writing it back

Each function decodes every field of one settings view from the frame `g` with the getters
and writes the decoded values into the frame `f` with the matching setters, field after
field. -/

def gpio_write_back (g f : mcp2210_packet) : mcp2210_packet :=
  (List.range 9).foldl
    (fun acc pin => mcp2210_gpio_set_pin acc pin (mcp2210_gpio_get_pin g pin)) f

def spi_write_back (g f : mcp2210_packet) : mcp2210_packet :=
  let f1 := mcp2210_spi_set_bitrate f (mcp2210_spi_get_bitrate g)
  let f2 := (List.range 9).foldl
    (fun acc pin => mcp2210_spi_set_pin_active_cs acc pin (mcp2210_spi_get_pin_active_cs g pin))
    f1
  let f3 := (List.range 9).foldl
    (fun acc pin => mcp2210_spi_set_pin_idle_cs acc pin (mcp2210_spi_get_pin_idle_cs g pin)) f2
  let f4 := mcp2210_spi_set_cs_data_delay_100us f3 (mcp2210_spi_get_cs_data_delay_100us g)
  let f5 := mcp2210_spi_set_data_cs_delay_100us f4 (mcp2210_spi_get_data_cs_delay_100us g)
  let f6 := mcp2210_spi_set_byte_delay_100us f5 (mcp2210_spi_get_byte_delay_100us g)
  let f7 := mcp2210_spi_set_transaction_size f6 (mcp2210_spi_get_transaction_size g)
  mcp2210_spi_set_mode f7 (mcp2210_spi_get_mode g)

def chip_write_back (g f : mcp2210_packet) : mcp2210_packet :=
  let f1 := (List.range 9).foldl
    (fun acc pin => mcp2210_chip_set_function acc pin (mcp2210_chip_get_function g pin)) f
  let f2 := (List.range 9).foldl
    (fun acc pin =>
      mcp2210_chip_set_default_output acc pin (mcp2210_chip_get_default_output g pin)) f1
  let f3 := (List.range 9).foldl
    (fun acc pin =>
      mcp2210_chip_set_default_direction acc pin (mcp2210_chip_get_default_direction g pin)) f2
  let f4 := mcp2210_chip_set_wakeup f3 (mcp2210_chip_get_wakeup g)
  let f5 := mcp2210_chip_set_gp6_mode f4 (mcp2210_chip_get_gp6_mode g)
  let f6 := mcp2210_chip_set_no_spi_release f5 (mcp2210_chip_get_no_spi_release g)
  mcp2210_chip_set_access_control f6 (mcp2210_chip_get_access_control g)

/-! ## The shared shape of the pin-bitmask accessors

The five pin getter/setter pairs of `mcp2210.h` have the same body up to the offset `lo` of
the low byte of the mask (GPIO 4, chip default output 13, chip default direction 15, SPI
active CS 8, SPI idle CS 10). -/

def pin_get (lo : Nat) (packet : mcp2210_packet) (pin : Nat) : Nat :=
  (((rd packet (lo + 1) <<< 8) ||| rd packet lo) >>> pin) &&& 1

def pin_set (lo : Nat) (packet : mcp2210_packet) (pin val : Nat) : mcp2210_packet :=
  if pin < 8 then
    if val ≠ 0 then
      wr packet lo (rd packet lo ||| (1 <<< pin))
    else
      wr packet lo (rd packet lo &&& int_not (1 <<< pin))
  else
    if val ≠ 0 then
      wr packet (lo + 1) (rd packet (lo + 1) ||| (1 <<< (pin - 8)))
    else
      wr packet (lo + 1) (rd packet (lo + 1) &&& int_not (1 <<< (pin - 8)))

/-- The offset of the byte holding pin `pin` of a mask whose low byte is at `lo`. -/
def pin_byte (lo pin : Nat) : Nat := lo + (if pin ≥ 8 then 1 else 0)

/-- Bit `i` of `x`, as 0 or 1. -/
def bit_of (x i : Nat) : Nat := (x >>> i) &&& 1

/-! ## The device behind the file descriptor

The functions of `mcp2210.c` talk to the device with `write (fd, packet, 64)` and
`read (fd, packet, 64)`. The embedding threads the history of these calls, oldest first,
through every function that performs them; the device is whatever determines the results of
the calls from that history. -/

/-- One call made on behalf of the library: `write (fd, buf, 64)` with the contents of `buf`,
`read (fd, buf, 64)`, or `nanosleep` with the given `struct timespec`. -/
inductive IoEvent where
  | write (buf : mcp2210_packet)
  | read
  | nanosleep (tv_sec tv_nsec : Int)

/-- The history of the calls, oldest first. -/
abbrev Trace := List IoEvent

/-- The device: `write` gives the value returned by `write (fd, buf, 64)` after the given
history, `read` the value returned by `read (fd, buf, 64)` and the bytes the device has ready
for the buffer. -/
structure Device where
  write : Trace → mcp2210_packet → Int
  read : Trace → Int × mcp2210_packet

/-- The buffer after `read (fd, packet, 64)` returned `count`: the first `count` bytes come
from the device, the others keep their contents (nothing is stored when the call fails). -/
def read_into (packet : mcp2210_packet) (count : Int) (bytes : mcp2210_packet) :
    mcp2210_packet :=
  fun j => if (j.val : Int) < count then bytes j else packet j

/-- The call `memset (packet, 0, MCP2210_PACKET_SIZE)`. -/
def memset_zero (_packet : mcp2210_packet) : mcp2210_packet := zero_packet

def count_writes : Trace → Nat
  | [] => 0
  | IoEvent.write _ :: t => count_writes t + 1
  | _ :: t => count_writes t

def count_reads : Trace → Nat
  | [] => 0
  | IoEvent.read :: t => count_reads t + 1
  | _ :: t => count_reads t

/-! ## Packet transport (`mcp2210.c`) -/

/-- What a transport function leaves behind: the returned `int`, the contents of the
caller's packet buffer and the history of the calls. -/
structure CommandResult where
  ret : Int
  packet : mcp2210_packet
  trace : Trace

def mcp2210_command (fd : Device) (trace : Trace) (packet : mcp2210_packet) (command : Nat) :
    CommandResult :=
  let packet0 := wr packet 0 command
  let written := fd.write trace packet0
  let trace1 := trace ++ [IoEvent.write packet0]
  if written = 64 then
    let packet1 := memset_zero packet0
    let count := (fd.read trace1).1
    let packet2 := read_into packet1 count (fd.read trace1).2
    let trace2 := trace1 ++ [IoEvent.read]
    if count = 64 then
      if rd packet2 1 ≠ 0 then
        { ret := -(rd packet2 1 : Int), packet := packet2, trace := trace2 }
      else if rd packet2 0 ≠ command then
        { ret := -MCP2210_EBADCMD, packet := packet2, trace := trace2 }
      else
        { ret := 0, packet := packet2, trace := trace2 }
    else if count = -1 then
      { ret := -1, packet := packet2, trace := trace2 }
    else
      { ret := -MCP2210_ERDSHORT, packet := packet2, trace := trace2 }
  else if written = -1 then
    { ret := -1, packet := packet0, trace := trace1 }
  else
    { ret := -MCP2210_EWRSHORT, packet := packet0, trace := trace1 }

def mcp2210_subcommand (fd : Device) (trace : Trace) (packet : mcp2210_packet)
    (command subcommand : Nat) : CommandResult :=
  let packet1 := wr packet 1 subcommand
  let r := mcp2210_command fd trace packet1 command
  if r.ret < 0 then
    r
  else if rd r.packet 2 ≠ subcommand then
    { ret := -MCP2210_EBADSUBCMD, packet := r.packet, trace := r.trace }
  else
    { ret := 0, packet := r.packet, trace := r.trace }

def mcp2210_get_command (fd : Device) (trace : Trace) (packet : mcp2210_packet)
    (command : Nat) : CommandResult :=
  mcp2210_command fd trace (memset_zero packet) command

def mcp2210_get_nvram (fd : Device) (trace : Trace) (packet : mcp2210_packet)
    (subcommand : Nat) : CommandResult :=
  mcp2210_subcommand fd trace (memset_zero packet) MCP2210_NVRAM_GET subcommand

def mcp2210_set_nvram (fd : Device) (trace : Trace) (packet : mcp2210_packet)
    (subcommand : Nat) : CommandResult :=
  mcp2210_subcommand fd trace packet MCP2210_NVRAM_SET subcommand

/-! ## SPI transfer engine (`mcp2210_spi_transfer`)

The function is a `while` loop whose body computes the chunk lengths and the delay and then
reaches the label `retry`; every exchange with the device happens in the block that starts
at that label, which is entered again either by `goto retry` or by the next iteration. The
embedding follows the control flow from one arrival at `retry` to the next:
`spi_loop_head` is the loop test and the part of the body before the label,
`spi_retry_block` the block from the label on, and `spi_run` repeats the block. -/

/-- The C type `struct timespec`. -/
structure timespec where
  tv_sec : Int
  tv_nsec : Int

/-- The memory the pointer `data` refers to, `data[i]` for every offset `i`; the buffer of
the caller is the first `len` bytes of it. -/
abbrev Buffer := Nat → Byte

/-- The element `packet[i]` as a byte; offsets past the end of the packet, which
`memcpy (&data[rd], &packet[4], packet[2])` reads when `packet[2]` exceeds 60, are read
as 0. -/
def rd_byte (packet : mcp2210_packet) (i : Nat) : Byte :=
  if h : i < 64 then packet ⟨i, h⟩ else 0

/-- The call `memcpy (&packet[off], &data[src], n)`. -/
def memcpy_data_to_packet (packet : mcp2210_packet) (off : Nat) (data : Buffer) (src : Nat) :
    Nat → mcp2210_packet
  | 0 => packet
  | n + 1 => wr (memcpy_data_to_packet packet off data src n) (off + n) (data (src + n)).val

/-- The call `memcpy (&data[dst], &packet[off], n)`. -/
def memcpy_packet_to_data (data : Buffer) (dst : Nat) (packet : mcp2210_packet)
    (off n : Nat) : Buffer :=
  fun a => if dst ≤ a ∧ a < dst + n then rd_byte packet (off + (a - dst)) else data a

/-- Conversion of an integer value to `unsigned int` (32 bits). -/
def to_uint32 (x : Int) : Int := x % 2 ^ 32

/-- The variables of `mcp2210_spi_transfer` on arrival at the label `retry`, with the
history of the device calls made so far. -/
structure SpiState where
  trace : Trace
  data : Buffer
  rd : Int
  wr : Int
  packet : mcp2210_packet
  wr_len : Int
  delay : timespec

/-- How an execution ends: with a returned `int`, or in the integer division by zero of the
delay computation, for which C defines no behaviour. -/
inductive SpiOutcome where
  | returned (ret : Int)
  | division_by_zero

/-- The end of an execution: the outcome, the bytes received (`rd`) and handed to the device
(`wr`), the memory at `data` and the history of the device calls. -/
structure SpiResult where
  outcome : SpiOutcome
  trace : Trace
  data : Buffer
  rd : Int
  wr : Int

inductive SpiNext where
  | at_retry (st : SpiState)
  | finished (r : SpiResult)

/-- The delay computation of the loop body. `bit_rate` is the `int` the function keeps from
`mcp2210_spi_get_bitrate`; `/` and `%` on `int` and `long` truncate towards zero; the three
products with a delay getter are computed in `unsigned int`. The `int` product of the second
line stays below 1000000000 in absolute value. -/
def spi_delay (spi_packet : mcp2210_packet) (len rd wr rd_len : Int) : Option timespec :=
  let bit_rate := mcp2210_spi_get_bitrate spi_packet
  if bit_rate = 0 then
    none
  else
    let tv_sec0 := Int.tdiv (rd_len * 8) bit_rate
    let tv_nsec0 := Int.tmod (rd_len * 8) bit_rate * Int.tdiv 1000000000 bit_rate
    let tv_nsec1 := tv_nsec0 +
      to_uint32 (to_uint32 (to_uint32 rd_len * mcp2210_spi_get_byte_delay_100us spi_packet) *
        (100000 + 30000))
    let tv_nsec2 :=
      if wr = 0 then
        tv_nsec1 + to_uint32 (mcp2210_spi_get_cs_data_delay_100us spi_packet * 100000)
      else tv_nsec1
    let tv_nsec3 :=
      if rd + rd_len = len then
        tv_nsec2 + to_uint32 (mcp2210_spi_get_data_cs_delay_100us spi_packet * (100000 + 30000))
      else tv_nsec2
    some { tv_sec := tv_sec0 + Int.tdiv tv_nsec3 1000000000,
           tv_nsec := Int.tmod tv_nsec3 1000000000 }

/-- The loop test `rd < len` and, when it holds, the body up to the label `retry`. -/
def spi_loop_head (spi_packet : mcp2210_packet) (len : Int) (trace : Trace) (data : Buffer)
    (rd wr : Int) : SpiNext :=
  if rd < len then
    let wr_len := if wr + MCP2210_SPI_CHUNK > len then len - wr else MCP2210_SPI_CHUNK
    let rd_len := if rd + MCP2210_SPI_CHUNK > len then len - rd else MCP2210_SPI_CHUNK
    match spi_delay spi_packet len rd wr rd_len with
    | none =>
      SpiNext.finished { outcome := SpiOutcome.division_by_zero, trace := trace, data := data,
                         rd := rd, wr := wr }
    | some delay =>
      SpiNext.at_retry { trace := trace, data := data, rd := rd, wr := wr,
                         packet := zero_packet, wr_len := wr_len, delay := delay }
  else
    SpiNext.finished { outcome := SpiOutcome.returned 0, trace := trace, data := data,
                       rd := rd, wr := wr }

/-- The packet after `packet[1] = wr_len; memcpy (&packet[2], &data[wr], wr_len);`. -/
def spi_request (st : SpiState) : mcp2210_packet :=
  memcpy_data_to_packet (wr st.packet 1 (st.wr_len % 256).toNat) 2 st.data st.wr.toNat
    st.wr_len.toNat

/-- The call `ret = mcp2210_command (fd, packet, MCP2210_SPI_TRANSFER)`. -/
def spi_exchange (fd : Device) (st : SpiState) : CommandResult :=
  mcp2210_command fd st.trace (spi_request st) MCP2210_SPI_TRANSFER

/-- The frame the exchange hands to `write`: the request with the command code in byte 0. -/
def spi_frame (st : SpiState) : mcp2210_packet :=
  wr (spi_request st) 0 MCP2210_SPI_TRANSFER

/-- The state in which `goto retry` arrives after an exchange from the state `st`. -/
def spi_busy_again (fd : Device) (st : SpiState) : SpiState :=
  { st with
    trace := (spi_exchange fd st).trace ++ [IoEvent.nanosleep st.delay.tv_sec st.delay.tv_nsec],
    packet := (spi_exchange fd st).packet,
    delay := { tv_sec := 0, tv_nsec := 5000000 } }

/-- The block from the label `retry` to the next arrival at the label or to the `return`. -/
def spi_retry_block (fd : Device) (spi_packet : mcp2210_packet) (len : Int) (st : SpiState) :
    SpiNext :=
  let r := spi_exchange fd st
  let trace1 := r.trace ++ [IoEvent.nanosleep st.delay.tv_sec st.delay.tv_nsec]
  if r.ret = -MCP2210_ESPIINPROGRESS then
    SpiNext.at_retry (spi_busy_again fd st)
  else if r.ret < 0 then
    SpiNext.finished { outcome := SpiOutcome.returned r.ret, trace := trace1, data := st.data,
                       rd := st.rd, wr := st.wr }
  else
    let wr1 := st.wr + st.wr_len
    if rd r.packet 3 = MCP2210_SPI_STARTED ∨ rd r.packet 3 = MCP2210_SPI_END ∨
        rd r.packet 3 = MCP2210_SPI_DATA then
      let data1 := memcpy_packet_to_data st.data st.rd.toNat r.packet 4 (rd r.packet 2)
      let rd1 := st.rd + rd r.packet 2
      spi_loop_head spi_packet len trace1 data1 rd1 wr1
    else
      SpiNext.finished { outcome := SpiOutcome.returned (-MCP2210_EBADTXSTAT), trace := trace1,
                         data := st.data, rd := st.rd, wr := wr1 }

/-- Repeats the block at `retry` until the function returns; `fuel` bounds the number of
exchanges, and `none` means that the bound was reached before the function returned. -/
def spi_run (fd : Device) (spi_packet : mcp2210_packet) (len : Int) : Nat → SpiNext →
    Option SpiResult
  | _, SpiNext.finished r => some r
  | 0, SpiNext.at_retry _ => none
  | fuel + 1, SpiNext.at_retry st => spi_run fd spi_packet len fuel
      (spi_retry_block fd spi_packet len st)

/-- The function `mcp2210_spi_transfer (fd, spi_packet, data, len)`, with `len` the value of
the `short` argument, run for at most `fuel` exchanges after the history `trace`. -/
def mcp2210_spi_transfer (fd : Device) (fuel : Nat) (trace : Trace)
    (spi_packet : mcp2210_packet) (data : Buffer) (len : Int) : Option SpiResult :=
  spi_run fd spi_packet len fuel (spi_loop_head spi_packet len trace data 0 0)

/-- The history of the device calls at a point of the execution. -/
def next_trace : SpiNext → Trace
  | SpiNext.at_retry st => st.trace
  | SpiNext.finished r => r.trace

/-- The states in which an execution of `mcp2210_spi_transfer` arrives at the label `retry`
when it starts after the history `trace0` with the memory `data0`. -/
inductive SpiReach (fd : Device) (spi_packet : mcp2210_packet) (len : Int) (trace0 : Trace)
    (data0 : Buffer) : SpiState → Prop where
  | enter (st : SpiState) :
      spi_loop_head spi_packet len trace0 data0 0 0 = SpiNext.at_retry st →
      SpiReach fd spi_packet len trace0 data0 st
  | step (st st2 : SpiState) :
      SpiReach fd spi_packet len trace0 data0 st →
      spi_retry_block fd spi_packet len st = SpiNext.at_retry st2 →
      SpiReach fd spi_packet len trace0 data0 st2

/-- The state at the label `retry` after `k` consecutive returns to it by `goto retry`. -/
def spi_after_busy (fd : Device) : Nat → SpiState → SpiState
  | 0, st => st
  | k + 1, st => spi_busy_again fd (spi_after_busy fd k st)

/-! ## Observations on an execution of the SPI transfer -/

def next_data : SpiNext → Buffer
  | SpiNext.at_retry st => st.data
  | SpiNext.finished r => r.data

def next_rd : SpiNext → Int
  | SpiNext.at_retry st => st.rd
  | SpiNext.finished r => r.rd

def next_wr : SpiNext → Int
  | SpiNext.at_retry st => st.wr
  | SpiNext.finished r => r.wr

/-- The `int` an execution returned, if it returned. -/
def spi_returned (r : SpiResult) : Option Int :=
  match r.outcome with
  | SpiOutcome.returned ret => some ret
  | SpiOutcome.division_by_zero => none

/-- The payload of a response frame: the `packet[2]` bytes from `packet[4]` on. -/
def spi_payload (resp : mcp2210_packet) : List Byte :=
  (List.range (rd resp 2)).map (fun k => rd_byte resp (4 + k))

/-- The payloads, in order, of the successful responses among the `read` calls of the history
`t` that follows the history `pre`: a response is successful when the read is complete, the
error code is 0 and the command code 0x42 is echoed, which is when `mcp2210_command` returns
0 for the exchange. -/
def spi_payloads_from (fd : Device) : Trace → Trace → List Byte
  | _, [] => []
  | pre, IoEvent.read :: t =>
    (if (fd.read pre).1 = 64 ∧ rd (fd.read pre).2 1 = 0 ∧
          rd (fd.read pre).2 0 = MCP2210_SPI_TRANSFER then
        spi_payload (fd.read pre).2
      else []) ++ spi_payloads_from fd (pre ++ [IoEvent.read]) t
  | pre, IoEvent.write buf :: t => spi_payloads_from fd (pre ++ [IoEvent.write buf]) t
  | pre, IoEvent.nanosleep s n :: t => spi_payloads_from fd (pre ++ [IoEvent.nanosleep s n]) t

/-- The number of successful responses among the `read` calls of the history `t` that follows
the history `pre`, counted like the payloads of `spi_payloads_from`. -/
def spi_successes_from (fd : Device) : Trace → Trace → Nat
  | _, [] => 0
  | pre, IoEvent.read :: t =>
    (if (fd.read pre).1 = 64 ∧ rd (fd.read pre).2 1 = 0 ∧
          rd (fd.read pre).2 0 = MCP2210_SPI_TRANSFER then 1
      else 0) + spi_successes_from fd (pre ++ [IoEvent.read]) t
  | pre, IoEvent.write buf :: t => spi_successes_from fd (pre ++ [IoEvent.write buf]) t
  | pre, IoEvent.nanosleep s n :: t => spi_successes_from fd (pre ++ [IoEvent.nanosleep s n]) t

/-- Conversion of an integer value to `short` (16 bits, two's complement), as in the call
`mcp2210_spi_transfer (fd, spi_packet, spi_tx, spi_tx_len)` of the command-line tool, whose
`spi_tx_len` is an `unsigned short`. -/
def to_short (x : Int) : Int := (x + 32768) % 65536 - 32768

/-! ## EEPROM access (`mcp2210.c`) -/

def mcp2210_read_eeprom (fd : Device) (trace : Trace) (packet : mcp2210_packet) (addr : Nat) :
    CommandResult :=
  let packet0 := memset_zero packet
  let packet1 := wr packet0 1 addr
  let r := mcp2210_command fd trace packet1 MCP2210_EEPROM_READ
  if r.ret < 0 then
    r
  else if rd r.packet 2 ≠ addr then
    { ret := -MCP2210_EBADADDR, packet := r.packet, trace := r.trace }
  else
    { ret := rd r.packet 3, packet := r.packet, trace := r.trace }

/-! ## Argument validation of the command-line tool (`mcp2210-util.c`) -/

/-- The function `get_delay` applied to the number `delay` that `get_num` parsed (a
`long long`): `none` stands for the error message followed by `exit (1)`, `some v` for the
returned `unsigned int`. `%` and `/` truncate towards zero. -/
def get_delay (delay : Int) : Option Int :=
  if Int.tmod delay 100 ≠ 0 then
    none
  else if delay < 0 ∨ delay > 0xffff then
    none
  else
    some (Int.tdiv delay 100)

/-! ## Observations on a history of device calls -/

/-- The `nanosleep` calls of a history among its other calls: the duration for a `nanosleep`,
`none` for a `write` or a `read`. -/
def sleep_of_event : IoEvent → Option (Int × Int)
  | IoEvent.nanosleep tv_sec tv_nsec => some (tv_sec, tv_nsec)
  | _ => none

/-! ## Parts of the SPI delay computation -/

/-- The value of the expression
`rd_len * mcp2210_spi_get_byte_delay_100us (spi_packet) * (100000 + 30000)` that
`mcp2210_spi_transfer` adds to `delay.tv_nsec`: the getter returns `unsigned int`, so both
multiplications are done in `unsigned int` (32 bits). It is the second summand of `tv_nsec1`
in `spi_delay`. -/
def spi_byte_delay_ns (spi_packet : mcp2210_packet) (rd_len : Int) : Int :=
  to_uint32 (to_uint32 (to_uint32 rd_len * mcp2210_spi_get_byte_delay_100us spi_packet) *
    (100000 + 30000))

/-! ## Option handling of the command-line tool (`mcp2210-util.c`)

The options `--gp6-count-high`, `--gp6-count-low`, `--gp6-count-rising` and
`--gp6-count-falling` of `main` work on two cached frames, `chip_packet` (run-time chip
settings) and `nvram_chip_packet` (power-up chip settings), both all-zero when the program
starts. Each option has a block under `if (runtime)` and a block under `if (nvram)`; the
frames marked as modified are written to the device after all options have been read. The
other frames and flags of the tool are not touched by these options and are left out. -/

def MCP2210_CHIP_GET : Nat := 0x20
def MCP2210_CHIP_SET : Nat := 0x21
def MCP2210_CHIP_GP6_CNT_HI_PULSE : Nat := 0x4
def MCP2210_CHIP_GP6_CNT_LO_PULSE : Nat := 0x3
def MCP2210_CHIP_GP6_CNT_UP_EDGE : Nat := 0x2
def MCP2210_CHIP_GP6_CNT_DN_EDGE : Nat := 0x1
def MCP2210_NVRAM_PARAM_CHIP : Nat := 0x20

/-- The function `maybe_get`: nothing is done when byte 0 of the cached frame is not zero;
`none` stands for the error message followed by `exit (1)`. -/
def maybe_get (fd : Device) (trace : Trace) (packet : mcp2210_packet) (command : Nat) :
    Option (mcp2210_packet × Trace) :=
  if rd packet 0 ≠ 0 then
    some (packet, trace)
  else
    let r := mcp2210_command fd trace packet command
    if r.ret < 0 then none else some (r.packet, r.trace)

/-- The function `maybe_get_nvram`, likewise. -/
def maybe_get_nvram (fd : Device) (trace : Trace) (packet : mcp2210_packet)
    (subcommand : Nat) : Option (mcp2210_packet × Trace) :=
  if rd packet 0 ≠ 0 then
    some (packet, trace)
  else
    let r := mcp2210_subcommand fd trace packet MCP2210_NVRAM_GET subcommand
    if r.ret < 0 then none else some (r.packet, r.trace)

/-- The variables of the tool that the `--gp6-count-*` options read or write, with the
history of the device calls. -/
structure UtilState where
  trace : Trace
  runtime : Nat
  nvram : Nat
  chip_packet : mcp2210_packet
  nvram_chip_packet : mcp2210_packet
  chip_mod : Nat
  nvram_chip_mod : Nat

/-- The block under `if (runtime)`, the same in the four options up to the mode:
`maybe_get (fd, chip_packet, MCP2210_CHIP_GET); chip_mod = 1;
mcp2210_chip_set_gp6_mode (chip_packet, mode);`. -/
def gp6_count_runtime (fd : Device) (mode : Nat) (s : UtilState) : Option UtilState :=
  if s.runtime ≠ 0 then
    (maybe_get fd s.trace s.chip_packet MCP2210_CHIP_GET).map fun r =>
      { s with trace := r.2, chip_mod := 1,
               chip_packet := mcp2210_chip_set_gp6_mode r.1 mode }
  else
    some s

/-- The block under `if (nvram)` of `--gp6-count-low`, `--gp6-count-rising` and
`--gp6-count-falling`:
`maybe_get_nvram (fd, nvram_chip_packet, MCP2210_NVRAM_PARAM_CHIP); nvram_chip_mod = 1;
mcp2210_chip_set_gp6_mode (nvram_chip_packet, mode);`. -/
def gp6_count_nvram (fd : Device) (mode : Nat) (s : UtilState) : Option UtilState :=
  if s.nvram ≠ 0 then
    (maybe_get_nvram fd s.trace s.nvram_chip_packet MCP2210_NVRAM_PARAM_CHIP).map fun r =>
      { s with trace := r.2, nvram_chip_mod := 1,
               nvram_chip_packet := mcp2210_chip_set_gp6_mode r.1 mode }
  else
    some s

/-- The block under `if (nvram)` of `--gp6-count-high`:
`maybe_get (fd, chip_packet, MCP2210_CHIP_GET); nvram_chip_mod = 1;
mcp2210_chip_set_gp6_mode (nvram_chip_packet, MCP2210_CHIP_GP6_CNT_HI_PULSE);`. -/
def gp6_count_high_nvram (fd : Device) (s : UtilState) : Option UtilState :=
  if s.nvram ≠ 0 then
    (maybe_get fd s.trace s.chip_packet MCP2210_CHIP_GET).map fun r =>
      { s with trace := r.2, chip_packet := r.1, nvram_chip_mod := 1,
               nvram_chip_packet :=
                 mcp2210_chip_set_gp6_mode s.nvram_chip_packet MCP2210_CHIP_GP6_CNT_HI_PULSE }
  else
    some s

/-- The branch of `main` for `--gp6-count-high`. -/
def option_gp6_count_high (fd : Device) (s : UtilState) : Option UtilState :=
  (gp6_count_runtime fd MCP2210_CHIP_GP6_CNT_HI_PULSE s).bind (gp6_count_high_nvram fd)

/-- The branch of `main` for `--gp6-count-low`. -/
def option_gp6_count_low (fd : Device) (s : UtilState) : Option UtilState :=
  (gp6_count_runtime fd MCP2210_CHIP_GP6_CNT_LO_PULSE s).bind
    (gp6_count_nvram fd MCP2210_CHIP_GP6_CNT_LO_PULSE)

/-- The branch of `main` for `--gp6-count-rising`. -/
def option_gp6_count_rising (fd : Device) (s : UtilState) : Option UtilState :=
  (gp6_count_runtime fd MCP2210_CHIP_GP6_CNT_UP_EDGE s).bind
    (gp6_count_nvram fd MCP2210_CHIP_GP6_CNT_UP_EDGE)

/-- The branch of `main` for `--gp6-count-falling`. -/
def option_gp6_count_falling (fd : Device) (s : UtilState) : Option UtilState :=
  (gp6_count_runtime fd MCP2210_CHIP_GP6_CNT_DN_EDGE s).bind
    (gp6_count_nvram fd MCP2210_CHIP_GP6_CNT_DN_EDGE)

/-- The write-back of the two chip frames after the option loop of `main`:
`if (chip_mod) { ret = mcp2210_command (fd, chip_packet, MCP2210_CHIP_SET); ... }` and
`if (nvram_chip_mod) { ret = mcp2210_set_nvram (fd, nvram_chip_packet,
MCP2210_NVRAM_PARAM_CHIP); ... }`, each followed by `goto err` when `ret < 0`. The result is
the last `ret` (0 when nothing was written) and the state. -/
def write_back_chip (fd : Device) (s : UtilState) : Int × UtilState :=
  let r1 : Int × UtilState :=
    if s.chip_mod ≠ 0 then
      let r := mcp2210_command fd s.trace s.chip_packet MCP2210_CHIP_SET
      (r.ret, { s with trace := r.trace, chip_packet := r.packet })
    else
      (0, s)
  if r1.1 < 0 then
    r1
  else if r1.2.nvram_chip_mod ≠ 0 then
    let r := mcp2210_set_nvram fd r1.2.trace r1.2.nvram_chip_packet MCP2210_NVRAM_PARAM_CHIP
    (r.ret, { r1.2 with trace := r.trace, nvram_chip_packet := r.packet })
  else
    r1

/-- The frames handed to `write` in a history, oldest first. -/
def writes_of : Trace → List mcp2210_packet
  | [] => []
  | IoEvent.write buf :: t => buf :: writes_of t
  | _ :: t => writes_of t

/-- The bytes of a frame, in order. -/
def bytes_of (p : mcp2210_packet) : List Nat := (List.range 64).map (rd p)

/-! ## Sample frames -/

/-- A set-shaped USB key frame: VID 0x04D8, PID 0x00DD, flags byte 0xA0, current 0x32. -/
def usb_key_set_frame : mcp2210_packet :=
  packet_of_list [0x60, 0x30, 0, 0, 0xD8, 0x04, 0xDD, 0x00, 0xA0, 0x32]

/-- A get-shaped USB key frame: VID 0x04D8, PID 0x00DD, flags byte 0xA0, current 0x32. -/
def usb_key_get_frame : mcp2210_packet :=
  packet_of_list [0x61, 0x00, 0x30, 0, 0, 0, 0, 0, 0, 0, 0, 0, 0xD8, 0x04, 0xDD, 0x00,
    0, 0, 0, 0, 0, 0, 0, 0, 0, 0, 0, 0, 0, 0xA0, 0x32]

/-- A device on which every `write` returns `written` and every `read` returns `count` with
the bytes `resp` ready. -/
def fixed_device (written count : Int) (resp : mcp2210_packet) : Device :=
  { write := fun _ _ => written, read := fun _ => (count, resp) }

/-- The buffer of the most recent `write` of a history, all zero when there is none. -/
def last_write (t : Trace) : mcp2210_packet :=
  t.foldl (fun acc e => match e with
    | IoEvent.write buf => buf
    | _ => acc) zero_packet

/-- The answer of a well-behaved device to the SPI transfer request `req`: the command code
0x42, no error, a byte count equal to the chunk length of the request, the status
`MCP2210_SPI_DATA` and the payload of the request looped back. -/
def spi_ok_response (req : mcp2210_packet) : mcp2210_packet :=
  fun j =>
    if j.val = 0 then 0x42
    else if j.val = 1 then 0
    else if j.val = 2 then req 1
    else if j.val = 3 then 0x30
    else rd_byte req (j.val - 2)

/-- A device that completes every write and read and answers every request with
`spi_ok_response`. -/
def loopback_device : Device :=
  { write := fun _ _ => 64, read := fun t => (64, spi_ok_response (last_write t)) }

/-- A device that reports "SPI transfer already in progress" (error code 0xf8) for its first
`k` exchanges and answers like `loopback_device` afterwards. -/
def busy_device (k : Nat) : Device :=
  { write := fun _ _ => 64,
    read := fun t =>
      (64, if count_writes t ≤ k then packet_of_list [0x42, 0xf8]
           else spi_ok_response (last_write t)) }

/-- An SPI settings frame with the bit rate 1000000 and all delays 0. -/
def spi_settings_frame : mcp2210_packet :=
  packet_of_list [0x41, 0, 0, 0, 0x40, 0x42, 0x0f, 0x00]

/-- The memory holding the bytes 0, 1, 2, ... (modulo 256). -/
def counting_data : Buffer := fun i => ⟨i % 256, Nat.mod_lt i (by decide)⟩

/-- The state in which `mcp2210_spi_transfer` first arrives at `retry` when it transfers
120 bytes of `counting_data` with `spi_settings_frame` after an empty history. -/
def sample_spi_state : SpiState :=
  { trace := [], data := counting_data, rd := 0, wr := 0, packet := zero_packet,
    wr_len := 58, delay := { tv_sec := 0, tv_nsec := 464000 } }

/-- A device that answers its first `k` exchanges like `loopback_device` and reports the
error code `code` for every later exchange. -/
def fail_after_device (k code : Nat) : Device :=
  { write := fun _ _ => 64,
    read := fun t =>
      (64, if count_writes t ≤ k then spi_ok_response (last_write t)
           else packet_of_list [0x42, code]) }

/-- A device that answers every exchange successfully and reports 60 received bytes, whatever
the length of the chunk it was sent. -/
def over_reporting_device : Device :=
  fixed_device 64 64 (packet_of_list [0x42, 0, 60, 0x30])

/-- The state in which the transfer of 120 bytes of `counting_data` with `spi_settings_frame`
arrives at `retry` for the second time on the device `fd`. -/
def spi_second_arrival (fd : Device) : SpiState :=
  match spi_retry_block fd spi_settings_frame 120 sample_spi_state with
  | SpiNext.at_retry st => st
  | SpiNext.finished _ => sample_spi_state

/-- An SPI settings frame with the bit rate 1000000, the delay between bytes 1 (100 us) and
the other delays 0. -/
def spi_byte_delay_frame : mcp2210_packet :=
  packet_of_list [0x41, 0, 0, 0, 0x40, 0x42, 0x0f, 0x00, 0, 0, 0, 0, 0, 0, 0, 0, 1, 0]

/-- An SPI settings frame with the bit rate 1000000, the delay between bytes 570 (57 ms) and
the other delays 0. -/
def spi_long_byte_delay_frame : mcp2210_packet :=
  packet_of_list [0x41, 0, 0, 0, 0x40, 0x42, 0x0f, 0x00, 0, 0, 0, 0, 0, 0, 0, 0, 0x3a, 0x02]

/-- An SPI settings frame whose bit rate bytes are ff ff ff ff, all delays 0. -/
def spi_all_ones_rate_frame : mcp2210_packet :=
  packet_of_list [0x41, 0, 0, 0, 0xff, 0xff, 0xff, 0xff]

/-- An SPI settings frame whose bit rate bytes are fd ff ff ff, all delays 0. -/
def spi_high_rate_frame : mcp2210_packet :=
  packet_of_list [0x41, 0, 0, 0, 0xfd, 0xff, 0xff, 0xff]

/-- A device that answers every exchange successfully and reports 255 received bytes. -/
def max_reporting_device : Device :=
  fixed_device 64 64 (packet_of_list [0x42, 0, 255, 0x30])

/-- The variables of the tool when the option loop starts, after `--runtime`, `--nvram` or
`--both` set `runtime` and `nvram`. -/
def initial_util_state (runtime nvram : Nat) : UtilState :=
  { trace := [], runtime := runtime, nvram := nvram, chip_packet := zero_packet,
    nvram_chip_packet := zero_packet, chip_mod := 0, nvram_chip_mod := 0 }

/-- The answer of `chip_settings_device` to the NVRAM read of the chip settings: pin functions
1 (bytes 4-12), default output 0x01ff, default direction 0, byte 17 = 0x12 (wake-up on, GP6
mode 1), access control 0x40. -/
def nvram_chip_response : mcp2210_packet :=
  packet_of_list [0x61, 0, 0x20, 0, 1, 1, 1, 1, 1, 1, 1, 1, 1, 0xff, 0x01, 0, 0, 0x12, 0x40]

/-- The answer of `chip_settings_device` to the read of the run-time chip settings: pin
functions 2, byte 17 = 0x01. -/
def runtime_chip_response : mcp2210_packet :=
  packet_of_list [0x20, 0, 0, 0, 2, 2, 2, 2, 2, 2, 2, 2, 2, 0, 0, 0, 0, 0x01, 0]

/-- A device that completes every write and read, answers the NVRAM read (0x61) with
`nvram_chip_response`, the run-time chip read (0x20) with `runtime_chip_response`, and any
other command with its command code and, in byte 2, its byte 1. -/
def chip_settings_device : Device :=
  { write := fun _ _ => 64,
    read := fun t =>
      (64, if rd (last_write t) 0 = 0x61 then nvram_chip_response
           else if rd (last_write t) 0 = 0x20 then runtime_chip_response
           else packet_of_list [rd (last_write t) 0, 0, rd (last_write t) 1]) }

/-! ## Basic facts about packets -/

theorem rd_lt (p : mcp2210_packet) (i : Nat) : rd p i < 256 := by
  unfold rd
  split
  · exact (p _).isLt
  · decide

theorem rd_wr (p : mcp2210_packet) (i j v : Nat) :
    rd (wr p i v) j = if j = i ∧ j < 64 then v % 256 else rd p j := by
  unfold rd wr
  by_cases h : j < 64
  · by_cases e : j = i
    · subst e; simp [h]
    · simp [h, e]
  · simp [h]

theorem rd_wr_same (p : mcp2210_packet) (i v : Nat) (h : i < 64) :
    rd (wr p i v) i = v % 256 := by
  simp [rd_wr, h]

theorem rd_wr_ne (p : mcp2210_packet) (i j v : Nat) (h : j ≠ i) :
    rd (wr p i v) j = rd p j := by
  simp [rd_wr, h]

theorem wr_apply_ne (p : mcp2210_packet) (i v : Nat) (j : Fin 64) (h : j.val ≠ i) :
    wr p i v j = p j := by
  simp [wr, h]

theorem packet_ext (p q : mcp2210_packet) (h : ∀ i, i < 64 → rd p i = rd q i) : p = q := by
  funext j
  have := h j.val j.isLt
  simp only [rd, j.isLt, dite_true] at this
  exact Fin.ext this

theorem wr_rd_self (p : mcp2210_packet) (i : Nat) : wr p i (rd p i) = p := by
  apply packet_ext
  intro j hj
  rw [rd_wr]
  split
  · next h => rw [h.1]; exact Nat.mod_eq_of_lt (rd_lt p i)
  · rfl

/-! ## Bit-level facts -/

theorem bit_of_eq_testBit (x i : Nat) : bit_of x i = (x.testBit i).toNat := by
  unfold bit_of
  rw [Nat.and_one_is_mod, Nat.shiftRight_eq_div_pow, Nat.toNat_testBit]

theorem testBit_byte_high (b i : Nat) (hb : b < 256) (hi : 8 ≤ i) : b.testBit i = false := by
  apply Nat.testBit_lt_two_pow
  calc b < 2 ^ 8 := hb
    _ ≤ 2 ^ i := Nat.pow_le_pow_right (by decide) hi

theorem testBit_int_not_one_shl (j i : Nat) (hj : j < 32) :
    (int_not (1 <<< j)).testBit i = (decide (i < 32) && !decide (j = i)) := by
  have h1 : (2:Nat) ^ j < 2 ^ 32 := Nat.pow_lt_pow_right (by decide) hj
  have h2 : int_not (1 <<< j) = 2 ^ 32 - (2 ^ j + 1) := by
    unfold int_not
    rw [Nat.one_shiftLeft, Nat.mod_eq_of_lt h1]
    omega
  rw [h2, Nat.testBit_two_pow_sub_succ h1, Nat.testBit_two_pow]

theorem testBit_set_bit (b j i : Nat) :
    ((b ||| (1 <<< j)) % 256).testBit i = (decide (i < 8) && (b.testBit i || decide (j = i))) := by
  have : (256 : Nat) = 2 ^ 8 := by norm_num
  rw [this, Nat.testBit_mod_two_pow, Nat.testBit_or, Nat.one_shiftLeft, Nat.testBit_two_pow]

theorem testBit_clear_bit (b j i : Nat) (hj : j < 32) :
    ((b &&& int_not (1 <<< j)) % 256).testBit i =
      (decide (i < 8) && (b.testBit i && !decide (j = i))) := by
  have : (256 : Nat) = 2 ^ 8 := by norm_num
  rw [this, Nat.testBit_mod_two_pow, Nat.testBit_and, testBit_int_not_one_shl j i hj]
  by_cases h8 : i < 8
  · have : i < 32 := by omega
    simp [h8, this]
  · simp [h8]

/-! ## The five accessor pairs are instances of the shared shape -/

theorem gpio_get_pin_eq : mcp2210_gpio_get_pin = pin_get 4 := rfl
theorem gpio_set_pin_eq : mcp2210_gpio_set_pin = pin_set 4 := rfl
theorem chip_get_default_output_eq : mcp2210_chip_get_default_output = pin_get 13 := rfl
theorem chip_set_default_output_eq : mcp2210_chip_set_default_output = pin_set 13 := rfl
theorem chip_get_default_direction_eq : mcp2210_chip_get_default_direction = pin_get 15 := rfl
theorem chip_set_default_direction_eq : mcp2210_chip_set_default_direction = pin_set 15 := rfl
theorem spi_get_pin_active_cs_eq : mcp2210_spi_get_pin_active_cs = pin_get 8 := rfl
theorem spi_set_pin_active_cs_eq : mcp2210_spi_set_pin_active_cs = pin_set 8 := rfl
theorem spi_get_pin_idle_cs_eq : mcp2210_spi_get_pin_idle_cs = pin_get 10 := rfl
theorem spi_set_pin_idle_cs_eq : mcp2210_spi_set_pin_idle_cs = pin_set 10 := rfl

/-! ## Pin accessors -/

/-- The getter reads bit `pin mod 8` of the byte at `pin_byte lo pin`. -/
theorem pin_get_eq_bit (lo : Nat) (p : mcp2210_packet) (pin : Nat) (hp : pin ≤ 8) :
    pin_get lo p pin = bit_of (rd p (pin_byte lo pin)) (pin % 8) := by
  unfold pin_get pin_byte
  change bit_of _ _ = _
  rw [bit_of_eq_testBit, bit_of_eq_testBit, Nat.testBit_or, Nat.testBit_shiftLeft]
  by_cases h : pin < 8
  · have h1 : ¬ pin ≥ 8 := by omega
    have h2 : pin % 8 = pin := Nat.mod_eq_of_lt h
    simp [h1, h2]
  · have h1 : pin = 8 := by omega
    subst h1
    have := testBit_byte_high (rd p lo) 8 (rd_lt p lo) (le_refl 8)
    simp [this]

/-- The packet after a pin set: only the byte at `pin_byte lo pin` is rewritten. -/
theorem pin_set_eq_wr (lo : Nat) (p : mcp2210_packet) (pin val : Nat) (hp : pin ≤ 8) :
    pin_set lo p pin val = wr p (pin_byte lo pin)
      (if val ≠ 0 then rd p (pin_byte lo pin) ||| (1 <<< (pin % 8))
       else rd p (pin_byte lo pin) &&& int_not (1 <<< (pin % 8))) := by
  unfold pin_set pin_byte
  by_cases h : pin < 8
  · have h1 : ¬ pin ≥ 8 := by omega
    have h2 : pin % 8 = pin := Nat.mod_eq_of_lt h
    by_cases hv : val = 0 <;> simp [h, h1, h2, hv]
  · have h1 : pin = 8 := by omega
    subst h1
    by_cases hv : val = 0 <;> simp [hv]

/-- Bit `i` of the byte holding pin `pin` after the set. -/
theorem pin_set_testBit (lo : Nat) (p : mcp2210_packet) (pin val i : Nat) (hp : pin ≤ 8)
    (hlo : lo + 1 < 64) :
    (rd (pin_set lo p pin val) (pin_byte lo pin)).testBit i =
      if i = pin % 8 then decide (val ≠ 0) else (rd p (pin_byte lo pin)).testBit i := by
  have hk : pin_byte lo pin < 64 := by unfold pin_byte; split <;> omega
  have hj : pin % 8 < 32 := by omega
  rw [pin_set_eq_wr lo p pin val hp, rd_wr_same _ _ _ hk]
  by_cases hv : val = 0
  · simp only [hv, ne_eq, not_true_eq_false, if_false, testBit_clear_bit _ _ _ hj]
    by_cases hi : i = pin % 8
    · simp [hi]
    · have hi2 : ¬ pin % 8 = i := fun e => hi e.symm
      by_cases h8 : i < 8
      · simp [hi, hi2, h8]
      · simp [hi, hi2, h8, testBit_byte_high _ i (rd_lt p _) (by omega)]
  · simp only [hv, ne_eq, not_false_eq_true, if_true, testBit_set_bit]
    by_cases hi : i = pin % 8
    · have h8 : i < 8 := by omega
      simp [hi, h8]
      omega
    · have hi2 : ¬ pin % 8 = i := fun e => hi e.symm
      by_cases h8 : i < 8
      · simp [hi, hi2, h8]
      · simp [hi, hi2, h8, testBit_byte_high _ i (rd_lt p _) (by omega)]

theorem pin_get_set_same (lo : Nat) (p : mcp2210_packet) (pin val : Nat) (hp : pin ≤ 8)
    (hlo : lo + 1 < 64) :
    pin_get lo (pin_set lo p pin val) pin = if val ≠ 0 then 1 else 0 := by
  rw [pin_get_eq_bit lo _ pin hp, bit_of_eq_testBit, pin_set_testBit lo p pin val _ hp hlo]
  by_cases hv : val = 0 <;> simp [hv]

theorem pin_set_apply_ne (lo : Nat) (p : mcp2210_packet) (pin val : Nat) (hp : pin ≤ 8)
    (i : Fin 64) (hi : i.val ≠ pin_byte lo pin) : pin_set lo p pin val i = p i := by
  rw [pin_set_eq_wr lo p pin val hp]
  exact wr_apply_ne _ _ _ _ hi

theorem pin_set_rd_ne (lo : Nat) (p : mcp2210_packet) (pin val : Nat) (hp : pin ≤ 8)
    (i : Nat) (hi : i ≠ pin_byte lo pin) : rd (pin_set lo p pin val) i = rd p i := by
  rw [pin_set_eq_wr lo p pin val hp]
  exact rd_wr_ne _ _ _ _ hi

theorem pin_get_set_other (lo : Nat) (p : mcp2210_packet) (pin q val : Nat) (hp : pin ≤ 8)
    (hq : q ≤ 8) (hne : pin ≠ q) (hlo : lo + 1 < 64) :
    pin_get lo (pin_set lo p pin val) q = pin_get lo p q := by
  rw [pin_get_eq_bit lo _ q hq, pin_get_eq_bit lo p q hq]
  by_cases hb : pin_byte lo q = pin_byte lo pin
  · rw [hb, bit_of_eq_testBit, bit_of_eq_testBit, pin_set_testBit lo p pin val _ hp hlo]
    have : q % 8 ≠ pin % 8 := by
      unfold pin_byte at hb
      split at hb <;> split at hb <;> omega
    simp [this]
  · rw [pin_set_rd_ne lo p pin val hp _ hb]

theorem pin_set_get_self (lo : Nat) (p : mcp2210_packet) (pin : Nat) (hp : pin ≤ 8)
    (hlo : lo + 1 < 64) : pin_set lo p pin (pin_get lo p pin) = p := by
  apply packet_ext
  intro i _
  by_cases hi : i = pin_byte lo pin
  · subst hi
    apply Nat.eq_of_testBit_eq
    intro k
    rw [pin_set_testBit lo p pin _ k hp hlo]
    split
    · next hk =>
      rw [hk, pin_get_eq_bit lo p pin hp, bit_of_eq_testBit]
      cases (rd p (pin_byte lo pin)).testBit (pin % 8) <;> simp
    · rfl
  · exact pin_set_rd_ne lo p pin _ hp i hi

/-! ## Pin-bitmask fields: read-after-write, frame, layout -/

/-- C1: for every frame `f`, every pin index `p` in 0..8 and every bit value `v` in {0,1},
reading pin `p` after writing `v` to pin `p` returns `v`, for the GPIO, chip default-output,
chip default-direction, SPI active-CS and SPI idle-CS accessor pairs. -/
theorem pin_get_after_set (f : mcp2210_packet) (p v : Nat) (hp : p ≤ 8) (hv : v ≤ 1) :
    mcp2210_gpio_get_pin (mcp2210_gpio_set_pin f p v) p = v ∧
    mcp2210_chip_get_default_output (mcp2210_chip_set_default_output f p v) p = v ∧
    mcp2210_chip_get_default_direction (mcp2210_chip_set_default_direction f p v) p = v ∧
    mcp2210_spi_get_pin_active_cs (mcp2210_spi_set_pin_active_cs f p v) p = v ∧
    mcp2210_spi_get_pin_idle_cs (mcp2210_spi_set_pin_idle_cs f p v) p = v := by
  have key : ∀ lo, lo + 1 < 64 → pin_get lo (pin_set lo f p v) p = v := by
    intro lo hlo
    rw [pin_get_set_same lo f p v hp hlo]
    split <;> omega
  exact ⟨key 4 (by decide), key 13 (by decide), key 15 (by decide), key 8 (by decide),
    key 10 (by decide)⟩

theorem pin_get_after_set_witness :
    ((8 : Nat) ≤ 8 ∧ (1 : Nat) ≤ 1) ∧
    (mcp2210_gpio_get_pin (mcp2210_gpio_set_pin zero_packet 8 1) 8 = 1 ∧
    mcp2210_chip_get_default_output (mcp2210_chip_set_default_output zero_packet 8 1) 8 = 1 ∧
    mcp2210_chip_get_default_direction
      (mcp2210_chip_set_default_direction zero_packet 8 1) 8 = 1 ∧
    mcp2210_spi_get_pin_active_cs (mcp2210_spi_set_pin_active_cs zero_packet 8 1) 8 = 1 ∧
    mcp2210_spi_get_pin_idle_cs (mcp2210_spi_set_pin_idle_cs zero_packet 8 1) 8 = 1) :=
  ⟨⟨by decide, by decide⟩, pin_get_after_set zero_packet 8 1 (by decide) (by decide)⟩

/-- C2: for every frame `f`, distinct pin indices `p`, `q` in 0..8 and every value `v`,
setting pin `p` with any of the five pin setters leaves the getter result for pin `q`
unchanged and leaves every byte other than the one holding pin `p` (offset
`base + (1 if p >= 8 else 0)`) unchanged. -/
theorem pin_set_preserves_others (f : mcp2210_packet) (p q v : Nat) (hp : p ≤ 8) (hq : q ≤ 8)
    (hpq : p ≠ q) :
    (mcp2210_gpio_get_pin (mcp2210_gpio_set_pin f p v) q = mcp2210_gpio_get_pin f q ∧
      ∀ i : Fin 64, i.val ≠ 4 + (if p ≥ 8 then 1 else 0) →
        mcp2210_gpio_set_pin f p v i = f i) ∧
    (mcp2210_chip_get_default_output (mcp2210_chip_set_default_output f p v) q =
        mcp2210_chip_get_default_output f q ∧
      ∀ i : Fin 64, i.val ≠ 13 + (if p ≥ 8 then 1 else 0) →
        mcp2210_chip_set_default_output f p v i = f i) ∧
    (mcp2210_chip_get_default_direction (mcp2210_chip_set_default_direction f p v) q =
        mcp2210_chip_get_default_direction f q ∧
      ∀ i : Fin 64, i.val ≠ 15 + (if p ≥ 8 then 1 else 0) →
        mcp2210_chip_set_default_direction f p v i = f i) ∧
    (mcp2210_spi_get_pin_active_cs (mcp2210_spi_set_pin_active_cs f p v) q =
        mcp2210_spi_get_pin_active_cs f q ∧
      ∀ i : Fin 64, i.val ≠ 8 + (if p ≥ 8 then 1 else 0) →
        mcp2210_spi_set_pin_active_cs f p v i = f i) ∧
    (mcp2210_spi_get_pin_idle_cs (mcp2210_spi_set_pin_idle_cs f p v) q =
        mcp2210_spi_get_pin_idle_cs f q ∧
      ∀ i : Fin 64, i.val ≠ 10 + (if p ≥ 8 then 1 else 0) →
        mcp2210_spi_set_pin_idle_cs f p v i = f i) := by
  have key : ∀ lo, lo + 1 < 64 →
      (pin_get lo (pin_set lo f p v) q = pin_get lo f q ∧
        ∀ i : Fin 64, i.val ≠ lo + (if p ≥ 8 then 1 else 0) → pin_set lo f p v i = f i) :=
    fun lo hlo => ⟨pin_get_set_other lo f p q v hp hq hpq hlo,
      fun i hi => pin_set_apply_ne lo f p v hp i hi⟩
  exact ⟨key 4 (by decide), key 13 (by decide), key 15 (by decide), key 8 (by decide),
    key 10 (by decide)⟩

theorem pin_set_preserves_others_witness :
    ((3 : Nat) ≤ 8 ∧ (8 : Nat) ≤ 8 ∧ (3 : Nat) ≠ 8) ∧
    mcp2210_gpio_get_pin (mcp2210_gpio_set_pin (packet_of_list [0, 0, 0, 0, 0xa5, 1]) 3 1) 8 =
      mcp2210_gpio_get_pin (packet_of_list [0, 0, 0, 0, 0xa5, 1]) 8 :=
  ⟨⟨by decide, by decide, by decide⟩,
    (pin_set_preserves_others (packet_of_list [0, 0, 0, 0, 0xa5, 1]) 3 8 1
      (by decide) (by decide) (by decide)).1.1⟩

/-- C3: for each pin-bitmask field with base offset `b` (GPIO 4, chip default output 13,
chip default direction 15, SPI active CS 8, SPI idle CS 10) and every pin `p` in 0..8, the
getter returns bit `p mod 8` of frame byte `b + (1 if p >= 8 else 0)`, and the setter writes
that same bit: afterwards that bit is 1 exactly when the value written is non-zero, and the
other bits of the byte keep their values. -/
theorem pin_layout (f : mcp2210_packet) (p v : Nat) (hp : p ≤ 8) :
    (mcp2210_gpio_get_pin f p = bit_of (rd f (4 + (if p ≥ 8 then 1 else 0))) (p % 8) ∧
      ∀ i, (rd (mcp2210_gpio_set_pin f p v) (4 + (if p ≥ 8 then 1 else 0))).testBit i =
        if i = p % 8 then decide (v ≠ 0)
        else (rd f (4 + (if p ≥ 8 then 1 else 0))).testBit i) ∧
    (mcp2210_chip_get_default_output f p =
        bit_of (rd f (13 + (if p ≥ 8 then 1 else 0))) (p % 8) ∧
      ∀ i, (rd (mcp2210_chip_set_default_output f p v)
          (13 + (if p ≥ 8 then 1 else 0))).testBit i =
        if i = p % 8 then decide (v ≠ 0)
        else (rd f (13 + (if p ≥ 8 then 1 else 0))).testBit i) ∧
    (mcp2210_chip_get_default_direction f p =
        bit_of (rd f (15 + (if p ≥ 8 then 1 else 0))) (p % 8) ∧
      ∀ i, (rd (mcp2210_chip_set_default_direction f p v)
          (15 + (if p ≥ 8 then 1 else 0))).testBit i =
        if i = p % 8 then decide (v ≠ 0)
        else (rd f (15 + (if p ≥ 8 then 1 else 0))).testBit i) ∧
    (mcp2210_spi_get_pin_active_cs f p =
        bit_of (rd f (8 + (if p ≥ 8 then 1 else 0))) (p % 8) ∧
      ∀ i, (rd (mcp2210_spi_set_pin_active_cs f p v)
          (8 + (if p ≥ 8 then 1 else 0))).testBit i =
        if i = p % 8 then decide (v ≠ 0)
        else (rd f (8 + (if p ≥ 8 then 1 else 0))).testBit i) ∧
    (mcp2210_spi_get_pin_idle_cs f p =
        bit_of (rd f (10 + (if p ≥ 8 then 1 else 0))) (p % 8) ∧
      ∀ i, (rd (mcp2210_spi_set_pin_idle_cs f p v)
          (10 + (if p ≥ 8 then 1 else 0))).testBit i =
        if i = p % 8 then decide (v ≠ 0)
        else (rd f (10 + (if p ≥ 8 then 1 else 0))).testBit i) := by
  have key : ∀ lo, lo + 1 < 64 →
      (pin_get lo f p = bit_of (rd f (lo + (if p ≥ 8 then 1 else 0))) (p % 8) ∧
        ∀ i, (rd (pin_set lo f p v) (lo + (if p ≥ 8 then 1 else 0))).testBit i =
          if i = p % 8 then decide (v ≠ 0)
          else (rd f (lo + (if p ≥ 8 then 1 else 0))).testBit i) :=
    fun lo hlo => ⟨pin_get_eq_bit lo f p hp, fun i => pin_set_testBit lo f p v i hp hlo⟩
  exact ⟨key 4 (by decide), key 13 (by decide), key 15 (by decide), key 8 (by decide),
    key 10 (by decide)⟩

theorem pin_layout_witness :
    (8 : Nat) ≤ 8 ∧
    mcp2210_gpio_get_pin (packet_of_list [0, 0, 0, 0, 0xff, 0xfe]) 8 =
      bit_of (rd (packet_of_list [0, 0, 0, 0, 0xff, 0xfe]) (4 + (if 8 ≥ 8 then 1 else 0)))
        (8 % 8) :=
  ⟨by decide, (pin_layout (packet_of_list [0, 0, 0, 0, 0xff, 0xfe]) 8 1 (by decide)).1.1⟩

/-! ## More facts about packet writes -/

theorem wr_wr_same (p : mcp2210_packet) (i a b : Nat) : wr (wr p i a) i b = wr p i b := by
  funext j
  unfold wr
  split <;> rfl

theorem wr_eq_self (p : mcp2210_packet) (i v : Nat) (h : v % 256 = rd p i) : wr p i v = p := by
  apply packet_ext
  intro j _
  rw [rd_wr]
  split
  · next hj => rw [h, hj.1]
  · rfl

theorem foldl_fixed {α : Type} (step : mcp2210_packet → α → mcp2210_packet)
    (f : mcp2210_packet) (l : List α) (h : ∀ x ∈ l, step f x = f) : l.foldl step f = f := by
  induction l with
  | nil => rfl
  | cons x xs ih =>
    rw [List.foldl_cons, h x (List.mem_cons_self x xs)]
    exact ih (fun y hy => h y (List.mem_cons_of_mem x hy))

/-! ## Little-endian fields -/

theorem and_ff (v : Nat) : v &&& 0xff = v % 256 := Nat.and_pow_two_sub_one_eq_mod v 8

theorem or_shl (lo hi k : Nat) (h : lo < 2 ^ k) : lo ||| (hi <<< k) = lo + hi * 2 ^ k := by
  rw [Nat.lor_comm, Nat.shiftLeft_eq, Nat.mul_comm, ← Nat.mul_add_lt_is_or h]
  omega

theorem int_shiftRight_eq_div (x : Int) (s : Nat) :
    Int.shiftRight x s = x / ((2 ^ s : Nat) : Int) := by
  cases x with
  | ofNat n =>
    show Int.ofNat (n >>> s) = _
    rw [Nat.shiftRight_eq_div_pow]
    rfl
  | negSucc n =>
    show Int.negSucc (n >>> s) = _
    have h : 0 < ((2 ^ s : Nat) : Int) := by positivity
    rw [Nat.shiftRight_eq_div_pow, Int.negSucc_ediv n h, Int.negSucc_eq]
    simp
    rfl

theorem u16_get_eq (lo : Nat) (p : mcp2210_packet) :
    u16_get lo p = rd p lo + rd p (lo + 1) * 256 := by
  unfold u16_get
  rw [or_shl _ _ 8 (rd_lt p lo)]
  norm_num

theorem u16_set_rd_lo (lo : Nat) (p : mcp2210_packet) (v : Nat) (hlo : lo + 1 < 64) :
    rd (u16_set lo p v) lo = v % 256 := by
  unfold u16_set
  rw [rd_wr_ne _ _ _ _ (by omega), rd_wr_same _ _ _ (by omega), and_ff]
  omega

theorem u16_set_rd_hi (lo : Nat) (p : mcp2210_packet) (v : Nat) (hlo : lo + 1 < 64) :
    rd (u16_set lo p v) (lo + 1) = v / 256 % 256 := by
  unfold u16_set
  rw [rd_wr_same _ _ _ hlo, and_ff, Nat.shiftRight_eq_div_pow]
  norm_num

theorem u16_get_set (lo : Nat) (p : mcp2210_packet) (v : Nat) (hlo : lo + 1 < 64)
    (hv : v ≤ 0xFFFF) : u16_get lo (u16_set lo p v) = v := by
  rw [u16_get_eq, u16_set_rd_lo lo p v hlo, u16_set_rd_hi lo p v hlo]
  omega

theorem u16_set_apply_ne (lo : Nat) (p : mcp2210_packet) (v : Nat) (i : Fin 64)
    (h1 : i.val ≠ lo) (h2 : i.val ≠ lo + 1) : u16_set lo p v i = p i := by
  unfold u16_set
  rw [wr_apply_ne _ _ _ _ h2, wr_apply_ne _ _ _ _ h1]

theorem u16_set_get_self (lo : Nat) (p : mcp2210_packet) :
    u16_set lo p (u16_get lo p) = p := by
  have h0 := rd_lt p lo
  have h1 := rd_lt p (lo + 1)
  unfold u16_set
  rw [u16_get_eq, and_ff, and_ff, Nat.shiftRight_eq_div_pow]
  have e1 : wr p lo ((rd p lo + rd p (lo + 1) * 256) % 256) = p :=
    wr_eq_self _ _ _ (by omega)
  rw [e1]
  exact wr_eq_self _ _ _ (by norm_num; omega)

theorem spi_get_cs_data_delay_eq : mcp2210_spi_get_cs_data_delay_100us = u16_get 12 := rfl
theorem spi_set_cs_data_delay_eq : mcp2210_spi_set_cs_data_delay_100us = u16_set 12 := rfl
theorem spi_get_data_cs_delay_eq : mcp2210_spi_get_data_cs_delay_100us = u16_get 14 := rfl
theorem spi_set_data_cs_delay_eq : mcp2210_spi_set_data_cs_delay_100us = u16_set 14 := rfl
theorem spi_get_byte_delay_eq : mcp2210_spi_get_byte_delay_100us = u16_get 16 := rfl
theorem spi_set_byte_delay_eq : mcp2210_spi_set_byte_delay_100us = u16_set 16 := rfl
theorem spi_get_transaction_size_eq : mcp2210_spi_get_transaction_size = u16_get 18 := rfl
theorem spi_set_transaction_size_eq : mcp2210_spi_set_transaction_size = u16_set 18 := rfl

/-! ## The SPI bit rate -/

/-- The 32-bit pattern assembled by the bit-rate getter is the little-endian value of
bytes 4..7. -/
theorem bitrate_bits_eq (p : mcp2210_packet) :
    rd p 4 ||| (rd p 5 <<< 8) ||| (rd p 6 <<< 16) ||| (rd p 7 <<< 24) =
      rd p 4 + rd p 5 * 256 + rd p 6 * 65536 + rd p 7 * 16777216 := by
  have h4 := rd_lt p 4
  have h5 := rd_lt p 5
  have h6 := rd_lt p 6
  rw [or_shl _ _ 8 h4, or_shl _ _ 16 (by norm_num; omega), or_shl _ _ 24 (by norm_num; omega)]
  norm_num

theorem spi_get_bitrate_eq (p : mcp2210_packet) :
    mcp2210_spi_get_bitrate p =
      if rd p 7 < 128 then
        ((rd p 4 + rd p 5 * 256 + rd p 6 * 65536 + rd p 7 * 16777216 : Nat) : Int)
      else
        ((rd p 4 + rd p 5 * 256 + rd p 6 * 65536 + rd p 7 * 16777216 : Nat) : Int) - 2 ^ 32 := by
  have h4 := rd_lt p 4
  have h5 := rd_lt p 5
  have h6 := rd_lt p 6
  have h7 := rd_lt p 7
  unfold mcp2210_spi_get_bitrate int_of_bits32
  rw [bitrate_bits_eq]
  have hm : (rd p 4 + rd p 5 * 256 + rd p 6 * 65536 + rd p 7 * 16777216) % 2 ^ 32 =
      rd p 4 + rd p 5 * 256 + rd p 6 * 65536 + rd p 7 * 16777216 :=
    Nat.mod_eq_of_lt (by norm_num; omega)
  rw [hm]
  by_cases h : rd p 7 < 128
  · rw [if_pos h, if_pos (by norm_num; omega)]
  · rw [if_neg h, if_neg (by norm_num; omega)]

theorem spi_set_bitrate_rd (p : mcp2210_packet) (b : Int) :
    rd (mcp2210_spi_set_bitrate p b) 4 = (b % 256).toNat ∧
    rd (mcp2210_spi_set_bitrate p b) 5 = (b / 256 % 256).toNat ∧
    rd (mcp2210_spi_set_bitrate p b) 6 = (b / 65536 % 256).toNat ∧
    rd (mcp2210_spi_set_bitrate p b) 7 = (b / 16777216 % 256).toNat := by
  unfold mcp2210_spi_set_bitrate long_and_ff
  simp only [rd_wr, int_shiftRight_eq_div]
  norm_num
  refine ⟨?_, ?_, ?_, ?_⟩ <;> omega

theorem spi_get_set_bitrate (p : mcp2210_packet) (b : Int) (h0 : 0 ≤ b) (h1 : b < 2 ^ 31) :
    mcp2210_spi_get_bitrate (mcp2210_spi_set_bitrate p b) = b := by
  obtain ⟨e4, e5, e6, e7⟩ := spi_set_bitrate_rd p b
  rw [spi_get_bitrate_eq, e4, e5, e6, e7]
  split <;> omega

theorem spi_set_get_bitrate_self (p : mcp2210_packet) :
    mcp2210_spi_set_bitrate p (mcp2210_spi_get_bitrate p) = p := by
  have h4 := rd_lt p 4
  have h5 := rd_lt p 5
  have h6 := rd_lt p 6
  have h7 := rd_lt p 7
  obtain ⟨e4, e5, e6, e7⟩ := spi_set_bitrate_rd p (mcp2210_spi_get_bitrate p)
  apply packet_ext
  intro i hi
  by_cases c4 : i = 4
  · subst c4; rw [e4, spi_get_bitrate_eq]; split <;> omega
  by_cases c5 : i = 5
  · subst c5; rw [e5, spi_get_bitrate_eq]; split <;> omega
  by_cases c6 : i = 6
  · subst c6; rw [e6, spi_get_bitrate_eq]; split <;> omega
  by_cases c7 : i = 7
  · subst c7; rw [e7, spi_get_bitrate_eq]; split <;> omega
  unfold mcp2210_spi_set_bitrate
  simp only [rd_wr, c4, c5, c6, c7, false_and, if_false]

/-! ## Read-modify-write of one byte -/

theorem wr_wr_rd_or (p : mcp2210_packet) (i a b : Nat) (hi : i < 64) :
    wr (wr p i a) i (rd (wr p i a) i ||| b) = wr p i (a % 256 ||| b) := by
  rw [rd_wr_same _ _ _ hi, wr_wr_same]

set_option maxRecDepth 100000 in
theorem byte_wakeup_write_back :
    ∀ b, b < 256 →
      ((b &&& int_not 0x10) % 256 ||| (bang_bang (bang_bang (b &&& 0x10)) <<< 4)) % 256 = b := by
  decide

set_option maxRecDepth 100000 in
theorem byte_gp6_mode_write_back :
    ∀ b, b < 256 → ((b &&& int_not 0xe) % 256 ||| (((b >>> 1) &&& 7) <<< 1)) % 256 = b := by
  decide

set_option maxRecDepth 100000 in
theorem byte_no_spi_release_write_back :
    ∀ b, b < 256 →
      ((b &&& int_not 0x1) % 256 ||| bang_bang (bang_bang (b &&& 0x1))) % 256 = b := by
  decide

theorem chip_set_get_wakeup_self (p : mcp2210_packet) :
    mcp2210_chip_set_wakeup p (mcp2210_chip_get_wakeup p) = p := by
  unfold mcp2210_chip_set_wakeup mcp2210_chip_get_wakeup
  simp only []
  rw [wr_wr_rd_or _ _ _ _ (by decide)]
  exact wr_eq_self _ _ _ (byte_wakeup_write_back _ (rd_lt p 17))

theorem chip_set_get_gp6_mode_self (p : mcp2210_packet) :
    mcp2210_chip_set_gp6_mode p (mcp2210_chip_get_gp6_mode p) = p := by
  unfold mcp2210_chip_set_gp6_mode mcp2210_chip_get_gp6_mode
  simp only []
  rw [wr_wr_rd_or _ _ _ _ (by decide)]
  exact wr_eq_self _ _ _ (byte_gp6_mode_write_back _ (rd_lt p 17))

theorem chip_set_get_no_spi_release_self (p : mcp2210_packet) :
    mcp2210_chip_set_no_spi_release p (mcp2210_chip_get_no_spi_release p) = p := by
  unfold mcp2210_chip_set_no_spi_release mcp2210_chip_get_no_spi_release
  simp only []
  rw [wr_wr_rd_or _ _ _ _ (by decide)]
  exact wr_eq_self _ _ _ (byte_no_spi_release_write_back _ (rd_lt p 17))

theorem pins_write_back (lo : Nat) (f : mcp2210_packet) (hlo : lo + 1 < 64) :
    (List.range 9).foldl (fun acc pin => pin_set lo acc pin (pin_get lo f pin)) f = f := by
  apply foldl_fixed
  intro pin hpin
  have hp : pin ≤ 8 := by
    have := List.mem_range.mp hpin
    omega
  exact pin_set_get_self lo f pin hp hlo

/-! ## Round trip of the settings views -/

/-- C4: for every frame `f`, decoding every field with its getter and writing each decoded
value back into `f` with the matching setter yields a frame identical to `f`, for the GPIO
view (pins 0..8), the SPI view (bit rate, active-CS and idle-CS pins 0..8, the three delays,
transaction size, mode) and the chip view (pin functions 0..8, default-output and
default-direction pins 0..8, wake-up, GP6 mode, no-SPI-release, access control). -/
theorem write_back_identity (f : mcp2210_packet) :
    gpio_write_back f f = f ∧ spi_write_back f f = f ∧ chip_write_back f f = f := by
  refine ⟨?_, ?_, ?_⟩
  · exact pins_write_back 4 f (by decide)
  · unfold spi_write_back
    simp only []
    rw [spi_set_get_bitrate_self]
    have h8 := pins_write_back 8 f (by decide)
    have h10 := pins_write_back 10 f (by decide)
    rw [spi_set_pin_active_cs_eq, spi_get_pin_active_cs_eq, h8, spi_set_pin_idle_cs_eq,
      spi_get_pin_idle_cs_eq, h10, spi_set_cs_data_delay_eq, spi_get_cs_data_delay_eq,
      u16_set_get_self, spi_set_data_cs_delay_eq, spi_get_data_cs_delay_eq, u16_set_get_self,
      spi_set_byte_delay_eq, spi_get_byte_delay_eq, u16_set_get_self,
      spi_set_transaction_size_eq, spi_get_transaction_size_eq, u16_set_get_self]
    exact wr_rd_self f 20
  · unfold chip_write_back
    simp only []
    have hf : (List.range 9).foldl
        (fun acc pin => mcp2210_chip_set_function acc pin (mcp2210_chip_get_function f pin))
        f = f := by
      apply foldl_fixed
      intro pin _
      exact wr_rd_self f (4 + pin)
    have h13 := pins_write_back 13 f (by decide)
    have h15 := pins_write_back 15 f (by decide)
    rw [hf, chip_set_default_output_eq, chip_get_default_output_eq, h13,
      chip_set_default_direction_eq, chip_get_default_direction_eq, h15,
      chip_set_get_wakeup_self, chip_set_get_gp6_mode_self, chip_set_get_no_spi_release_self]
    exact wr_rd_self f 18

/-- C5 (the code at the failing input): storing the bit rate 0x80000000 and reading it back
returns -0x80000000, because the getter combines the bytes as `int` and byte 7 reaches the
sign bit; the stored bytes 4..7 are the little-endian bytes 00 00 00 80 of the value. -/
theorem spi_bitrate_high_half_reads_negative :
    mcp2210_spi_get_bitrate (mcp2210_spi_set_bitrate zero_packet 0x80000000) = -0x80000000 ∧
    rd (mcp2210_spi_set_bitrate zero_packet 0x80000000) 4 = 0 ∧
    rd (mcp2210_spi_set_bitrate zero_packet 0x80000000) 5 = 0 ∧
    rd (mcp2210_spi_set_bitrate zero_packet 0x80000000) 6 = 0 ∧
    rd (mcp2210_spi_set_bitrate zero_packet 0x80000000) 7 = 0x80 := by
  decide

/-- C6: for each 16-bit SPI field (CS-to-data delay at bytes 12-13, data-to-CS delay at bytes
14-15, inter-byte delay at bytes 16-17, transaction size at bytes 18-19) and every value `v`
in 0..0xFFFF, the getter after the setter returns `v`, the low byte of `v` is stored at the
lower offset and the high byte at the higher one, and no byte of the frame outside the two
bytes of the field changes. -/
theorem spi_u16_fields (f : mcp2210_packet) (v : Nat) (hv : v ≤ 0xFFFF) :
    (mcp2210_spi_get_cs_data_delay_100us (mcp2210_spi_set_cs_data_delay_100us f v) = v ∧
      rd (mcp2210_spi_set_cs_data_delay_100us f v) 12 = v % 256 ∧
      rd (mcp2210_spi_set_cs_data_delay_100us f v) 13 = v / 256 ∧
      ∀ i : Fin 64, i.val ≠ 12 → i.val ≠ 13 →
        mcp2210_spi_set_cs_data_delay_100us f v i = f i) ∧
    (mcp2210_spi_get_data_cs_delay_100us (mcp2210_spi_set_data_cs_delay_100us f v) = v ∧
      rd (mcp2210_spi_set_data_cs_delay_100us f v) 14 = v % 256 ∧
      rd (mcp2210_spi_set_data_cs_delay_100us f v) 15 = v / 256 ∧
      ∀ i : Fin 64, i.val ≠ 14 → i.val ≠ 15 →
        mcp2210_spi_set_data_cs_delay_100us f v i = f i) ∧
    (mcp2210_spi_get_byte_delay_100us (mcp2210_spi_set_byte_delay_100us f v) = v ∧
      rd (mcp2210_spi_set_byte_delay_100us f v) 16 = v % 256 ∧
      rd (mcp2210_spi_set_byte_delay_100us f v) 17 = v / 256 ∧
      ∀ i : Fin 64, i.val ≠ 16 → i.val ≠ 17 →
        mcp2210_spi_set_byte_delay_100us f v i = f i) ∧
    (mcp2210_spi_get_transaction_size (mcp2210_spi_set_transaction_size f v) = v ∧
      rd (mcp2210_spi_set_transaction_size f v) 18 = v % 256 ∧
      rd (mcp2210_spi_set_transaction_size f v) 19 = v / 256 ∧
      ∀ i : Fin 64, i.val ≠ 18 → i.val ≠ 19 →
        mcp2210_spi_set_transaction_size f v i = f i) := by
  have key : ∀ lo, lo + 1 < 64 →
      (u16_get lo (u16_set lo f v) = v ∧ rd (u16_set lo f v) lo = v % 256 ∧
        rd (u16_set lo f v) (lo + 1) = v / 256 ∧
        ∀ i : Fin 64, i.val ≠ lo → i.val ≠ lo + 1 → u16_set lo f v i = f i) := by
    intro lo hlo
    refine ⟨u16_get_set lo f v hlo hv, u16_set_rd_lo lo f v hlo, ?_,
      fun i h1 h2 => u16_set_apply_ne lo f v i h1 h2⟩
    rw [u16_set_rd_hi lo f v hlo]
    omega
  exact ⟨key 12 (by decide), key 14 (by decide), key 16 (by decide), key 18 (by decide)⟩

theorem spi_u16_fields_witness :
    (0xABCD : Nat) ≤ 0xFFFF ∧
    (mcp2210_spi_get_cs_data_delay_100us
        (mcp2210_spi_set_cs_data_delay_100us zero_packet 0xABCD) = 0xABCD ∧
      rd (mcp2210_spi_set_cs_data_delay_100us zero_packet 0xABCD) 12 = 0xABCD % 256 ∧
      rd (mcp2210_spi_set_cs_data_delay_100us zero_packet 0xABCD) 13 = 0xABCD / 256 ∧
      ∀ i : Fin 64, i.val ≠ 12 → i.val ≠ 13 →
        mcp2210_spi_set_cs_data_delay_100us zero_packet 0xABCD i = zero_packet i) :=
  ⟨by decide, (spi_u16_fields zero_packet 0xABCD (by decide)).1⟩

/-! ## USB key packets: the two layouts -/

theorem bang_bang_lt (x : Nat) : bang_bang x < 2 := by
  unfold bang_bang
  split <;> decide

theorem bang_bang_of_le_one (v : Nat) (hv : v ≤ 1) : bang_bang v = v := by
  unfold bang_bang
  split <;> omega

set_option maxRecDepth 100000 in
theorem byte_flag_bit :
    ∀ b, b < 256 → bang_bang (b &&& 0x80) = bit_of b 7 ∧ bang_bang (b &&& 0x40) = bit_of b 6 ∧
      bang_bang (b &&& 0x20) = bit_of b 5 := by
  decide

set_option maxRecDepth 100000 in
theorem byte_flag_set_get :
    ∀ b, b < 256 → ∀ t, t < 2 →
      bang_bang (((b &&& int_not 0x80) % 256 ||| (t <<< 7)) % 256 &&& 0x80) = t ∧
      bang_bang (((b &&& int_not 0x40) % 256 ||| (t <<< 6)) % 256 &&& 0x40) = t ∧
      bang_bang (((b &&& int_not 0x20) % 256 ||| (t <<< 5)) % 256 &&& 0x20) = t := by
  decide

theorem flag_set_eq_wr (off mask k : Nat) (p : mcp2210_packet) (v : Nat) (hoff : off < 64) :
    flag_set off mask k p v =
      wr p off ((rd p off &&& int_not mask) % 256 ||| (bang_bang v <<< k)) := by
  unfold flag_set
  exact wr_wr_rd_or _ _ _ _ hoff

theorem flag_get_set (off : Nat) (p : mcp2210_packet) (v : Nat) (hoff : off < 64) :
    flag_get off 0x80 (flag_set off 0x80 7 p v) = bang_bang v ∧
    flag_get off 0x40 (flag_set off 0x40 6 p v) = bang_bang v ∧
    flag_get off 0x20 (flag_set off 0x20 5 p v) = bang_bang v := by
  obtain ⟨h7, h6, h5⟩ := byte_flag_set_get _ (rd_lt p off) _ (bang_bang_lt v)
  unfold flag_get
  rw [flag_set_eq_wr _ _ _ _ _ hoff, flag_set_eq_wr _ _ _ _ _ hoff,
    flag_set_eq_wr _ _ _ _ _ hoff, rd_wr_same _ _ _ hoff, rd_wr_same _ _ _ hoff,
    rd_wr_same _ _ _ hoff]
  exact ⟨h7, h6, h5⟩

theorem flag_set_rd_ne (off mask k : Nat) (p : mcp2210_packet) (v j : Nat) (hj : j ≠ off) :
    rd (flag_set off mask k p v) j = rd p j := by
  unfold flag_set
  rw [rd_wr_ne _ _ _ _ hj, rd_wr_ne _ _ _ _ hj]

theorem u16_set_rd_ne (lo : Nat) (p : mcp2210_packet) (v j : Nat) (h1 : j ≠ lo)
    (h2 : j ≠ lo + 1) : rd (u16_set lo p v) j = rd p j := by
  unfold u16_set
  rw [rd_wr_ne _ _ _ _ h2, rd_wr_ne _ _ _ _ h1]

theorem usb_key_get_vid_eq (p : mcp2210_packet) :
    mcp2210_usb_key_get_vid p = u16_get (if rd p 0 = 0x60 then 4 else 12) p := by
  unfold mcp2210_usb_key_get_vid MCP2210_NVRAM_SET
  split <;> rfl

theorem usb_key_set_vid_eq (p : mcp2210_packet) (v : Nat) :
    mcp2210_usb_key_set_vid p v = u16_set (if rd p 0 = 0x61 then 12 else 4) p v := by
  unfold mcp2210_usb_key_set_vid MCP2210_NVRAM_GET
  split <;> rfl

theorem usb_key_get_pid_eq (p : mcp2210_packet) :
    mcp2210_usb_key_get_pid p = u16_get (if rd p 0 = 0x60 then 6 else 14) p := by
  unfold mcp2210_usb_key_get_pid MCP2210_NVRAM_SET
  split <;> rfl

theorem usb_key_set_pid_eq (p : mcp2210_packet) (v : Nat) :
    mcp2210_usb_key_set_pid p v = u16_set (if rd p 0 = 0x61 then 14 else 6) p v := by
  unfold mcp2210_usb_key_set_pid MCP2210_NVRAM_GET
  split <;> rfl

theorem usb_key_get_host_powered_eq (p : mcp2210_packet) :
    mcp2210_usb_key_get_host_powered p = flag_get (if rd p 0 = 0x60 then 8 else 29) 0x80 p := by
  unfold mcp2210_usb_key_get_host_powered MCP2210_NVRAM_SET
  split <;> rfl

theorem usb_key_set_host_powered_eq (p : mcp2210_packet) (v : Nat) :
    mcp2210_usb_key_set_host_powered p v =
      flag_set (if rd p 0 = 0x61 then 29 else 8) 0x80 7 p v := by
  unfold mcp2210_usb_key_set_host_powered MCP2210_NVRAM_GET
  split <;> rfl

theorem usb_key_get_self_powered_eq (p : mcp2210_packet) :
    mcp2210_usb_key_get_self_powered p = flag_get (if rd p 0 = 0x60 then 8 else 29) 0x40 p := by
  unfold mcp2210_usb_key_get_self_powered MCP2210_NVRAM_SET
  split <;> rfl

theorem usb_key_set_self_powered_eq (p : mcp2210_packet) (v : Nat) :
    mcp2210_usb_key_set_self_powered p v =
      flag_set (if rd p 0 = 0x61 then 29 else 8) 0x40 6 p v := by
  unfold mcp2210_usb_key_set_self_powered MCP2210_NVRAM_GET
  split <;> rfl

theorem usb_key_get_remote_wakeup_eq (p : mcp2210_packet) :
    mcp2210_usb_key_get_remote_wakeup p =
      flag_get (if rd p 0 = 0x60 then 8 else 29) 0x20 p := by
  unfold mcp2210_usb_key_get_remote_wakeup MCP2210_NVRAM_SET
  split <;> rfl

theorem usb_key_set_remote_wakeup_eq (p : mcp2210_packet) (v : Nat) :
    mcp2210_usb_key_set_remote_wakeup p v =
      flag_set (if rd p 0 = 0x61 then 29 else 8) 0x20 5 p v := by
  unfold mcp2210_usb_key_set_remote_wakeup MCP2210_NVRAM_GET
  split <;> rfl

theorem usb_key_get_current_eq (p : mcp2210_packet) :
    mcp2210_usb_key_get_current_2ma p = rd p (if rd p 0 = 0x60 then 9 else 30) := by
  unfold mcp2210_usb_key_get_current_2ma MCP2210_NVRAM_SET
  split <;> rfl

theorem usb_key_set_current_eq (p : mcp2210_packet) (v : Nat) :
    mcp2210_usb_key_set_current_2ma p v = wr p (if rd p 0 = 0x61 then 30 else 9) v := rfl

/-- C7: the USB key getters choose the layout from byte 0 of the frame. For a set-shaped
frame (byte 0 = 0x60) VID is the little-endian value of bytes 4-5, PID of bytes 6-7, the
host-powered, self-powered and remote-wakeup flags are bits 7, 6 and 5 of byte 8 and the
current is byte 9; for a get-shaped frame (byte 0 = 0x61) the same fields are read from
bytes 12-13, 14-15, bits 7, 6 and 5 of byte 29, and byte 30. -/
theorem usb_key_getters_layout (f : mcp2210_packet) :
    (MCP2210_NVRAM_SET = 0x60 ∧ MCP2210_NVRAM_GET = 0x61) ∧
    (rd f 0 = MCP2210_NVRAM_SET →
      mcp2210_usb_key_get_vid f = rd f 4 + rd f 5 * 256 ∧
      mcp2210_usb_key_get_pid f = rd f 6 + rd f 7 * 256 ∧
      mcp2210_usb_key_get_host_powered f = bit_of (rd f 8) 7 ∧
      mcp2210_usb_key_get_self_powered f = bit_of (rd f 8) 6 ∧
      mcp2210_usb_key_get_remote_wakeup f = bit_of (rd f 8) 5 ∧
      mcp2210_usb_key_get_current_2ma f = rd f 9) ∧
    (rd f 0 = MCP2210_NVRAM_GET →
      mcp2210_usb_key_get_vid f = rd f 12 + rd f 13 * 256 ∧
      mcp2210_usb_key_get_pid f = rd f 14 + rd f 15 * 256 ∧
      mcp2210_usb_key_get_host_powered f = bit_of (rd f 29) 7 ∧
      mcp2210_usb_key_get_self_powered f = bit_of (rd f 29) 6 ∧
      mcp2210_usb_key_get_remote_wakeup f = bit_of (rd f 29) 5 ∧
      mcp2210_usb_key_get_current_2ma f = rd f 30) := by
  refine ⟨⟨rfl, rfl⟩, ?_, ?_⟩
  · intro h
    have h0 : rd f 0 = 0x60 := h
    obtain ⟨b7, b6, b5⟩ := byte_flag_bit _ (rd_lt f 8)
    rw [usb_key_get_vid_eq, usb_key_get_pid_eq, usb_key_get_host_powered_eq,
      usb_key_get_self_powered_eq, usb_key_get_remote_wakeup_eq, usb_key_get_current_eq]
    simp only [h0, if_true, u16_get_eq, flag_get]
    exact ⟨trivial, trivial, b7, b6, b5, trivial⟩
  · intro h
    have h0 : rd f 0 = 0x61 := h
    have hne : ¬ rd f 0 = 0x60 := by omega
    obtain ⟨b7, b6, b5⟩ := byte_flag_bit _ (rd_lt f 29)
    rw [usb_key_get_vid_eq, usb_key_get_pid_eq, usb_key_get_host_powered_eq,
      usb_key_get_self_powered_eq, usb_key_get_remote_wakeup_eq, usb_key_get_current_eq]
    simp only [hne, if_false, u16_get_eq, flag_get]
    exact ⟨trivial, trivial, b7, b6, b5, trivial⟩

theorem usb_key_getters_layout_witness :
    (rd usb_key_set_frame 0 = MCP2210_NVRAM_SET ∧
      mcp2210_usb_key_get_vid usb_key_set_frame =
        rd usb_key_set_frame 4 + rd usb_key_set_frame 5 * 256) ∧
    (rd usb_key_get_frame 0 = MCP2210_NVRAM_GET ∧
      mcp2210_usb_key_get_vid usb_key_get_frame =
        rd usb_key_get_frame 12 + rd usb_key_get_frame 13 * 256) :=
  ⟨⟨by decide, ((usb_key_getters_layout usb_key_set_frame).2.1 (by decide)).1⟩,
    ⟨by decide, ((usb_key_getters_layout usb_key_get_frame).2.2 (by decide)).1⟩⟩

theorem usb_key_get_to_set_rd (g s : mcp2210_packet) :
    rd (mcp2210_usb_key_get_to_set g s) 0 = 0x60 ∧
    rd (mcp2210_usb_key_get_to_set g s) 4 = rd g 12 ∧
    rd (mcp2210_usb_key_get_to_set g s) 5 = rd g 13 ∧
    rd (mcp2210_usb_key_get_to_set g s) 6 = rd g 14 ∧
    rd (mcp2210_usb_key_get_to_set g s) 7 = rd g 15 ∧
    rd (mcp2210_usb_key_get_to_set g s) 8 = rd g 29 ∧
    rd (mcp2210_usb_key_get_to_set g s) 9 = rd g 30 := by
  unfold mcp2210_usb_key_get_to_set MCP2210_NVRAM_SET
  simp only [rd_wr]
  norm_num
  exact ⟨rd_lt g 12, rd_lt g 13, rd_lt g 14, rd_lt g 15, rd_lt g 29, rd_lt g 30⟩

/-- C8: for every get-shaped USB key frame `g` (byte 0 = 0x61) and every target frame `s`,
after `mcp2210_usb_key_get_to_set (g, s)` the frame `s` is set-shaped (byte 0 = 0x60) and
every logical field read from it (VID, PID, host-powered, self-powered, remote-wakeup,
current) equals the same field read from `g`. -/
theorem usb_key_get_to_set_preserves (g s : mcp2210_packet)
    (hg : rd g 0 = MCP2210_NVRAM_GET) :
    rd (mcp2210_usb_key_get_to_set g s) 0 = MCP2210_NVRAM_SET ∧
    mcp2210_usb_key_get_vid (mcp2210_usb_key_get_to_set g s) = mcp2210_usb_key_get_vid g ∧
    mcp2210_usb_key_get_pid (mcp2210_usb_key_get_to_set g s) = mcp2210_usb_key_get_pid g ∧
    mcp2210_usb_key_get_host_powered (mcp2210_usb_key_get_to_set g s) =
      mcp2210_usb_key_get_host_powered g ∧
    mcp2210_usb_key_get_self_powered (mcp2210_usb_key_get_to_set g s) =
      mcp2210_usb_key_get_self_powered g ∧
    mcp2210_usb_key_get_remote_wakeup (mcp2210_usb_key_get_to_set g s) =
      mcp2210_usb_key_get_remote_wakeup g ∧
    mcp2210_usb_key_get_current_2ma (mcp2210_usb_key_get_to_set g s) =
      mcp2210_usb_key_get_current_2ma g := by
  have h0 : rd g 0 = 0x61 := hg
  have hne : ¬ rd g 0 = 0x60 := by omega
  obtain ⟨e0, e4, e5, e6, e7, e8, e9⟩ := usb_key_get_to_set_rd g s
  refine ⟨e0, ?_, ?_, ?_, ?_, ?_, ?_⟩
  · rw [usb_key_get_vid_eq, usb_key_get_vid_eq]
    simp only [e0, hne, if_true, if_false, u16_get_eq, e4, e5]
  · rw [usb_key_get_pid_eq, usb_key_get_pid_eq]
    simp only [e0, hne, if_true, if_false, u16_get_eq, e6, e7]
  · rw [usb_key_get_host_powered_eq, usb_key_get_host_powered_eq]
    simp only [e0, hne, if_true, if_false, flag_get, e8]
  · rw [usb_key_get_self_powered_eq, usb_key_get_self_powered_eq]
    simp only [e0, hne, if_true, if_false, flag_get, e8]
  · rw [usb_key_get_remote_wakeup_eq, usb_key_get_remote_wakeup_eq]
    simp only [e0, hne, if_true, if_false, flag_get, e8]
  · rw [usb_key_get_current_eq, usb_key_get_current_eq]
    simp only [e0, hne, if_true, if_false, e9]

theorem usb_key_get_to_set_preserves_witness :
    (rd usb_key_get_frame 0 = MCP2210_NVRAM_GET ∧
      mcp2210_usb_key_get_vid usb_key_get_frame = 0x04D8 ∧
      mcp2210_usb_key_get_pid usb_key_get_frame = 0x00DD) ∧
    (rd (mcp2210_usb_key_get_to_set usb_key_get_frame zero_packet) 0 = MCP2210_NVRAM_SET ∧
      mcp2210_usb_key_get_vid (mcp2210_usb_key_get_to_set usb_key_get_frame zero_packet) =
        0x04D8 ∧
      mcp2210_usb_key_get_pid (mcp2210_usb_key_get_to_set usb_key_get_frame zero_packet) =
        0x00DD) :=
  have h := usb_key_get_to_set_preserves usb_key_get_frame zero_packet (by decide)
  have hv : mcp2210_usb_key_get_vid usb_key_get_frame = 0x04D8 := by decide
  have hp : mcp2210_usb_key_get_pid usb_key_get_frame = 0x00DD := by decide
  ⟨⟨by decide, hv, hp⟩, h.1, h.2.1.trans hv, h.2.2.1.trans hp⟩

/-! ## The setters and the getters of a USB key field select the same layout

In each lemma `a` is the offset of the field in the set layout and `b` its offset in the get
layout; the setter tests byte 0 against 0x61 and the getter tests it against 0x60. -/

theorem usb_key_sel_u16 (f : mcp2210_packet) (v a b : Nat)
    (hf : rd f 0 = 0x60 ∨ rd f 0 = 0x61) (ha : 1 ≤ a ∧ a + 1 < 64) (hb : 1 ≤ b ∧ b + 1 < 64)
    (hv : v ≤ 0xFFFF) :
    u16_get (if rd (u16_set (if rd f 0 = 0x61 then b else a) f v) 0 = 0x60 then a else b)
      (u16_set (if rd f 0 = 0x61 then b else a) f v) = v := by
  rcases hf with h0 | h0
  · have e1 : (if rd f 0 = 0x61 then b else a) = a := if_neg (by omega)
    rw [e1, u16_set_rd_ne a f v 0 (by omega) (by omega), if_pos h0]
    exact u16_get_set a f v ha.2 hv
  · have e1 : (if rd f 0 = 0x61 then b else a) = b := if_pos h0
    rw [e1, u16_set_rd_ne b f v 0 (by omega) (by omega), if_neg (by omega)]
    exact u16_get_set b f v hb.2 hv

theorem usb_key_sel_flag (f : mcp2210_packet) (t a b : Nat)
    (hf : rd f 0 = 0x60 ∨ rd f 0 = 0x61) (ha : 1 ≤ a ∧ a < 64) (hb : 1 ≤ b ∧ b < 64)
    (ht : t ≤ 1) :
    flag_get (if rd (flag_set (if rd f 0 = 0x61 then b else a) 0x80 7 f t) 0 = 0x60
        then a else b) 0x80 (flag_set (if rd f 0 = 0x61 then b else a) 0x80 7 f t) = t ∧
    flag_get (if rd (flag_set (if rd f 0 = 0x61 then b else a) 0x40 6 f t) 0 = 0x60
        then a else b) 0x40 (flag_set (if rd f 0 = 0x61 then b else a) 0x40 6 f t) = t ∧
    flag_get (if rd (flag_set (if rd f 0 = 0x61 then b else a) 0x20 5 f t) 0 = 0x60
        then a else b) 0x20 (flag_set (if rd f 0 = 0x61 then b else a) 0x20 5 f t) = t := by
  have hbb := bang_bang_of_le_one t ht
  rcases hf with h0 | h0
  · have e1 : (if rd f 0 = 0x61 then b else a) = a := if_neg (by omega)
    obtain ⟨g7, g6, g5⟩ := flag_get_set a f t ha.2
    rw [e1, flag_set_rd_ne a _ _ f t 0 (by omega), flag_set_rd_ne a _ _ f t 0 (by omega),
      flag_set_rd_ne a _ _ f t 0 (by omega), if_pos h0, g7, g6, g5, hbb]
    exact ⟨rfl, rfl, rfl⟩
  · have e1 : (if rd f 0 = 0x61 then b else a) = b := if_pos h0
    obtain ⟨g7, g6, g5⟩ := flag_get_set b f t hb.2
    rw [e1, flag_set_rd_ne b _ _ f t 0 (by omega), flag_set_rd_ne b _ _ f t 0 (by omega),
      flag_set_rd_ne b _ _ f t 0 (by omega), if_neg (by omega), g7, g6, g5, hbb]
    exact ⟨rfl, rfl, rfl⟩

theorem usb_key_sel_byte (f : mcp2210_packet) (c a b : Nat)
    (hf : rd f 0 = 0x60 ∨ rd f 0 = 0x61) (ha : 1 ≤ a ∧ a < 64) (hb : 1 ≤ b ∧ b < 64)
    (hc : c ≤ 0xFF) :
    rd (wr f (if rd f 0 = 0x61 then b else a) c)
      (if rd (wr f (if rd f 0 = 0x61 then b else a) c) 0 = 0x60 then a else b) = c := by
  have hcm : c % 256 = c := Nat.mod_eq_of_lt (by omega)
  rcases hf with h0 | h0
  · have e1 : (if rd f 0 = 0x61 then b else a) = a := if_neg (by omega)
    rw [e1, rd_wr_ne f a 0 c (by omega), if_pos h0, rd_wr_same _ _ _ ha.2, hcm]
  · have e1 : (if rd f 0 = 0x61 then b else a) = b := if_pos h0
    rw [e1, rd_wr_ne f b 0 c (by omega), if_neg (by omega), rd_wr_same _ _ _ hb.2, hcm]

/-- On a frame whose byte 0 is neither 0x60 nor 0x61 the VID setter writes bytes 4-5 and the
VID getter reads bytes 12-13: the getter does not see what the setter wrote. -/
theorem usb_key_vid_other_frames (f : mcp2210_packet) (v : Nat) (h1 : rd f 0 ≠ 0x60)
    (h2 : rd f 0 ≠ 0x61) :
    mcp2210_usb_key_get_vid (mcp2210_usb_key_set_vid f v) = mcp2210_usb_key_get_vid f := by
  rw [usb_key_get_vid_eq, usb_key_set_vid_eq, usb_key_get_vid_eq, if_neg h2,
    u16_set_rd_ne 4 f v 0 (by decide) (by decide), if_neg h1, u16_get_eq, u16_get_eq,
    u16_set_rd_ne 4 f v 12 (by decide) (by decide),
    u16_set_rd_ne 4 f v 13 (by decide) (by decide)]

/-- C9 (as stated, refuted): on the all-zero frame, whose byte 0 is neither 0x60 nor 0x61,
the VID setter writes the set layout (bytes 4-5) while the VID getter reads the get layout
(bytes 12-13), so the value written is not read back. -/
theorem usb_key_vid_not_read_back_on_zero_frame :
    rd zero_packet 0 = 0 ∧
    rd (mcp2210_usb_key_set_vid zero_packet 0x04D8) 4 = 0xD8 ∧
    rd (mcp2210_usb_key_set_vid zero_packet 0x04D8) 5 = 0x04 ∧
    mcp2210_usb_key_get_vid (mcp2210_usb_key_set_vid zero_packet 0x04D8) = 0 ∧
    mcp2210_usb_key_get_vid (mcp2210_usb_key_set_vid zero_packet 0x04D8) ≠ 0x04D8 := by
  decide

/-- C9 (amended): for every frame whose byte 0 is MCP2210_NVRAM_SET (0x60) or
MCP2210_NVRAM_GET (0x61), the setter and the getter of each USB key field select the same
layout: for every 16-bit `v` the VID getter after the VID setter returns `v`, likewise for
the PID, for the three power flags with a value `t` of 0 or 1, and for the current byte `c`. -/
theorem usb_key_get_after_set (f : mcp2210_packet) (v t c : Nat)
    (hf : rd f 0 = MCP2210_NVRAM_SET ∨ rd f 0 = MCP2210_NVRAM_GET)
    (hv : v ≤ 0xFFFF) (ht : t ≤ 1) (hc : c ≤ 0xFF) :
    mcp2210_usb_key_get_vid (mcp2210_usb_key_set_vid f v) = v ∧
    mcp2210_usb_key_get_pid (mcp2210_usb_key_set_pid f v) = v ∧
    mcp2210_usb_key_get_host_powered (mcp2210_usb_key_set_host_powered f t) = t ∧
    mcp2210_usb_key_get_self_powered (mcp2210_usb_key_set_self_powered f t) = t ∧
    mcp2210_usb_key_get_remote_wakeup (mcp2210_usb_key_set_remote_wakeup f t) = t ∧
    mcp2210_usb_key_get_current_2ma (mcp2210_usb_key_set_current_2ma f c) = c := by
  have hf2 : rd f 0 = 0x60 ∨ rd f 0 = 0x61 := hf
  rw [usb_key_get_vid_eq, usb_key_set_vid_eq, usb_key_get_pid_eq, usb_key_set_pid_eq,
    usb_key_get_host_powered_eq, usb_key_set_host_powered_eq, usb_key_get_self_powered_eq,
    usb_key_set_self_powered_eq, usb_key_get_remote_wakeup_eq, usb_key_set_remote_wakeup_eq,
    usb_key_get_current_eq, usb_key_set_current_eq]
  obtain ⟨g7, g6, g5⟩ := usb_key_sel_flag f t 8 29 hf2 (by decide) (by decide) ht
  exact ⟨usb_key_sel_u16 f v 4 12 hf2 (by decide) (by decide) hv,
    usb_key_sel_u16 f v 6 14 hf2 (by decide) (by decide) hv, g7, g6, g5,
    usb_key_sel_byte f c 9 30 hf2 (by decide) (by decide) hc⟩

theorem usb_key_get_after_set_witness :
    ((rd usb_key_get_frame 0 = MCP2210_NVRAM_SET ∨ rd usb_key_get_frame 0 = MCP2210_NVRAM_GET) ∧
      (0x1234 : Nat) ≤ 0xFFFF ∧ (1 : Nat) ≤ 1 ∧ (0x7F : Nat) ≤ 0xFF) ∧
    (mcp2210_usb_key_get_vid (mcp2210_usb_key_set_vid usb_key_get_frame 0x1234) = 0x1234 ∧
    mcp2210_usb_key_get_pid (mcp2210_usb_key_set_pid usb_key_get_frame 0x1234) = 0x1234 ∧
    mcp2210_usb_key_get_host_powered (mcp2210_usb_key_set_host_powered usb_key_get_frame 1) =
      1 ∧
    mcp2210_usb_key_get_self_powered (mcp2210_usb_key_set_self_powered usb_key_get_frame 1) =
      1 ∧
    mcp2210_usb_key_get_remote_wakeup
      (mcp2210_usb_key_set_remote_wakeup usb_key_get_frame 1) = 1 ∧
    mcp2210_usb_key_get_current_2ma (mcp2210_usb_key_set_current_2ma usb_key_get_frame 0x7F) =
      0x7F) :=
  ⟨⟨Or.inr (by decide), by decide, by decide, by decide⟩,
    usb_key_get_after_set usb_key_get_frame 0x1234 1 0x7F (Or.inr (by decide)) (by decide)
      (by decide) (by decide)⟩

/-! ## USB string descriptor packets -/

theorem rd_memcpy_to_packet (p : mcp2210_packet) (off : Nat) (src : List Byte) (n j : Nat) :
    rd (memcpy_to_packet p off src n) j =
      if off ≤ j ∧ j < off + n ∧ j < 64 then (src.getD (j - off) 0).val else rd p j := by
  induction n with
  | zero =>
    have : ¬ (off ≤ j ∧ j < off + 0 ∧ j < 64) := by omega
    rw [if_neg this]
    rfl
  | succ n ih =>
    show rd (wr (memcpy_to_packet p off src n) (off + n) (src.getD n 0).val) j = _
    rw [rd_wr, ih]
    by_cases hj : j = off + n ∧ j < 64
    · rw [if_pos hj, if_pos (by omega)]
      have : j - off = n := by omega
      rw [this]
      exact Nat.mod_eq_of_lt (src.getD n 0).isLt
    · rw [if_neg hj]
      by_cases hk : off ≤ j ∧ j < off + n ∧ j < 64
      · rw [if_pos hk, if_pos (by omega)]
      · rw [if_neg hk, if_neg (by omega)]

/-- C10: for every frame `f` and every payload of `len` bytes with 0 <= len <= 58 (held in
the buffer `string`), after `mcp2210_usb_string_set (f, string, len)` the length byte
(offset 4) equals `len + 2`, `mcp2210_usb_string_get_len` returns `len`, and the `len` bytes
starting at offset 6, which `mcp2210_usb_string_get` points to, equal the payload. -/
theorem usb_string_set_get (f : mcp2210_packet) (string : List Byte) (len : Nat)
    (hlen : len ≤ 58) (hbuf : len ≤ string.length) :
    rd (mcp2210_usb_string_set f string len) 4 = len + 2 ∧
    mcp2210_usb_string_get_len (mcp2210_usb_string_set f string len) = len ∧
    ∀ i (hi : i < len),
      mcp2210_usb_string_get (mcp2210_usb_string_set f string len) i =
        (string.get ⟨i, Nat.lt_of_lt_of_le hi hbuf⟩).val := by
  have h4 : rd (mcp2210_usb_string_set f string len) 4 = len + 2 := by
    unfold mcp2210_usb_string_set
    simp only []
    rw [rd_wr_same _ _ _ (by decide)]
    omega
  refine ⟨h4, ?_, ?_⟩
  · unfold mcp2210_usb_string_get_len
    rw [h4]
    omega
  · intro i hi
    unfold mcp2210_usb_string_get mcp2210_usb_string_set
    simp only []
    rw [rd_wr_ne _ _ _ _ (by omega), rd_memcpy_to_packet, if_pos (by omega)]
    have e : 6 + i - 6 = i := by omega
    rw [e, List.getD_eq_getElem _ _ (Nat.lt_of_lt_of_le hi hbuf)]
    rfl

theorem usb_string_set_get_witness :
    ((4 : Nat) ≤ 58 ∧ 4 ≤ [(0x4d : Byte), 0x00, 0x43, 0x00].length) ∧
    (rd (mcp2210_usb_string_set zero_packet [0x4d, 0x00, 0x43, 0x00] 4) 4 = 6 ∧
      mcp2210_usb_string_get_len
        (mcp2210_usb_string_set zero_packet [0x4d, 0x00, 0x43, 0x00] 4) = 4) :=
  have h := usb_string_set_get zero_packet [0x4d, 0x00, 0x43, 0x00] 4 (by decide) (by decide)
  ⟨⟨by decide, by decide⟩, h.1, h.2.1⟩

/-! ## Packet transport: one exchange -/

theorem read_into_full (p bytes : mcp2210_packet) : read_into p 64 bytes = bytes := by
  funext j
  unfold read_into
  have : (j.val : Int) < 64 := by have := j.isLt; omega
  rw [if_pos this]

/-- The result of `mcp2210_command` when the write is not complete: no read follows. -/
theorem command_of_write_ne (fd : Device) (t : Trace) (p : mcp2210_packet) (command : Nat)
    (hw : fd.write t (wr p 0 command) ≠ 64) :
    mcp2210_command fd t p command =
      { ret := if fd.write t (wr p 0 command) = -1 then -1 else -MCP2210_EWRSHORT,
        packet := wr p 0 command,
        trace := t ++ [IoEvent.write (wr p 0 command)] } := by
  unfold mcp2210_command
  simp only [hw, if_false]
  split <;> rfl

/-- The result of `mcp2210_command` after a complete write and an incomplete read. -/
theorem command_of_read_ne (fd : Device) (t : Trace) (p : mcp2210_packet) (command : Nat)
    (hw : fd.write t (wr p 0 command) = 64)
    (hr : (fd.read (t ++ [IoEvent.write (wr p 0 command)])).1 ≠ 64) :
    mcp2210_command fd t p command =
      { ret := if (fd.read (t ++ [IoEvent.write (wr p 0 command)])).1 = -1 then -1
               else -MCP2210_ERDSHORT,
        packet := read_into zero_packet (fd.read (t ++ [IoEvent.write (wr p 0 command)])).1
          (fd.read (t ++ [IoEvent.write (wr p 0 command)])).2,
        trace := t ++ [IoEvent.write (wr p 0 command)] ++ [IoEvent.read] } := by
  unfold mcp2210_command memset_zero
  simp only [hw, hr, if_true, if_false]
  split <;> rfl

/-- The result of `mcp2210_command` after a complete write and a complete read. -/
theorem command_of_complete (fd : Device) (t : Trace) (p : mcp2210_packet) (command : Nat)
    (hw : fd.write t (wr p 0 command) = 64)
    (hr : (fd.read (t ++ [IoEvent.write (wr p 0 command)])).1 = 64) :
    mcp2210_command fd t p command =
      { ret := if rd (fd.read (t ++ [IoEvent.write (wr p 0 command)])).2 1 ≠ 0 then
                 -(rd (fd.read (t ++ [IoEvent.write (wr p 0 command)])).2 1 : Int)
               else if rd (fd.read (t ++ [IoEvent.write (wr p 0 command)])).2 0 ≠ command then
                 -MCP2210_EBADCMD
               else 0,
        packet := (fd.read (t ++ [IoEvent.write (wr p 0 command)])).2,
        trace := t ++ [IoEvent.write (wr p 0 command)] ++ [IoEvent.read] } := by
  unfold mcp2210_command memset_zero
  simp only [hw, hr, if_true, read_into_full]
  split
  · rfl
  · split <;> rfl

theorem command_trace (fd : Device) (t : Trace) (p : mcp2210_packet) (command : Nat) :
    (mcp2210_command fd t p command).trace =
      t ++ IoEvent.write (wr p 0 command) ::
        (if fd.write t (wr p 0 command) = 64 then [IoEvent.read] else []) := by
  by_cases hw : fd.write t (wr p 0 command) = 64
  · rw [if_pos hw]
    by_cases hr : (fd.read (t ++ [IoEvent.write (wr p 0 command)])).1 = 64
    · rw [command_of_complete fd t p command hw hr]
      simp
    · rw [command_of_read_ne fd t p command hw hr]
      simp
  · rw [if_neg hw, command_of_write_ne fd t p command hw]

theorem command_ret_nonpos (fd : Device) (t : Trace) (p : mcp2210_packet) (command : Nat) :
    (mcp2210_command fd t p command).ret ≤ 0 := by
  by_cases hw : fd.write t (wr p 0 command) = 64
  · by_cases hr : (fd.read (t ++ [IoEvent.write (wr p 0 command)])).1 = 64
    · rw [command_of_complete fd t p command hw hr]
      dsimp only
      unfold MCP2210_EBADCMD
      split
      · omega
      · split <;> omega
    · rw [command_of_read_ne fd t p command hw hr]
      dsimp only
      unfold MCP2210_ERDSHORT
      split <;> omega
  · rw [command_of_write_ne fd t p command hw]
    dsimp only
    unfold MCP2210_EWRSHORT
    split <;> omega

/-- C11: `mcp2210_command` returns 0 if and only if the device write transferred all 64
bytes, the device read transferred all 64 bytes, byte 1 of the response is 0 and byte 0 of
the response equals the requested command; in every other case it returns a negative
value. -/
theorem command_returns_zero_iff (fd : Device) (t : Trace) (p : mcp2210_packet)
    (command : Nat) :
    ((mcp2210_command fd t p command).ret = 0 ↔
      fd.write t (wr p 0 command) = 64 ∧
      (fd.read (t ++ [IoEvent.write (wr p 0 command)])).1 = 64 ∧
      rd (fd.read (t ++ [IoEvent.write (wr p 0 command)])).2 1 = 0 ∧
      rd (fd.read (t ++ [IoEvent.write (wr p 0 command)])).2 0 = command) ∧
    ((mcp2210_command fd t p command).ret ≠ 0 → (mcp2210_command fd t p command).ret < 0) := by
  refine ⟨?_, fun h => lt_of_le_of_ne (command_ret_nonpos fd t p command) h⟩
  by_cases hw : fd.write t (wr p 0 command) = 64
  · by_cases hr : (fd.read (t ++ [IoEvent.write (wr p 0 command)])).1 = 64
    · rw [command_of_complete fd t p command hw hr]
      dsimp only
      have h1 := rd_lt (fd.read (t ++ [IoEvent.write (wr p 0 command)])).2 1
      unfold MCP2210_EBADCMD
      constructor
      · intro h
        split at h
        · omega
        · next hb =>
          split at h
          · omega
          · next hc => exact ⟨hw, hr, not_not.mp hb, not_not.mp hc⟩
      · rintro ⟨_, _, hb, hc⟩
        rw [if_neg (not_not.mpr hb), if_neg (not_not.mpr hc)]
    · rw [command_of_read_ne fd t p command hw hr]
      dsimp only
      unfold MCP2210_ERDSHORT
      constructor
      · intro h
        split at h <;> omega
      · rintro ⟨_, h, _⟩
        exact absurd h hr
  · rw [command_of_write_ne fd t p command hw]
    dsimp only
    unfold MCP2210_EWRSHORT
    constructor
    · intro h
      split at h <;> omega
    · rintro ⟨h, _⟩
      exact absurd h hw

/-- C12: whenever a complete 64-byte response has a non-zero error code `c` in byte 1,
`mcp2210_command` returns `-c`, whatever byte 0 of the response holds: the device error
takes precedence over the command-echo check. -/
theorem command_device_error (fd : Device) (t : Trace) (p : mcp2210_packet)
    (command c : Nat)
    (hw : fd.write t (wr p 0 command) = 64)
    (hr : (fd.read (t ++ [IoEvent.write (wr p 0 command)])).1 = 64)
    (hc : rd (fd.read (t ++ [IoEvent.write (wr p 0 command)])).2 1 = c) (hne : c ≠ 0) :
    (mcp2210_command fd t p command).ret = -(c : Int) := by
  rw [command_of_complete fd t p command hw hr]
  dsimp only
  rw [hc, if_pos hne]

theorem command_device_error_witness :
    ((fixed_device 64 64 (packet_of_list [0x41, 0xf8])).write [] (wr zero_packet 0 0x42) = 64 ∧
      ((fixed_device 64 64 (packet_of_list [0x41, 0xf8])).read
        ([] ++ [IoEvent.write (wr zero_packet 0 0x42)])).1 = 64 ∧
      rd ((fixed_device 64 64 (packet_of_list [0x41, 0xf8])).read
        ([] ++ [IoEvent.write (wr zero_packet 0 0x42)])).2 1 = 0xf8 ∧ (0xf8 : Nat) ≠ 0) ∧
    (mcp2210_command (fixed_device 64 64 (packet_of_list [0x41, 0xf8])) [] zero_packet
      0x42).ret = -((0xf8 : Nat) : Int) :=
  ⟨⟨by decide, by decide, by decide, by decide⟩,
    command_device_error (fixed_device 64 64 (packet_of_list [0x41, 0xf8])) [] zero_packet
      0x42 0xf8 (by decide) (by decide) (by decide) (by decide)⟩

/-- C13: whenever a complete response has byte 1 = 0 and byte 0 different from the requested
command, `mcp2210_command` returns `-MCP2210_EBADCMD` (-0x103); such a response is never
accepted as success. -/
theorem command_echo_mismatch (fd : Device) (t : Trace) (p : mcp2210_packet) (command : Nat)
    (hw : fd.write t (wr p 0 command) = 64)
    (hr : (fd.read (t ++ [IoEvent.write (wr p 0 command)])).1 = 64)
    (h1 : rd (fd.read (t ++ [IoEvent.write (wr p 0 command)])).2 1 = 0)
    (h0 : rd (fd.read (t ++ [IoEvent.write (wr p 0 command)])).2 0 ≠ command) :
    (mcp2210_command fd t p command).ret = -MCP2210_EBADCMD ∧
    -MCP2210_EBADCMD = (-0x103 : Int) ∧
    (mcp2210_command fd t p command).ret ≠ 0 := by
  have e : (mcp2210_command fd t p command).ret = -MCP2210_EBADCMD := by
    rw [command_of_complete fd t p command hw hr]
    dsimp only
    rw [if_neg (not_not.mpr h1), if_pos h0]
  refine ⟨e, rfl, ?_⟩
  rw [e]
  decide

theorem command_echo_mismatch_witness :
    ((fixed_device 64 64 (packet_of_list [0x41, 0])).write [] (wr zero_packet 0 0x42) = 64 ∧
      ((fixed_device 64 64 (packet_of_list [0x41, 0])).read
        ([] ++ [IoEvent.write (wr zero_packet 0 0x42)])).1 = 64 ∧
      rd ((fixed_device 64 64 (packet_of_list [0x41, 0])).read
        ([] ++ [IoEvent.write (wr zero_packet 0 0x42)])).2 1 = 0 ∧
      rd ((fixed_device 64 64 (packet_of_list [0x41, 0])).read
        ([] ++ [IoEvent.write (wr zero_packet 0 0x42)])).2 0 ≠ 0x42) ∧
    (mcp2210_command (fixed_device 64 64 (packet_of_list [0x41, 0])) [] zero_packet 0x42).ret =
      -0x103 :=
  ⟨⟨by decide, by decide, by decide, by decide⟩,
    (command_echo_mismatch (fixed_device 64 64 (packet_of_list [0x41, 0])) [] zero_packet 0x42
      (by decide) (by decide) (by decide) (by decide)).1⟩

/-- C14: in `mcp2210_command`, a device write that fails (returns -1) yields -1; a write that
transfers any other count than 64 yields `-MCP2210_EWRSHORT` (-0x101); in both cases no read
is attempted (the history ends with the write). After a full write, a read that fails yields
-1 and a read of any other count than 64 yields `-MCP2210_ERDSHORT` (-0x102). The
short-write and short-read results differ from each other and from success. -/
theorem command_io_failures (fd : Device) (t : Trace) (p : mcp2210_packet) (command : Nat) :
    (fd.write t (wr p 0 command) = -1 →
      (mcp2210_command fd t p command).ret = -1 ∧
      (mcp2210_command fd t p command).trace = t ++ [IoEvent.write (wr p 0 command)]) ∧
    (fd.write t (wr p 0 command) ≠ 64 → fd.write t (wr p 0 command) ≠ -1 →
      (mcp2210_command fd t p command).ret = -0x101 ∧
      (mcp2210_command fd t p command).trace = t ++ [IoEvent.write (wr p 0 command)]) ∧
    (fd.write t (wr p 0 command) = 64 →
      (fd.read (t ++ [IoEvent.write (wr p 0 command)])).1 = -1 →
      (mcp2210_command fd t p command).ret = -1) ∧
    (fd.write t (wr p 0 command) = 64 →
      (fd.read (t ++ [IoEvent.write (wr p 0 command)])).1 ≠ 64 →
      (fd.read (t ++ [IoEvent.write (wr p 0 command)])).1 ≠ -1 →
      (mcp2210_command fd t p command).ret = -0x102) ∧
    (-MCP2210_EWRSHORT = (-0x101 : Int) ∧ -MCP2210_ERDSHORT = (-0x102 : Int) ∧
      -MCP2210_EWRSHORT ≠ -MCP2210_ERDSHORT ∧ -MCP2210_EWRSHORT ≠ 0 ∧
      -MCP2210_ERDSHORT ≠ 0) := by
  refine ⟨?_, ?_, ?_, ?_, ⟨rfl, rfl, by decide, by decide, by decide⟩⟩
  · intro hw
    have hne : fd.write t (wr p 0 command) ≠ 64 := by omega
    rw [command_of_write_ne fd t p command hne]
    dsimp only
    exact ⟨if_pos hw, rfl⟩
  · intro hne h1
    rw [command_of_write_ne fd t p command hne]
    dsimp only
    exact ⟨if_neg h1, rfl⟩
  · intro hw hr
    have hne : (fd.read (t ++ [IoEvent.write (wr p 0 command)])).1 ≠ 64 := by omega
    rw [command_of_read_ne fd t p command hw hne]
    dsimp only
    exact if_pos hr
  · intro hw hne h1
    rw [command_of_read_ne fd t p command hw hne]
    dsimp only
    exact if_neg h1

theorem command_io_failures_witness :
    ((mcp2210_command (fixed_device (-1) 64 zero_packet) [] zero_packet 0x10).ret = -1 ∧
      (mcp2210_command (fixed_device (-1) 64 zero_packet) [] zero_packet 0x10).trace =
        [] ++ [IoEvent.write (wr zero_packet 0 0x10)]) ∧
    ((mcp2210_command (fixed_device 17 64 zero_packet) [] zero_packet 0x10).ret = -0x101 ∧
      (mcp2210_command (fixed_device 17 64 zero_packet) [] zero_packet 0x10).trace =
        [] ++ [IoEvent.write (wr zero_packet 0 0x10)]) ∧
    (mcp2210_command (fixed_device 64 (-1) zero_packet) [] zero_packet 0x10).ret = -1 ∧
    (mcp2210_command (fixed_device 64 63 zero_packet) [] zero_packet 0x10).ret = -0x102 :=
  ⟨(command_io_failures (fixed_device (-1) 64 zero_packet) [] zero_packet 0x10).1 (by decide),
    (command_io_failures (fixed_device 17 64 zero_packet) [] zero_packet 0x10).2.1 (by decide)
      (by decide),
    (command_io_failures (fixed_device 64 (-1) zero_packet) [] zero_packet 0x10).2.2.1
      (by decide) (by decide),
    (command_io_failures (fixed_device 64 63 zero_packet) [] zero_packet 0x10).2.2.2.1
      (by decide) (by decide) (by decide)⟩

/-- C15 (as stated, refuted): on a device whose write fails, a call to `mcp2210_command`
performs one device write and no device read. -/
theorem command_no_read_after_failed_write :
    count_writes
      (mcp2210_command (fixed_device (-1) 64 zero_packet) [] zero_packet 0x10).trace = 1 ∧
    count_reads
      (mcp2210_command (fixed_device (-1) 64 zero_packet) [] zero_packet 0x10).trace = 0 := by
  decide

/-- C15 (amended): every call to `mcp2210_command` performs exactly one device write,
followed by exactly one device read when the write transferred all 64 bytes and by no read
otherwise; neither call is ever retried. -/
theorem command_one_write_then_read (fd : Device) (t : Trace) (p : mcp2210_packet)
    (command : Nat) :
    (mcp2210_command fd t p command).trace =
      t ++ IoEvent.write (wr p 0 command) ::
        (if fd.write t (wr p 0 command) = 64 then [IoEvent.read] else []) :=
  command_trace fd t p command

/-! ## Packet transport: sub-commands and get operations -/

theorem subcommand_trace (fd : Device) (t : Trace) (p : mcp2210_packet)
    (command subcommand : Nat) :
    (mcp2210_subcommand fd t p command subcommand).trace =
      (mcp2210_command fd t (wr p 1 subcommand) command).trace := by
  unfold mcp2210_subcommand
  dsimp only
  split
  · rfl
  · split <;> rfl

theorem subcommand_ret (fd : Device) (t : Trace) (p : mcp2210_packet)
    (command subcommand : Nat) :
    (mcp2210_subcommand fd t p command subcommand).ret =
      if (mcp2210_command fd t (wr p 1 subcommand) command).ret < 0 then
        (mcp2210_command fd t (wr p 1 subcommand) command).ret
      else if rd (mcp2210_command fd t (wr p 1 subcommand) command).packet 2 ≠ subcommand then
        -MCP2210_EBADSUBCMD
      else 0 := by
  unfold mcp2210_subcommand
  dsimp only
  split
  · rfl
  · split <;> rfl

/-- C16: `mcp2210_subcommand` transmits the frame with the sub-command in byte 1 and the
command in byte 0 (each converted to `unsigned char`, the code itself for codes below 256)
and the other bytes of the caller's frame; it returns 0 if and only if `mcp2210_command`
succeeds and byte 2 of the response equals the sub-command; when `mcp2210_command` succeeds
but byte 2 differs it returns `-MCP2210_EBADSUBCMD` (-0x104); when `mcp2210_command` fails
its error is returned unchanged. -/
theorem subcommand_contract (fd : Device) (t : Trace) (p : mcp2210_packet)
    (command subcommand : Nat) :
    ((mcp2210_subcommand fd t p command subcommand).trace =
        t ++ IoEvent.write (wr (wr p 1 subcommand) 0 command) ::
          (if fd.write t (wr (wr p 1 subcommand) 0 command) = 64 then [IoEvent.read] else []) ∧
      rd (wr (wr p 1 subcommand) 0 command) 0 = command % 256 ∧
      rd (wr (wr p 1 subcommand) 0 command) 1 = subcommand % 256 ∧
      ∀ i, 2 ≤ i → rd (wr (wr p 1 subcommand) 0 command) i = rd p i) ∧
    ((mcp2210_subcommand fd t p command subcommand).ret = 0 ↔
      (mcp2210_command fd t (wr p 1 subcommand) command).ret = 0 ∧
      rd (mcp2210_command fd t (wr p 1 subcommand) command).packet 2 = subcommand) ∧
    ((mcp2210_command fd t (wr p 1 subcommand) command).ret = 0 →
      rd (mcp2210_command fd t (wr p 1 subcommand) command).packet 2 ≠ subcommand →
      (mcp2210_subcommand fd t p command subcommand).ret = -0x104) ∧
    ((mcp2210_command fd t (wr p 1 subcommand) command).ret < 0 →
      (mcp2210_subcommand fd t p command subcommand).ret =
        (mcp2210_command fd t (wr p 1 subcommand) command).ret) := by
  have hle := command_ret_nonpos fd t (wr p 1 subcommand) command
  refine ⟨⟨?_, ?_, ?_, ?_⟩, ?_, ?_, ?_⟩
  · rw [subcommand_trace, command_trace]
  · rw [rd_wr_same _ _ _ (by decide)]
  · rw [rd_wr_ne _ _ _ _ (by decide), rd_wr_same _ _ _ (by decide)]
  · intro i hi
    rw [rd_wr_ne _ _ _ _ (by omega), rd_wr_ne _ _ _ _ (by omega)]
  · rw [subcommand_ret]
    unfold MCP2210_EBADSUBCMD
    constructor
    · intro h
      split at h
      · omega
      · next h1 =>
        split at h
        · omega
        · next h2 => exact ⟨by omega, not_not.mp h2⟩
    · rintro ⟨h1, h2⟩
      rw [if_neg (by omega), if_neg (not_not.mpr h2)]
  · intro h1 h2
    rw [subcommand_ret, if_neg (by omega), if_pos h2]
    rfl
  · intro h1
    rw [subcommand_ret, if_pos h1]

theorem subcommand_contract_witness :
    ((mcp2210_command (fixed_device 64 64 (packet_of_list [0x61, 0, 0x20])) []
        (wr zero_packet 1 0x30) 0x61).ret = 0 ∧
      rd (mcp2210_command (fixed_device 64 64 (packet_of_list [0x61, 0, 0x20])) []
        (wr zero_packet 1 0x30) 0x61).packet 2 ≠ 0x30) ∧
    (mcp2210_subcommand (fixed_device 64 64 (packet_of_list [0x61, 0, 0x20])) [] zero_packet
      0x61 0x30).ret = -0x104 ∧
    ((mcp2210_command (fixed_device 64 64 (packet_of_list [0x61, 0xfb, 0x30])) []
        (wr zero_packet 1 0x30) 0x61).ret < 0 ∧
      (mcp2210_subcommand (fixed_device 64 64 (packet_of_list [0x61, 0xfb, 0x30])) []
        zero_packet 0x61 0x30).ret = -0xfb) :=
  have h1 : (mcp2210_command (fixed_device 64 64 (packet_of_list [0x61, 0, 0x20])) []
      (wr zero_packet 1 0x30) 0x61).ret = 0 := by decide
  have h2 : rd (mcp2210_command (fixed_device 64 64 (packet_of_list [0x61, 0, 0x20])) []
      (wr zero_packet 1 0x30) 0x61).packet 2 ≠ 0x30 := by decide
  have h3 : (mcp2210_command (fixed_device 64 64 (packet_of_list [0x61, 0xfb, 0x30])) []
      (wr zero_packet 1 0x30) 0x61).ret = -0xfb := by decide
  ⟨⟨h1, h2⟩,
    (subcommand_contract (fixed_device 64 64 (packet_of_list [0x61, 0, 0x20])) [] zero_packet
      0x61 0x30).2.2.1 h1 h2,
    by rw [h3]; decide,
    ((subcommand_contract (fixed_device 64 64 (packet_of_list [0x61, 0xfb, 0x30])) []
      zero_packet 0x61 0x30).2.2.2 (by rw [h3]; decide)).trans h3⟩

/-- C17: for any two initial contents `p` and `q` of the caller's frame,
`mcp2210_get_command` behaves identically and transmits the same 64 bytes, the command code
followed by 63 zero bytes, and `mcp2210_get_nvram` behaves identically and transmits the
same 64 bytes, 0x61, the sub-command, then 62 zero bytes: nothing of the previous contents
of the frame reaches the device in a get operation. -/
theorem get_operations_send_no_stale_bytes (fd : Device) (t : Trace) (p q : mcp2210_packet)
    (command subcommand : Nat) :
    (mcp2210_get_command fd t p command = mcp2210_get_command fd t q command ∧
      (mcp2210_get_command fd t p command).trace =
        t ++ IoEvent.write (wr zero_packet 0 command) ::
          (if fd.write t (wr zero_packet 0 command) = 64 then [IoEvent.read] else []) ∧
      rd (wr zero_packet 0 command) 0 = command % 256 ∧
      ∀ i, 1 ≤ i → rd (wr zero_packet 0 command) i = 0) ∧
    (mcp2210_get_nvram fd t p subcommand = mcp2210_get_nvram fd t q subcommand ∧
      (mcp2210_get_nvram fd t p subcommand).trace =
        t ++ IoEvent.write (wr (wr zero_packet 1 subcommand) 0 0x61) ::
          (if fd.write t (wr (wr zero_packet 1 subcommand) 0 0x61) = 64 then [IoEvent.read]
           else []) ∧
      rd (wr (wr zero_packet 1 subcommand) 0 0x61) 0 = 0x61 ∧
      rd (wr (wr zero_packet 1 subcommand) 0 0x61) 1 = subcommand % 256 ∧
      ∀ i, 2 ≤ i → rd (wr (wr zero_packet 1 subcommand) 0 0x61) i = 0) := by
  have hz : ∀ i, rd zero_packet i = 0 := by
    intro i
    unfold rd zero_packet
    split <;> rfl
  refine ⟨⟨rfl, ?_, ?_, ?_⟩, ⟨rfl, ?_, ?_, ?_, ?_⟩⟩
  · unfold mcp2210_get_command memset_zero
    rw [command_trace]
  · rw [rd_wr_same _ _ _ (by decide)]
  · intro i hi
    rw [rd_wr_ne _ _ _ _ (by omega), hz]
  · unfold mcp2210_get_nvram memset_zero MCP2210_NVRAM_GET
    rw [subcommand_trace, command_trace]
  · rw [rd_wr_same _ _ _ (by decide)]
  · rw [rd_wr_ne _ _ _ _ (by decide), rd_wr_same _ _ _ (by decide)]
  · intro i hi
    rw [rd_wr_ne _ _ _ _ (by omega), rd_wr_ne _ _ _ _ (by omega), hz]

/-! ## SPI transfer engine: the request frame -/

theorem count_writes_append (a b : Trace) :
    count_writes (a ++ b) = count_writes a + count_writes b := by
  induction a with
  | nil => simp [count_writes]
  | cons e a ih =>
    cases e <;> simp [count_writes, ih]
    omega

theorem count_reads_append (a b : Trace) :
    count_reads (a ++ b) = count_reads a + count_reads b := by
  induction a with
  | nil => simp [count_reads]
  | cons e a ih =>
    cases e <;> simp [count_reads, ih]
    omega

theorem rd_memcpy_data_to_packet (p : mcp2210_packet) (off : Nat) (data : Buffer)
    (src n j : Nat) :
    rd (memcpy_data_to_packet p off data src n) j =
      if off ≤ j ∧ j < off + n ∧ j < 64 then (data (src + (j - off))).val else rd p j := by
  induction n with
  | zero =>
    have : ¬ (off ≤ j ∧ j < off + 0 ∧ j < 64) := by omega
    rw [if_neg this]
    rfl
  | succ n ih =>
    show rd (wr (memcpy_data_to_packet p off data src n) (off + n) (data (src + n)).val) j = _
    rw [rd_wr, ih]
    by_cases hj : j = off + n ∧ j < 64
    · rw [if_pos hj, if_pos (by omega)]
      have : j - off = n := by omega
      rw [this]
      exact Nat.mod_eq_of_lt (data (src + n)).isLt
    · rw [if_neg hj]
      by_cases hk : off ≤ j ∧ j < off + n ∧ j < 64
      · rw [if_pos hk, if_pos (by omega)]
      · rw [if_neg hk, if_neg (by omega)]

/-- The frame of an exchange: the command code 0x42 in byte 0, the chunk length in byte 1
and the bytes `data[wr .. wr + wr_len)` from byte 2 on. -/
theorem spi_frame_bytes (st : SpiState) (h0 : 0 ≤ st.wr_len) (h1 : st.wr_len ≤ 58) :
    rd (spi_frame st) 0 = 0x42 ∧
    (rd (spi_frame st) 1 : Int) = st.wr_len ∧
    ∀ i : Nat, (i : Int) < st.wr_len →
      rd (spi_frame st) (2 + i) = (st.data (st.wr.toNat + i)).val := by
  unfold spi_frame spi_request MCP2210_SPI_TRANSFER
  refine ⟨?_, ?_, ?_⟩
  · rw [rd_wr_same _ _ _ (by decide)]
  · rw [rd_wr_ne _ _ _ _ (by decide), rd_memcpy_data_to_packet, if_neg (by omega),
      rd_wr_same _ _ _ (by decide)]
    omega
  · intro i hi
    rw [rd_wr_ne _ _ _ _ (by omega), rd_memcpy_data_to_packet, if_pos (by omega)]
    have : 2 + i - 2 = i := by omega
    rw [this]

theorem spi_exchange_trace (fd : Device) (st : SpiState) :
    (spi_exchange fd st).trace =
      st.trace ++ IoEvent.write (spi_frame st) ::
        (if fd.write st.trace (spi_frame st) = 64 then [IoEvent.read] else []) := by
  unfold spi_exchange spi_frame
  exact command_trace fd st.trace (spi_request st) MCP2210_SPI_TRANSFER

/-- An exchange that the device completes without error and with the command echoed. -/
theorem spi_exchange_ok (fd : Device) (st : SpiState)
    (hw : fd.write st.trace (spi_frame st) = 64)
    (hr : (fd.read (st.trace ++ [IoEvent.write (spi_frame st)])).1 = 64)
    (h1 : rd (fd.read (st.trace ++ [IoEvent.write (spi_frame st)])).2 1 = 0)
    (h0 : rd (fd.read (st.trace ++ [IoEvent.write (spi_frame st)])).2 0 = 0x42) :
    spi_exchange fd st =
      { ret := 0,
        packet := (fd.read (st.trace ++ [IoEvent.write (spi_frame st)])).2,
        trace := st.trace ++ [IoEvent.write (spi_frame st)] ++ [IoEvent.read] } := by
  unfold spi_exchange
  unfold spi_frame at hw hr h1 h0
  rw [command_of_complete fd st.trace (spi_request st) MCP2210_SPI_TRANSFER hw hr]
  have e0 : rd (fd.read (st.trace ++ [IoEvent.write (wr (spi_request st) 0
      MCP2210_SPI_TRANSFER)])).2 0 = MCP2210_SPI_TRANSFER := h0
  rw [if_neg (not_not.mpr h1), if_neg (not_not.mpr e0)]
  rfl

/-! ## SPI transfer engine: the loop -/

theorem spi_delay_some (sp : mcp2210_packet) (len r w rd_len : Int)
    (hb : mcp2210_spi_get_bitrate sp ≠ 0) : ∃ d, spi_delay sp len r w rd_len = some d := by
  unfold spi_delay
  simp only [hb, if_false]
  exact ⟨_, rfl⟩

theorem spi_loop_head_exit (sp : mcp2210_packet) (len : Int) (t : Trace) (data : Buffer)
    (r w : Int) (h : ¬ r < len) :
    spi_loop_head sp len t data r w =
      SpiNext.finished { outcome := SpiOutcome.returned 0, trace := t, data := data, rd := r,
                         wr := w } := by
  unfold spi_loop_head
  rw [if_neg h]

theorem spi_loop_head_enter (sp : mcp2210_packet) (len : Int) (t : Trace) (data : Buffer)
    (r w : Int) (h : r < len) (hb : mcp2210_spi_get_bitrate sp ≠ 0) :
    ∃ st, spi_loop_head sp len t data r w = SpiNext.at_retry st ∧
      st.trace = t ∧ st.data = data ∧ st.rd = r ∧ st.wr = w ∧ st.packet = zero_packet ∧
      st.wr_len = if w + 58 > len then len - w else 58 := by
  obtain ⟨d, hd⟩ := spi_delay_some sp len r w
    (if r + MCP2210_SPI_CHUNK > len then len - r else MCP2210_SPI_CHUNK) hb
  unfold spi_loop_head
  rw [if_pos h]
  simp only [hd]
  exact ⟨_, rfl, rfl, rfl, rfl, rfl, rfl, rfl⟩

/-- The block at `retry` when the exchange succeeds and the status byte is valid: `wr`
advances by the chunk length, the response payload is copied to `data[rd ..]`, `rd` advances
by the byte count of the response, and the loop test follows. -/
theorem spi_retry_block_ok (fd : Device) (sp : mcp2210_packet) (len : Int) (st : SpiState)
    (hret : (spi_exchange fd st).ret = 0)
    (hst : rd (spi_exchange fd st).packet 3 = 0x20 ∨ rd (spi_exchange fd st).packet 3 = 0x10 ∨
      rd (spi_exchange fd st).packet 3 = 0x30) :
    spi_retry_block fd sp len st =
      spi_loop_head sp len
        ((spi_exchange fd st).trace ++ [IoEvent.nanosleep st.delay.tv_sec st.delay.tv_nsec])
        (memcpy_packet_to_data st.data st.rd.toNat (spi_exchange fd st).packet 4
          (rd (spi_exchange fd st).packet 2))
        (st.rd + rd (spi_exchange fd st).packet 2) (st.wr + st.wr_len) := by
  unfold spi_retry_block
  have h1 : ¬ (spi_exchange fd st).ret = -MCP2210_ESPIINPROGRESS := by
    rw [hret]; decide
  have h2 : ¬ (spi_exchange fd st).ret < 0 := by
    rw [hret]; decide
  have h3 : rd (spi_exchange fd st).packet 3 = MCP2210_SPI_STARTED ∨
      rd (spi_exchange fd st).packet 3 = MCP2210_SPI_END ∨
      rd (spi_exchange fd st).packet 3 = MCP2210_SPI_DATA := hst
  simp only [h1, h2, h3, if_true, if_false]

theorem spi_run_finished (fd : Device) (sp : mcp2210_packet) (len : Int) (fuel : Nat)
    (r : SpiResult) : spi_run fd sp len fuel (SpiNext.finished r) = some r := by
  cases fuel <;> rfl

theorem spi_run_at_retry (fd : Device) (sp : mcp2210_packet) (len : Int) (fuel : Nat)
    (st : SpiState) :
    spi_run fd sp len (fuel + 1) (SpiNext.at_retry st) =
      spi_run fd sp len fuel (spi_retry_block fd sp len st) := rfl

/-- With a device that completes every SPI transfer exchange, answers with a valid status
and reports as many bytes as the chunk it was sent, the loop entered with `rd = wr` runs to
the end in one exchange per 58 bytes that remain. -/
theorem spi_run_steady (fd : Device) (sp : mcp2210_packet) (len : Int)
    (hw : ∀ t p, fd.write t p = 64)
    (hr : ∀ t p, rd p 0 = 0x42 →
      (fd.read (t ++ [IoEvent.write p])).1 = 64 ∧
      rd (fd.read (t ++ [IoEvent.write p])).2 0 = 0x42 ∧
      rd (fd.read (t ++ [IoEvent.write p])).2 1 = 0 ∧
      rd (fd.read (t ++ [IoEvent.write p])).2 2 = rd p 1 ∧
      (rd (fd.read (t ++ [IoEvent.write p])).2 3 = 0x20 ∨
        rd (fd.read (t ++ [IoEvent.write p])).2 3 = 0x10 ∨
        rd (fd.read (t ++ [IoEvent.write p])).2 3 = 0x30))
    (hb : mcp2210_spi_get_bitrate sp ≠ 0) :
    ∀ (n fuel : Nat) (t : Trace) (data : Buffer) (r : Int),
      0 ≤ r → r ≤ len → len - r ≤ 58 * n → n ≤ fuel →
      ∃ res, spi_run fd sp len fuel (spi_loop_head sp len t data r r) = some res ∧
        res.outcome = SpiOutcome.returned 0 ∧ res.rd = len ∧ res.wr = len ∧
        (count_writes res.trace : Int) = count_writes t + (len - r + 57) / 58 ∧
        (count_reads res.trace : Int) = count_reads t + (len - r + 57) / 58 := by
  intro n
  induction n with
  | zero =>
    intro fuel t data r h0 h1 h2 _
    have e : r = len := by omega
    subst e
    rw [spi_loop_head_exit sp r t data r r (by omega), spi_run_finished]
    refine ⟨_, rfl, rfl, rfl, rfl, ?_, ?_⟩ <;> dsimp only <;> omega
  | succ n ih =>
    intro fuel t data r h0 h1 h2 h3
    by_cases hlt : r < len
    · obtain ⟨st, hd, htr, _, hrd, hwr, _, hl2⟩ := spi_loop_head_enter sp len t data r r hlt hb
      obtain ⟨f, rfl⟩ : ∃ f, fuel = f + 1 := ⟨fuel - 1, by omega⟩
      rw [hd, spi_run_at_retry]
      have hl0 : 0 ≤ st.wr_len := by rw [hl2]; split <;> omega
      have hl1 : st.wr_len ≤ 58 := by rw [hl2]; split <;> omega
      obtain ⟨f0, f1, _⟩ := spi_frame_bytes st hl0 hl1
      obtain ⟨r1, r2, r3, r4, r5⟩ := hr st.trace (spi_frame st) f0
      have hex := spi_exchange_ok fd st (hw _ _) r1 r3 r2
      have hblock := spi_retry_block_ok fd sp len st (by rw [hex]) (by rw [hex]; exact r5)
      rw [hblock]
      have hcount : (rd (spi_exchange fd st).packet 2 : Int) = st.wr_len := by
        rw [hex]; dsimp only; rw [r4]; exact f1
      rw [hcount, hrd, hwr]
      obtain ⟨res, e1, e2, e3, e4, e5, e6⟩ := ih f
        ((spi_exchange fd st).trace ++ [IoEvent.nanosleep st.delay.tv_sec st.delay.tv_nsec])
        (memcpy_packet_to_data st.data r.toNat (spi_exchange fd st).packet 4
          (rd (spi_exchange fd st).packet 2))
        (r + st.wr_len) (by omega) (by rw [hl2]; split <;> omega)
        (by rw [hl2]; split <;> omega) (by omega)
      refine ⟨res, e1, e2, e3, e4, ?_, ?_⟩
      · rw [e5, hex]
        dsimp only
        rw [count_writes_append, count_writes_append, count_writes_append, htr]
        simp only [count_writes]
        rw [hl2]
        split <;> omega
      · rw [e6, hex]
        dsimp only
        rw [count_reads_append, count_reads_append, count_reads_append, htr]
        simp only [count_reads]
        rw [hl2]
        split <;> omega
    · have e : r = len := by omega
      subst e
      rw [spi_loop_head_exit sp r t data r r (by omega), spi_run_finished]
      refine ⟨_, rfl, rfl, rfl, rfl, ?_, ?_⟩ <;> dsimp only <;> omega

/-! ## SPI transfer engine: a device that answers every exchange -/

theorem last_write_append_write (t : Trace) (p : mcp2210_packet) :
    last_write (t ++ [IoEvent.write p]) = p := by
  unfold last_write
  rw [List.foldl_append]
  rfl

theorem rd_spi_ok_response (req : mcp2210_packet) :
    rd (spi_ok_response req) 0 = 0x42 ∧ rd (spi_ok_response req) 1 = 0 ∧
    rd (spi_ok_response req) 2 = rd req 1 ∧ rd (spi_ok_response req) 3 = 0x30 := by
  refine ⟨rfl, rfl, rfl, rfl⟩

theorem loopback_device_answers (t : Trace) (p : mcp2210_packet) :
    (loopback_device.read (t ++ [IoEvent.write p])).1 = 64 ∧
    rd (loopback_device.read (t ++ [IoEvent.write p])).2 0 = 0x42 ∧
    rd (loopback_device.read (t ++ [IoEvent.write p])).2 1 = 0 ∧
    rd (loopback_device.read (t ++ [IoEvent.write p])).2 2 = rd p 1 ∧
    (rd (loopback_device.read (t ++ [IoEvent.write p])).2 3 = 0x20 ∨
      rd (loopback_device.read (t ++ [IoEvent.write p])).2 3 = 0x10 ∨
      rd (loopback_device.read (t ++ [IoEvent.write p])).2 3 = 0x30) := by
  obtain ⟨a, b, c, d⟩ := rd_spi_ok_response p
  show (64 : Int) = 64 ∧ rd (spi_ok_response (last_write (t ++ [IoEvent.write p]))) 0 = 0x42 ∧
    rd (spi_ok_response (last_write (t ++ [IoEvent.write p]))) 1 = 0 ∧
    rd (spi_ok_response (last_write (t ++ [IoEvent.write p]))) 2 = rd p 1 ∧
    (rd (spi_ok_response (last_write (t ++ [IoEvent.write p]))) 3 = 0x20 ∨
      rd (spi_ok_response (last_write (t ++ [IoEvent.write p]))) 3 = 0x10 ∨
      rd (spi_ok_response (last_write (t ++ [IoEvent.write p]))) 3 = 0x30)
  rw [last_write_append_write]
  exact ⟨rfl, a, b, c, Or.inr (Or.inr d)⟩

/-- C18, counterexample: with the all-zero settings frame, whose bit rate is 0, and a device
that answers every exchange successfully with the chunk length it was sent, the transfer of
120 bytes ends in the division by `bit_rate` of the delay computation, before any exchange:
nothing is written to the device, nothing is received and no value is returned. -/
theorem spi_transfer_zero_bit_rate :
    mcp2210_spi_get_bitrate zero_packet = 0 ∧
    (mcp2210_spi_transfer loopback_device 3 [] zero_packet counting_data 120).map
      (fun r => (spi_returned r, r.rd, count_writes r.trace)) = some (none, 0, 0) := by
  decide

/-- C18, amended: with a settings frame whose bit rate is not zero and a device that answers
every SPI transfer exchange successfully, with a valid status and a response byte count equal
to the chunk length it was sent, `mcp2210_spi_transfer` of `N` bytes, for `N` from 1 to 32767
(the values the `short` parameter passes unchanged), returns 0 with `rd = N` after exactly
`ceil (N / 58)` exchanges (that many writes and that many reads), whenever the bound on the
number of exchanges is at least that number. -/
theorem spi_transfer_exchange_count (fd : Device) (sp : mcp2210_packet) (t : Trace)
    (data : Buffer) (N : Int) (fuel : Nat)
    (hN : 1 ≤ N) (hmax : N ≤ 32767) (hfuel : (N + 57) / 58 ≤ fuel)
    (hb : mcp2210_spi_get_bitrate sp ≠ 0)
    (hw : ∀ t p, fd.write t p = 64)
    (hr : ∀ t p, rd p 0 = 0x42 →
      (fd.read (t ++ [IoEvent.write p])).1 = 64 ∧
      rd (fd.read (t ++ [IoEvent.write p])).2 0 = 0x42 ∧
      rd (fd.read (t ++ [IoEvent.write p])).2 1 = 0 ∧
      rd (fd.read (t ++ [IoEvent.write p])).2 2 = rd p 1 ∧
      (rd (fd.read (t ++ [IoEvent.write p])).2 3 = 0x20 ∨
        rd (fd.read (t ++ [IoEvent.write p])).2 3 = 0x10 ∨
        rd (fd.read (t ++ [IoEvent.write p])).2 3 = 0x30)) :
    to_short N = N ∧
    ∃ res, mcp2210_spi_transfer fd fuel t sp data (to_short N) = some res ∧
      res.outcome = SpiOutcome.returned 0 ∧ res.rd = N ∧
      (count_writes res.trace : Int) = count_writes t + (N + 57) / 58 ∧
      (count_reads res.trace : Int) = count_reads t + (N + 57) / 58 := by
  have hs : to_short N = N := by
    unfold to_short
    omega
  rw [hs]
  obtain ⟨res, e1, e2, e3, _, e5, e6⟩ := spi_run_steady fd sp N hw hr hb
    ((N + 57) / 58).toNat fuel t data 0 (le_refl 0) (by omega) (by omega) (by omega)
  refine ⟨rfl, res, e1, e2, e3, ?_, ?_⟩
  · rw [e5]; simp
  · rw [e6]; simp

theorem spi_transfer_exchange_count_witness :
    ((1 : Int) ≤ 120 ∧ (120 : Int) ≤ 32767 ∧ ((120 : Int) + 57) / 58 ≤ (3 : Nat) ∧
      mcp2210_spi_get_bitrate spi_settings_frame ≠ 0) ∧
    ((120 : Int) + 57) / 58 = 3 ∧
    to_short 120 = 120 ∧
    ∃ res, mcp2210_spi_transfer loopback_device 3 [] spi_settings_frame counting_data
        (to_short 120) = some res ∧
      res.outcome = SpiOutcome.returned 0 ∧ res.rd = 120 ∧
      (count_writes res.trace : Int) = count_writes [] + (120 + 57) / 58 ∧
      (count_reads res.trace : Int) = count_reads [] + (120 + 57) / 58 :=
  ⟨⟨by decide, by decide, by decide, by decide⟩, by decide,
    spi_transfer_exchange_count loopback_device spi_settings_frame [] counting_data 120 3
      (by decide) (by decide) (by decide) (by decide) (fun _ _ => rfl)
      (fun t p _ => loopback_device_answers t p)⟩

/-! ## SPI transfer engine: the states at the label `retry` -/

theorem spi_loop_head_at_retry (sp : mcp2210_packet) (len : Int) (t : Trace) (data : Buffer)
    (r w : Int) (st : SpiState) (h : spi_loop_head sp len t data r w = SpiNext.at_retry st) :
    st.trace = t ∧ st.data = data ∧ st.rd = r ∧ st.wr = w ∧ st.packet = zero_packet ∧
    st.wr_len = (if w + 58 > len then len - w else 58) ∧ r < len := by
  unfold spi_loop_head at h
  by_cases hlt : r < len
  · rw [if_pos hlt] at h
    dsimp only at h
    split at h
    · exact SpiNext.noConfusion h
    · injection h with h
      subst h
      exact ⟨rfl, rfl, rfl, rfl, rfl, rfl, hlt⟩
  · rw [if_neg hlt] at h
    exact SpiNext.noConfusion h

theorem spi_loop_head_trace (sp : mcp2210_packet) (len : Int) (t : Trace) (data : Buffer)
    (r w : Int) : next_trace (spi_loop_head sp len t data r w) = t := by
  unfold spi_loop_head
  split
  · dsimp only
    split <;> rfl
  · rfl

theorem spi_retry_block_trace (fd : Device) (sp : mcp2210_packet) (len : Int)
    (st : SpiState) :
    next_trace (spi_retry_block fd sp len st) =
      (spi_exchange fd st).trace ++ [IoEvent.nanosleep st.delay.tv_sec st.delay.tv_nsec] := by
  unfold spi_retry_block
  dsimp only
  split
  · rfl
  · split
    · rfl
    · split
      · exact spi_loop_head_trace _ _ _ _ _ _
      · rfl

/-- The two ways in which the block at `retry` leads to the label again: by `goto retry`
after the transfer-in-progress error, or through the loop test after a successful exchange
with a valid status. -/
theorem spi_retry_block_at_retry (fd : Device) (sp : mcp2210_packet) (len : Int)
    (st st2 : SpiState) (h : spi_retry_block fd sp len st = SpiNext.at_retry st2) :
    ((spi_exchange fd st).ret = -MCP2210_ESPIINPROGRESS ∧ st2 = spi_busy_again fd st) ∨
    ((spi_exchange fd st).ret = 0 ∧
      spi_loop_head sp len
        ((spi_exchange fd st).trace ++ [IoEvent.nanosleep st.delay.tv_sec st.delay.tv_nsec])
        (memcpy_packet_to_data st.data st.rd.toNat (spi_exchange fd st).packet 4
          (rd (spi_exchange fd st).packet 2))
        (st.rd + rd (spi_exchange fd st).packet 2) (st.wr + st.wr_len) =
          SpiNext.at_retry st2) := by
  have hle : (spi_exchange fd st).ret ≤ 0 := command_ret_nonpos _ _ _ _
  unfold spi_retry_block at h
  dsimp only at h
  split at h
  · next hb =>
    injection h with h
    exact Or.inl ⟨hb, h.symm⟩
  · split at h
    · exact SpiNext.noConfusion h
    · next h1 =>
      split at h
      · exact Or.inr ⟨by omega, h⟩
      · exact SpiNext.noConfusion h

/-- At every arrival at `retry`, `wr` lies in `0 .. len` and `wr_len` is
`min (58, len - wr)`. -/
theorem spi_reach_chunk (fd : Device) (sp : mcp2210_packet) (len : Int) (t0 : Trace)
    (d0 : Buffer) (st : SpiState) (h : SpiReach fd sp len t0 d0 st) :
    0 ≤ st.wr ∧ st.wr ≤ len ∧ st.wr_len = (if st.wr + 58 > len then len - st.wr else 58) := by
  induction h with
  | enter st h =>
    obtain ⟨_, _, _, hw, _, hl, hlt⟩ := spi_loop_head_at_retry sp len t0 d0 0 0 st h
    rw [hw]
    exact ⟨le_refl 0, by omega, hl⟩
  | step st st2 _ h ih =>
    obtain ⟨i0, i1, i2⟩ := ih
    rcases spi_retry_block_at_retry fd sp len st st2 h with ⟨_, e⟩ | ⟨_, e⟩
    · rw [e]
      exact ⟨i0, i1, i2⟩
    · obtain ⟨_, _, _, hw, _, hl, _⟩ := spi_loop_head_at_retry sp len _ _ _ _ st2 e
      have hlen : 0 ≤ st.wr_len ∧ st.wr + st.wr_len ≤ len := by
        rw [i2]; split <;> omega
      rw [hw]
      exact ⟨by omega, hlen.2, by rw [hl]⟩

theorem spi_retry_block_busy (fd : Device) (sp : mcp2210_packet) (len : Int) (st : SpiState)
    (h : (spi_exchange fd st).ret = -MCP2210_ESPIINPROGRESS) :
    spi_retry_block fd sp len st = SpiNext.at_retry (spi_busy_again fd st) := by
  unfold spi_retry_block
  dsimp only
  rw [if_pos h]

theorem spi_retry_block_success (fd : Device) (sp : mcp2210_packet) (len : Int)
    (st : SpiState) (h : (spi_exchange fd st).ret = 0) :
    spi_retry_block fd sp len st =
      if rd (spi_exchange fd st).packet 3 = 0x20 ∨ rd (spi_exchange fd st).packet 3 = 0x10 ∨
          rd (spi_exchange fd st).packet 3 = 0x30 then
        spi_loop_head sp len
          ((spi_exchange fd st).trace ++ [IoEvent.nanosleep st.delay.tv_sec st.delay.tv_nsec])
          (memcpy_packet_to_data st.data st.rd.toNat (spi_exchange fd st).packet 4
            (rd (spi_exchange fd st).packet 2))
          (st.rd + rd (spi_exchange fd st).packet 2) (st.wr + st.wr_len)
      else
        SpiNext.finished
          { outcome := SpiOutcome.returned (-0x106),
            trace := (spi_exchange fd st).trace ++
              [IoEvent.nanosleep st.delay.tv_sec st.delay.tv_nsec],
            data := st.data, rd := st.rd, wr := st.wr + st.wr_len } := by
  unfold spi_retry_block
  have h1 : ¬ (spi_exchange fd st).ret = -MCP2210_ESPIINPROGRESS := by
    rw [h]; decide
  have h2 : ¬ (spi_exchange fd st).ret < 0 := by
    rw [h]; decide
  simp only [h1, h2, if_false]
  rfl

theorem spi_after_busy_fields (fd : Device) (st : SpiState) (j : Nat) :
    (spi_after_busy fd j st).data = st.data ∧ (spi_after_busy fd j st).rd = st.rd ∧
    (spi_after_busy fd j st).wr = st.wr ∧ (spi_after_busy fd j st).wr_len = st.wr_len := by
  induction j with
  | zero => exact ⟨rfl, rfl, rfl, rfl⟩
  | succ j ih => exact ih

theorem spi_run_after_busy (fd : Device) (sp : mcp2210_packet) (len : Int) (st : SpiState) :
    ∀ (k : Nat),
      (∀ j, j < k →
        (spi_exchange fd (spi_after_busy fd j st)).ret = -MCP2210_ESPIINPROGRESS) →
      ∀ fuel, spi_run fd sp len (fuel + k) (SpiNext.at_retry st) =
        spi_run fd sp len fuel (SpiNext.at_retry (spi_after_busy fd k st)) := by
  intro k
  induction k with
  | zero =>
    intro _ fuel
    rfl
  | succ k ih =>
    intro hbusy fuel
    have e : fuel + (k + 1) = (fuel + 1) + k := by omega
    rw [e, ih (fun j hj => hbusy j (by omega)) (fuel + 1), spi_run_at_retry,
      spi_retry_block_busy fd sp len _ (hbusy k (by omega))]
    rfl

/-- C20: if, from an arrival `st` at `retry`, the exchanges for the chunk report the
transfer-in-progress error (-0xF8) `k` times and the next one succeeds, then every attempt
sends the same chunk length and the same payload `data[wr .. wr + wr_len)`, the busy
attempts change neither `data` nor `rd` nor `wr`, the execution passes through exactly these
`k` extra exchanges, and the successful attempt completes the chunk as it would from `st`
itself (`k = 0`): `wr` advances once by `wr_len` and, when the status byte is valid, the
response payload is copied once to `data[rd ..]` and `rd` advances once by the byte count of
that response. -/
theorem spi_busy_retry (fd : Device) (sp : mcp2210_packet) (len : Int) (t0 : Trace)
    (d0 : Buffer) (st : SpiState) (k : Nat)
    (hreach : SpiReach fd sp len t0 d0 st)
    (hbusy : ∀ j, j < k →
      (spi_exchange fd (spi_after_busy fd j st)).ret = -MCP2210_ESPIINPROGRESS)
    (hok : (spi_exchange fd (spi_after_busy fd k st)).ret = 0) :
    (∀ j, j ≤ k →
      (rd (spi_frame (spi_after_busy fd j st)) 1 : Int) = st.wr_len ∧
      (∀ i : Nat, (i : Int) < st.wr_len →
        rd (spi_frame (spi_after_busy fd j st)) (2 + i) = (st.data (st.wr.toNat + i)).val) ∧
      (spi_after_busy fd j st).data = st.data ∧
      (spi_after_busy fd j st).rd = st.rd ∧
      (spi_after_busy fd j st).wr = st.wr) ∧
    (∀ fuel, spi_run fd sp len (fuel + k) (SpiNext.at_retry st) =
      spi_run fd sp len fuel (SpiNext.at_retry (spi_after_busy fd k st))) ∧
    spi_retry_block fd sp len (spi_after_busy fd k st) =
      (if rd (spi_exchange fd (spi_after_busy fd k st)).packet 3 = 0x20 ∨
          rd (spi_exchange fd (spi_after_busy fd k st)).packet 3 = 0x10 ∨
          rd (spi_exchange fd (spi_after_busy fd k st)).packet 3 = 0x30 then
        spi_loop_head sp len
          ((spi_exchange fd (spi_after_busy fd k st)).trace ++
            [IoEvent.nanosleep (spi_after_busy fd k st).delay.tv_sec
              (spi_after_busy fd k st).delay.tv_nsec])
          (memcpy_packet_to_data st.data st.rd.toNat
            (spi_exchange fd (spi_after_busy fd k st)).packet 4
            (rd (spi_exchange fd (spi_after_busy fd k st)).packet 2))
          (st.rd + rd (spi_exchange fd (spi_after_busy fd k st)).packet 2)
          (st.wr + st.wr_len)
      else
        SpiNext.finished
          { outcome := SpiOutcome.returned (-0x106),
            trace := (spi_exchange fd (spi_after_busy fd k st)).trace ++
              [IoEvent.nanosleep (spi_after_busy fd k st).delay.tv_sec
                (spi_after_busy fd k st).delay.tv_nsec],
            data := st.data, rd := st.rd, wr := st.wr + st.wr_len }) := by
  obtain ⟨_, _, i2⟩ := spi_reach_chunk fd sp len t0 d0 st hreach
  have hl0 : 0 ≤ st.wr_len := by rw [i2]; split <;> omega
  have hl1 : st.wr_len ≤ 58 := by rw [i2]; split <;> omega
  refine ⟨?_, spi_run_after_busy fd sp len st k hbusy, ?_⟩
  · intro j _
    obtain ⟨e1, e2, e3, e4⟩ := spi_after_busy_fields fd st j
    obtain ⟨_, f1, f2⟩ := spi_frame_bytes (spi_after_busy fd j st) (by rw [e4]; exact hl0)
      (by rw [e4]; exact hl1)
    rw [e4] at f1 f2
    rw [e1, e3] at f2
    exact ⟨f1, f2, e1, e2, e3⟩
  · obtain ⟨e1, e2, e3, e4⟩ := spi_after_busy_fields fd st k
    rw [spi_retry_block_success fd sp len _ hok, e1, e2, e3, e4]

theorem spi_busy_retry_witness :
    (SpiReach (busy_device 2) spi_settings_frame 120 [] counting_data sample_spi_state ∧
      (∀ j, j < 2 → (spi_exchange (busy_device 2)
        (spi_after_busy (busy_device 2) j sample_spi_state)).ret = -MCP2210_ESPIINPROGRESS) ∧
      (spi_exchange (busy_device 2)
        (spi_after_busy (busy_device 2) 2 sample_spi_state)).ret = 0) ∧
    (∀ fuel, spi_run (busy_device 2) spi_settings_frame 120 (fuel + 2)
        (SpiNext.at_retry sample_spi_state) =
      spi_run (busy_device 2) spi_settings_frame 120 fuel
        (SpiNext.at_retry (spi_after_busy (busy_device 2) 2 sample_spi_state))) :=
  have h1 : SpiReach (busy_device 2) spi_settings_frame 120 [] counting_data
      sample_spi_state := SpiReach.enter sample_spi_state rfl
  have h2 : ∀ j, j < 2 → (spi_exchange (busy_device 2)
      (spi_after_busy (busy_device 2) j sample_spi_state)).ret = -MCP2210_ESPIINPROGRESS := by
    decide
  have h3 : (spi_exchange (busy_device 2)
      (spi_after_busy (busy_device 2) 2 sample_spi_state)).ret = 0 := by decide
  ⟨⟨h1, h2, h3⟩,
    (spi_busy_retry (busy_device 2) spi_settings_frame 120 [] counting_data sample_spi_state 2
      h1 h2 h3).2.1⟩

/-! ## SPI transfer engine: the `int` product of the delay computation -/

theorem spi_delay_product_bound_pos (x b : Int) (hx : 0 ≤ x) (hb : 0 < b) :
    0 ≤ Int.tmod x b * Int.tdiv 1000000000 b ∧
    Int.tmod x b * Int.tdiv 1000000000 b < 1000000000 := by
  rw [Int.tmod_eq_emod hx (le_of_lt hb), Int.tdiv_eq_ediv (by decide) (le_of_lt hb)]
  have h1 : 0 ≤ x % b := Int.emod_nonneg x (ne_of_gt hb)
  have h2 : x % b < b := Int.emod_lt_of_pos x hb
  have h3 : 0 ≤ 1000000000 / b := Int.ediv_nonneg (by decide) (le_of_lt hb)
  have h4 : 1000000000 / b * b ≤ 1000000000 := Int.ediv_mul_le 1000000000 (ne_of_gt hb)
  constructor
  · exact mul_nonneg h1 h3
  · have h5 : x % b * (1000000000 / b) ≤ (b - 1) * (1000000000 / b) :=
      mul_le_mul_of_nonneg_right (by omega) h3
    by_cases hq : 1000000000 / b = 0
    · rw [hq]; simp
    · have : 1 ≤ 1000000000 / b := by omega
      nlinarith

/-- The product `(rd_len * 8 % bit_rate) * (1000000000 / bit_rate)` of `spi_delay` fits an
`int` for every non-zero `bit_rate`. -/
theorem spi_delay_product_bound (x b : Int) (hx : 0 ≤ x) (hb : b ≠ 0) :
    -1000000000 < Int.tmod x b * Int.tdiv 1000000000 b ∧
    Int.tmod x b * Int.tdiv 1000000000 b < 1000000000 := by
  rcases lt_or_gt_of_ne hb with h | h
  · have hp := spi_delay_product_bound_pos x (-b) hx (by omega)
    rw [Int.tmod_neg, Int.tdiv_neg] at hp
    constructor
    · have := hp.2
      rw [mul_neg] at this
      omega
    · have := hp.1
      rw [mul_neg] at this
      omega
  · have hp := spi_delay_product_bound_pos x b hx h
    exact ⟨by omega, hp.2⟩

/-! ## SPI transfer engine: what the block at `retry` leaves behind -/

theorem spi_exchange_ret_nonpos (fd : Device) (st : SpiState) : (spi_exchange fd st).ret ≤ 0 :=
  command_ret_nonpos fd st.trace (spi_request st) MCP2210_SPI_TRANSFER

/-- The block at `retry` when the exchange fails with an error other than "transfer in
progress": the function returns the error after the sleep. -/
theorem spi_retry_block_error (fd : Device) (sp : mcp2210_packet) (len : Int) (st : SpiState)
    (hneg : (spi_exchange fd st).ret < 0)
    (hnb : (spi_exchange fd st).ret ≠ -MCP2210_ESPIINPROGRESS) :
    spi_retry_block fd sp len st =
      SpiNext.finished
        { outcome := SpiOutcome.returned (spi_exchange fd st).ret,
          trace := (spi_exchange fd st).trace ++
            [IoEvent.nanosleep st.delay.tv_sec st.delay.tv_nsec],
          data := st.data, rd := st.rd, wr := st.wr } := by
  unfold spi_retry_block
  dsimp only
  rw [if_neg hnb, if_pos hneg]

theorem spi_loop_head_next (sp : mcp2210_packet) (len : Int) (t : Trace) (data : Buffer)
    (r w : Int) :
    next_data (spi_loop_head sp len t data r w) = data ∧
    next_rd (spi_loop_head sp len t data r w) = r ∧
    next_wr (spi_loop_head sp len t data r w) = w := by
  unfold spi_loop_head
  split
  · dsimp only
    split <;> exact ⟨rfl, rfl, rfl⟩
  · exact ⟨rfl, rfl, rfl⟩

/-- The received count and the memory after the block at `retry`: the response payload is
copied and counted exactly when the exchange succeeds with a valid status. -/
theorem spi_retry_block_next (fd : Device) (sp : mcp2210_packet) (len : Int) (st : SpiState) :
    (((spi_exchange fd st).ret = 0 ∧
        (rd (spi_exchange fd st).packet 3 = 0x20 ∨ rd (spi_exchange fd st).packet 3 = 0x10 ∨
          rd (spi_exchange fd st).packet 3 = 0x30)) →
      next_data (spi_retry_block fd sp len st) =
        memcpy_packet_to_data st.data st.rd.toNat (spi_exchange fd st).packet 4
          (rd (spi_exchange fd st).packet 2) ∧
      next_rd (spi_retry_block fd sp len st) = st.rd + rd (spi_exchange fd st).packet 2 ∧
      next_wr (spi_retry_block fd sp len st) = st.wr + st.wr_len) ∧
    (¬ ((spi_exchange fd st).ret = 0 ∧
        (rd (spi_exchange fd st).packet 3 = 0x20 ∨ rd (spi_exchange fd st).packet 3 = 0x10 ∨
          rd (spi_exchange fd st).packet 3 = 0x30)) →
      next_data (spi_retry_block fd sp len st) = st.data ∧
      next_rd (spi_retry_block fd sp len st) = st.rd) := by
  have hle := spi_exchange_ret_nonpos fd st
  constructor
  · rintro ⟨h0, hs⟩
    rw [spi_retry_block_ok fd sp len st h0 hs]
    exact spi_loop_head_next _ _ _ _ _ _
  · intro hn
    by_cases hb : (spi_exchange fd st).ret = -MCP2210_ESPIINPROGRESS
    · rw [spi_retry_block_busy fd sp len st hb]
      exact ⟨rfl, rfl⟩
    · by_cases hneg : (spi_exchange fd st).ret < 0
      · rw [spi_retry_block_error fd sp len st hneg hb]
        exact ⟨rfl, rfl⟩
      · have h0 : (spi_exchange fd st).ret = 0 := by omega
        rw [spi_retry_block_success fd sp len st h0, if_neg (fun hs => hn ⟨h0, hs⟩)]
        exact ⟨rfl, rfl⟩

/-! ## SPI transfer engine: invariants of an execution -/

/-- A result of `spi_run` is either there from the start or produced by the block at `retry`
from a state in which the execution arrived at the label. -/
theorem spi_run_last (fd : Device) (sp : mcp2210_packet) (len : Int) (t0 : Trace)
    (d0 : Buffer) :
    ∀ (fuel : Nat) (nx : SpiNext) (res : SpiResult),
      (∀ st, nx = SpiNext.at_retry st → SpiReach fd sp len t0 d0 st) →
      spi_run fd sp len fuel nx = some res →
      nx = SpiNext.finished res ∨
        ∃ st, SpiReach fd sp len t0 d0 st ∧
          spi_retry_block fd sp len st = SpiNext.finished res := by
  intro fuel
  induction fuel with
  | zero =>
    intro nx res _ hrun
    cases nx with
    | at_retry st => exact Option.noConfusion hrun
    | finished r =>
      have e : r = res := Option.some.inj hrun
      subst e
      exact Or.inl rfl
  | succ fuel ih =>
    intro nx res hR hrun
    cases nx with
    | finished r =>
      have e : r = res := Option.some.inj hrun
      subst e
      exact Or.inl rfl
    | at_retry st =>
      have hreach := hR st rfl
      rw [spi_run_at_retry] at hrun
      rcases ih (spi_retry_block fd sp len st) res
        (fun st2 h2 => SpiReach.step st st2 hreach h2) hrun with h | h
      · exact Or.inr ⟨st, hreach, h⟩
      · exact Or.inr h

/-- Induction over an execution: a property of the points of the execution that holds after
the first loop test and is kept by the block at `retry` holds at every arrival at `retry`
and at the end of the execution. -/
theorem spi_invariant (fd : Device) (sp : mcp2210_packet) (len : Int) (t0 : Trace)
    (d0 : Buffer) (I : SpiNext → Prop)
    (h0 : I (spi_loop_head sp len t0 d0 0 0))
    (hstep : ∀ st, SpiReach fd sp len t0 d0 st → I (SpiNext.at_retry st) →
      I (spi_retry_block fd sp len st)) :
    (∀ st, SpiReach fd sp len t0 d0 st → I (SpiNext.at_retry st)) ∧
    (∀ fuel res, mcp2210_spi_transfer fd fuel t0 sp d0 len = some res →
      I (SpiNext.finished res)) := by
  have ha : ∀ st, SpiReach fd sp len t0 d0 st → I (SpiNext.at_retry st) := by
    intro st h
    induction h with
    | enter st h => rw [← h]; exact h0
    | step st st2 hr h ih => rw [← h]; exact hstep st hr ih
  refine ⟨ha, ?_⟩
  intro fuel res hrun
  rcases spi_run_last fd sp len t0 d0 fuel (spi_loop_head sp len t0 d0 0 0) res
    (fun st h => SpiReach.enter st h) hrun with h | ⟨st, hr, h⟩
  · rw [← h]; exact h0
  · rw [← h]; exact hstep st hr (ha st hr)

/-- An execution that arrives at `retry` in the state `st` does so after a fixed number of
exchanges, and continues from `st`. -/
theorem spi_reach_run (fd : Device) (sp : mcp2210_packet) (len : Int) (t0 : Trace)
    (d0 : Buffer) (st : SpiState) (h : SpiReach fd sp len t0 d0 st) :
    ∃ n, ∀ fuel, mcp2210_spi_transfer fd (fuel + n) t0 sp d0 len =
      spi_run fd sp len fuel (SpiNext.at_retry st) := by
  induction h with
  | enter st h =>
    refine ⟨0, fun fuel => ?_⟩
    unfold mcp2210_spi_transfer
    rw [h]
    rfl
  | step st st2 _ h ih =>
    obtain ⟨n, hn⟩ := ih
    refine ⟨n + 1, fun fuel => ?_⟩
    have e : fuel + (n + 1) = (fuel + 1) + n := by omega
    rw [e, hn (fuel + 1), spi_run_at_retry, h]

/-! ## SPI transfer engine: the payloads received -/

theorem spi_payload_length (resp : mcp2210_packet) : (spi_payload resp).length = rd resp 2 := by
  unfold spi_payload
  rw [List.length_map, List.length_range]

theorem spi_payload_getD (resp : mcp2210_packet) (k : Nat) (d : Byte) (h : k < rd resp 2) :
    (spi_payload resp).getD k d = rd_byte resp (4 + k) := by
  unfold spi_payload
  rw [List.getD_eq_getElem _ _ (by simpa using h)]
  simp

theorem spi_payloads_from_append (fd : Device) (a : Trace) :
    ∀ (pre b : Trace), spi_payloads_from fd pre (a ++ b) =
      spi_payloads_from fd pre a ++ spi_payloads_from fd (pre ++ a) b := by
  induction a with
  | nil =>
    intro pre b
    simp [spi_payloads_from]
  | cons e a ih =>
    intro pre b
    have hpre : pre ++ e :: a = pre ++ [e] ++ a := by simp
    rw [hpre]
    cases e with
    | write buf =>
      show spi_payloads_from fd pre (IoEvent.write buf :: (a ++ b)) = _
      rw [spi_payloads_from, spi_payloads_from, ih]
    | read =>
      show spi_payloads_from fd pre (IoEvent.read :: (a ++ b)) = _
      rw [spi_payloads_from, spi_payloads_from, ih]
      simp only [List.append_assoc]
    | nanosleep sec nsec =>
      show spi_payloads_from fd pre (IoEvent.nanosleep sec nsec :: (a ++ b)) = _
      rw [spi_payloads_from, spi_payloads_from, ih]

/-- The memory after the copy of a response payload to `data[rd ..]`, when the memory held
the earlier payloads `P` in `data[0 .. rd)` and the bytes of `d0` elsewhere. -/
theorem memcpy_packet_to_data_getD (data d0 : Buffer) (P : List Byte)
    (resp : mcp2210_packet) (hdata : ∀ i, data i = P.getD i (d0 i)) :
    ∀ i, memcpy_packet_to_data data P.length resp 4 (rd resp 2) i =
      (P ++ spi_payload resp).getD i (d0 i) := by
  intro i
  unfold memcpy_packet_to_data
  by_cases h : P.length ≤ i ∧ i < P.length + rd resp 2
  · rw [if_pos h, List.getD_append_right _ _ _ _ h.1, spi_payload_getD _ _ _ (by omega)]
  · rw [if_neg h, hdata i]
    by_cases h1 : i < P.length
    · rw [List.getD_append _ _ _ _ h1]
    · rw [List.getD_eq_default _ _ (by omega), List.getD_eq_default]
      rw [List.length_append, spi_payload_length]
      omega

/-- Success of an exchange in terms of the device: complete write and read, no error code
and the command code echoed; the packet buffer then holds the response. -/
theorem spi_exchange_ret_zero (fd : Device) (st : SpiState) :
    ((spi_exchange fd st).ret = 0 ↔
      fd.write st.trace (spi_frame st) = 64 ∧
      (fd.read (st.trace ++ [IoEvent.write (spi_frame st)])).1 = 64 ∧
      rd (fd.read (st.trace ++ [IoEvent.write (spi_frame st)])).2 1 = 0 ∧
      rd (fd.read (st.trace ++ [IoEvent.write (spi_frame st)])).2 0 = 0x42) ∧
    ((spi_exchange fd st).ret = 0 →
      (spi_exchange fd st).packet = (fd.read (st.trace ++ [IoEvent.write (spi_frame st)])).2) := by
  have h1 := rd_lt (fd.read (st.trace ++ [IoEvent.write (spi_frame st)])).2 1
  by_cases hw : fd.write st.trace (spi_frame st) = 64
  · by_cases hr : (fd.read (st.trace ++ [IoEvent.write (spi_frame st)])).1 = 64
    · have e := command_of_complete fd st.trace (spi_request st) MCP2210_SPI_TRANSFER hw hr
      have e2 : spi_exchange fd st = _ := e
      rw [e2]
      dsimp only
      unfold spi_frame at h1 ⊢
      unfold MCP2210_EBADCMD MCP2210_SPI_TRANSFER at *
      refine ⟨⟨?_, ?_⟩, fun _ => rfl⟩
      · intro h
        split at h
        · omega
        · next hb =>
          split at h
          · omega
          · next hc => exact ⟨hw, hr, not_not.mp hb, not_not.mp hc⟩
      · rintro ⟨_, _, hb, hc⟩
        rw [if_neg (not_not.mpr hb), if_neg (not_not.mpr hc)]
    · have e := command_of_read_ne fd st.trace (spi_request st) MCP2210_SPI_TRANSFER hw hr
      have e2 : spi_exchange fd st = _ := e
      rw [e2]
      dsimp only
      unfold MCP2210_ERDSHORT
      have hne : (if (fd.read (st.trace ++ [IoEvent.write (wr (spi_request st) 0
          MCP2210_SPI_TRANSFER)])).1 = -1 then (-1 : Int) else -258) ≠ 0 := by
        split <;> omega
      exact ⟨⟨fun h => absurd h hne, fun h => absurd h.2.1 hr⟩, fun h => absurd h hne⟩
  · have e := command_of_write_ne fd st.trace (spi_request st) MCP2210_SPI_TRANSFER hw
    have e2 : spi_exchange fd st = _ := e
    rw [e2]
    dsimp only
    unfold MCP2210_EWRSHORT
    have hne : (if fd.write st.trace (wr (spi_request st) 0 MCP2210_SPI_TRANSFER) = -1
        then (-1 : Int) else -257) ≠ 0 := by
      split <;> omega
    exact ⟨⟨fun h => absurd h hne, fun h => absurd h.1 hw⟩, fun h => absurd h hne⟩

/-- The payload that the exchange made from the state `st` adds to the payloads of the
history: that of the response when the exchange succeeds, none otherwise. -/
theorem spi_block_payloads (fd : Device) (st : SpiState) (s n : Int) :
    spi_payloads_from fd st.trace
      (IoEvent.write (spi_frame st) ::
        (if fd.write st.trace (spi_frame st) = 64 then [IoEvent.read] else []) ++
          [IoEvent.nanosleep s n]) =
      if (spi_exchange fd st).ret = 0 then spi_payload (spi_exchange fd st).packet else [] := by
  obtain ⟨hiff, hpk⟩ := spi_exchange_ret_zero fd st
  by_cases hw : fd.write st.trace (spi_frame st) = 64
  · rw [if_pos hw]
    show spi_payloads_from fd st.trace
      (IoEvent.write (spi_frame st) :: IoEvent.read :: [IoEvent.nanosleep s n]) = _
    rw [spi_payloads_from, spi_payloads_from, spi_payloads_from, spi_payloads_from,
      List.append_nil]
    unfold MCP2210_SPI_TRANSFER
    by_cases h0 : (spi_exchange fd st).ret = 0
    · obtain ⟨_, hr, h1, hc⟩ := hiff.mp h0
      rw [hpk h0, if_pos ⟨hr, h1, hc⟩, if_pos h0]
    · rw [if_neg (fun h => h0 (hiff.mpr ⟨hw, h.1, h.2.1, h.2.2⟩)), if_neg h0]
  · rw [if_neg hw]
    show spi_payloads_from fd st.trace
      (IoEvent.write (spi_frame st) :: [IoEvent.nanosleep s n]) = _
    rw [spi_payloads_from, spi_payloads_from, spi_payloads_from,
      if_neg (fun h => hw (hiff.mp h).1)]

/-- The received bytes during an execution: at every arrival at `retry`, and at the end of an
execution that returns 0, `rd` is the total length of the payloads of the successful
responses so far, and the memory at `data` holds these payloads in order from offset 0 and
is unchanged elsewhere. -/
theorem spi_payloads_invariant (fd : Device) (sp : mcp2210_packet) (len : Int) (t0 : Trace)
    (d0 : Buffer) :
    (∀ st, SpiReach fd sp len t0 d0 st →
      ∃ sfx, st.trace = t0 ++ sfx ∧ st.rd = (spi_payloads_from fd t0 sfx).length ∧
        ∀ i, st.data i = (spi_payloads_from fd t0 sfx).getD i (d0 i)) ∧
    (∀ fuel res, mcp2210_spi_transfer fd fuel t0 sp d0 len = some res →
      spi_returned res = some 0 →
      ∃ sfx, res.trace = t0 ++ sfx ∧ res.rd = (spi_payloads_from fd t0 sfx).length ∧
        ∀ i, res.data i = (spi_payloads_from fd t0 sfx).getD i (d0 i)) := by
  have hinv := spi_invariant fd sp len t0 d0
    (fun nx => (∃ r, nx = SpiNext.finished r ∧ spi_returned r ≠ some 0) ∨
      ∃ sfx, next_trace nx = t0 ++ sfx ∧
        next_rd nx = (spi_payloads_from fd t0 sfx).length ∧
        ∀ i, next_data nx i = (spi_payloads_from fd t0 sfx).getD i (d0 i)) ?_ ?_
  · obtain ⟨ha, hf⟩ := hinv
    constructor
    · intro st hst
      rcases ha st hst with ⟨r, hr, _⟩ | h
      · exact SpiNext.noConfusion hr
      · exact h
    · intro fuel res hrun hret
      rcases hf fuel res hrun with ⟨r, hr, hne⟩ | h
      · injection hr with hr
        subst hr
        exact absurd hret hne
      · exact h
  · obtain ⟨hd, hr, _⟩ := spi_loop_head_next sp len t0 d0 0 0
    refine Or.inr ⟨[], ?_, ?_, ?_⟩
    · rw [spi_loop_head_trace, List.append_nil]
    · rw [hr]; rfl
    · intro i; rw [hd]; rfl
  · rintro st _ (⟨r, hr, _⟩ | ⟨sfx, ht, hrd, hdata⟩)
    · exact SpiNext.noConfusion hr
    have ht : st.trace = t0 ++ sfx := ht
    have hrd : st.rd = (spi_payloads_from fd t0 sfx).length := hrd
    have hdata : ∀ i, st.data i = (spi_payloads_from fd t0 sfx).getD i (d0 i) := hdata
    obtain ⟨hacc, hrej⟩ := spi_retry_block_next fd sp len st
    have hpay := spi_block_payloads fd st st.delay.tv_sec st.delay.tv_nsec
    by_cases h0 : (spi_exchange fd st).ret = 0
    · by_cases hs : rd (spi_exchange fd st).packet 3 = 0x20 ∨
          rd (spi_exchange fd st).packet 3 = 0x10 ∨ rd (spi_exchange fd st).packet 3 = 0x30
      · refine Or.inr ⟨sfx ++ (IoEvent.write (spi_frame st) ::
          (if fd.write st.trace (spi_frame st) = 64 then [IoEvent.read] else []) ++
            [IoEvent.nanosleep st.delay.tv_sec st.delay.tv_nsec]), ?_, ?_, ?_⟩
        · rw [spi_retry_block_trace, spi_exchange_trace, ht]
          simp only [List.append_assoc, List.cons_append]
        · rw [spi_payloads_from_append, ← ht, hpay, if_pos h0, (hacc ⟨h0, hs⟩).2.1,
            List.length_append, spi_payload_length, hrd]
          push_cast
          rfl
        · intro i
          rw [spi_payloads_from_append, ← ht, hpay, if_pos h0, (hacc ⟨h0, hs⟩).1, hrd,
            Int.toNat_ofNat]
          exact memcpy_packet_to_data_getD st.data d0 _ _ hdata i
      · rw [spi_retry_block_success fd sp len st h0, if_neg hs]
        refine Or.inl ⟨_, rfl, ?_⟩
        show some (-0x106 : Int) ≠ some 0
        decide
    · refine Or.inr ⟨sfx ++ (IoEvent.write (spi_frame st) ::
        (if fd.write st.trace (spi_frame st) = 64 then [IoEvent.read] else []) ++
          [IoEvent.nanosleep st.delay.tv_sec st.delay.tv_nsec]), ?_, ?_, ?_⟩
      · rw [spi_retry_block_trace, spi_exchange_trace, ht]
        simp only [List.append_assoc, List.cons_append]
      · rw [spi_payloads_from_append, ← ht, hpay, if_neg h0, (hrej (fun h => h0 h.1)).2,
          List.append_nil, hrd]
      · intro i
        rw [spi_payloads_from_append, ← ht, hpay, if_neg h0, (hrej (fun h => h0 h.1)).1,
          List.append_nil]
        exact hdata i

/-- An execution that arrives at `retry` in a state from which the block returns ends with
that result, after a fixed number of exchanges. -/
theorem spi_reach_finished (fd : Device) (sp : mcp2210_packet) (len : Int) (t0 : Trace)
    (d0 : Buffer) (st : SpiState) (res : SpiResult) (h : SpiReach fd sp len t0 d0 st)
    (hb : spi_retry_block fd sp len st = SpiNext.finished res) :
    ∃ n, ∀ fuel, mcp2210_spi_transfer fd (fuel + n + 1) t0 sp d0 len = some res := by
  obtain ⟨n, hn⟩ := spi_reach_run fd sp len t0 d0 st h
  refine ⟨n, fun fuel => ?_⟩
  have e : fuel + n + 1 = (fuel + 1) + n := by omega
  rw [e, hn (fuel + 1), spi_run_at_retry, hb, spi_run_finished]

/-! ## SPI transfer engine: abort on a failed exchange -/

/-- C21: when an exchange of `mcp2210_spi_transfer` fails with an error other than "transfer
in progress" (`-0xF8`), the function returns that error after the sleep that follows the
exchange, with no further write to the device; `rd` and the memory at `data` are those on
arrival at the exchange, and hold exactly the payloads of the earlier successful responses:
`rd` is their total length, `data[0 .. rd)` their concatenation, the rest of the memory is
as the caller left it. -/
theorem spi_transfer_abort (fd : Device) (sp : mcp2210_packet) (len : Int) (t0 : Trace)
    (d0 : Buffer) (st : SpiState)
    (hreach : SpiReach fd sp len t0 d0 st)
    (hneg : (spi_exchange fd st).ret < 0)
    (hnb : (spi_exchange fd st).ret ≠ -MCP2210_ESPIINPROGRESS) :
    (∃ n, ∀ fuel, mcp2210_spi_transfer fd (fuel + n + 1) t0 sp d0 len =
      some { outcome := SpiOutcome.returned (spi_exchange fd st).ret,
             trace := (spi_exchange fd st).trace ++
               [IoEvent.nanosleep st.delay.tv_sec st.delay.tv_nsec],
             data := st.data, rd := st.rd, wr := st.wr }) ∧
    count_writes ((spi_exchange fd st).trace ++
      [IoEvent.nanosleep st.delay.tv_sec st.delay.tv_nsec]) = count_writes st.trace + 1 ∧
    ∃ sfx, st.trace = t0 ++ sfx ∧ st.rd = (spi_payloads_from fd t0 sfx).length ∧
      ∀ i, st.data i = (spi_payloads_from fd t0 sfx).getD i (d0 i) := by
  refine ⟨spi_reach_finished fd sp len t0 d0 st _ hreach
    (spi_retry_block_error fd sp len st hneg hnb), ?_,
    (spi_payloads_invariant fd sp len t0 d0).1 st hreach⟩
  rw [spi_exchange_trace, count_writes_append, count_writes_append]
  split <;> rfl

set_option maxRecDepth 100000 in
theorem spi_transfer_abort_witness :
    (SpiReach (fail_after_device 1 0xf7) spi_settings_frame 120 [] counting_data
        (spi_second_arrival (fail_after_device 1 0xf7)) ∧
      (spi_exchange (fail_after_device 1 0xf7)
        (spi_second_arrival (fail_after_device 1 0xf7))).ret = -0xf7 ∧
      (spi_second_arrival (fail_after_device 1 0xf7)).rd = 58) ∧
    ((∃ n, ∀ fuel, mcp2210_spi_transfer (fail_after_device 1 0xf7) (fuel + n + 1) []
        spi_settings_frame counting_data 120 =
      some { outcome := SpiOutcome.returned (spi_exchange (fail_after_device 1 0xf7)
               (spi_second_arrival (fail_after_device 1 0xf7))).ret,
             trace := (spi_exchange (fail_after_device 1 0xf7)
               (spi_second_arrival (fail_after_device 1 0xf7))).trace ++
               [IoEvent.nanosleep (spi_second_arrival (fail_after_device 1 0xf7)).delay.tv_sec
                 (spi_second_arrival (fail_after_device 1 0xf7)).delay.tv_nsec],
             data := (spi_second_arrival (fail_after_device 1 0xf7)).data,
             rd := (spi_second_arrival (fail_after_device 1 0xf7)).rd,
             wr := (spi_second_arrival (fail_after_device 1 0xf7)).wr }) ∧
    count_writes ((spi_exchange (fail_after_device 1 0xf7)
        (spi_second_arrival (fail_after_device 1 0xf7))).trace ++
      [IoEvent.nanosleep (spi_second_arrival (fail_after_device 1 0xf7)).delay.tv_sec
        (spi_second_arrival (fail_after_device 1 0xf7)).delay.tv_nsec]) =
      count_writes (spi_second_arrival (fail_after_device 1 0xf7)).trace + 1 ∧
    ∃ sfx, (spi_second_arrival (fail_after_device 1 0xf7)).trace = [] ++ sfx ∧
      (spi_second_arrival (fail_after_device 1 0xf7)).rd =
        (spi_payloads_from (fail_after_device 1 0xf7) [] sfx).length ∧
      ∀ i, (spi_second_arrival (fail_after_device 1 0xf7)).data i =
        (spi_payloads_from (fail_after_device 1 0xf7) [] sfx).getD i (counting_data i)) :=
  have hreach : SpiReach (fail_after_device 1 0xf7) spi_settings_frame 120 [] counting_data
      (spi_second_arrival (fail_after_device 1 0xf7)) :=
    SpiReach.step sample_spi_state _ (SpiReach.enter sample_spi_state rfl) rfl
  ⟨⟨hreach, by decide, by decide⟩,
    spi_transfer_abort (fail_after_device 1 0xf7) spi_settings_frame 120 [] counting_data
      (spi_second_arrival (fail_after_device 1 0xf7)) hreach (by decide) (by decide)⟩

/-! ## SPI transfer engine: the status byte -/

/-- C22: after a successful exchange `mcp2210_spi_transfer` goes on to copy the payload and to
the next loop test only if byte 3 of the response is `MCP2210_SPI_STARTED` (0x20),
`MCP2210_SPI_DATA` (0x30) or `MCP2210_SPI_END` (0x10); for every other value of byte 3 it
returns `-MCP2210_EBADTXSTAT` (`-0x106`), with `rd` and the memory at `data` as they were
before the exchange. -/
theorem spi_status_check (fd : Device) (sp : mcp2210_packet) (len : Int) (t0 : Trace)
    (d0 : Buffer) (st : SpiState)
    (hreach : SpiReach fd sp len t0 d0 st)
    (h0 : (spi_exchange fd st).ret = 0) :
    ((rd (spi_exchange fd st).packet 3 = MCP2210_SPI_STARTED ∨
        rd (spi_exchange fd st).packet 3 = MCP2210_SPI_DATA ∨
        rd (spi_exchange fd st).packet 3 = MCP2210_SPI_END) →
      spi_retry_block fd sp len st =
        spi_loop_head sp len
          ((spi_exchange fd st).trace ++ [IoEvent.nanosleep st.delay.tv_sec st.delay.tv_nsec])
          (memcpy_packet_to_data st.data st.rd.toNat (spi_exchange fd st).packet 4
            (rd (spi_exchange fd st).packet 2))
          (st.rd + rd (spi_exchange fd st).packet 2) (st.wr + st.wr_len)) ∧
    (¬ (rd (spi_exchange fd st).packet 3 = MCP2210_SPI_STARTED ∨
        rd (spi_exchange fd st).packet 3 = MCP2210_SPI_DATA ∨
        rd (spi_exchange fd st).packet 3 = MCP2210_SPI_END) →
      ∃ n, ∀ fuel, mcp2210_spi_transfer fd (fuel + n + 1) t0 sp d0 len =
        some { outcome := SpiOutcome.returned (-MCP2210_EBADTXSTAT),
               trace := (spi_exchange fd st).trace ++
                 [IoEvent.nanosleep st.delay.tv_sec st.delay.tv_nsec],
               data := st.data, rd := st.rd, wr := st.wr + st.wr_len }) ∧
    (MCP2210_SPI_STARTED = 0x20 ∧ MCP2210_SPI_DATA = 0x30 ∧ MCP2210_SPI_END = 0x10 ∧
      -MCP2210_EBADTXSTAT = -0x106) := by
  unfold MCP2210_SPI_STARTED MCP2210_SPI_DATA MCP2210_SPI_END MCP2210_EBADTXSTAT
  refine ⟨fun hs => ?_, fun hs => ?_, rfl, rfl, rfl, rfl⟩
  · exact spi_retry_block_ok fd sp len st h0 (by omega)
  · refine spi_reach_finished fd sp len t0 d0 st _ hreach ?_
    rw [spi_retry_block_success fd sp len st h0, if_neg (by omega)]

set_option maxRecDepth 100000 in
theorem spi_status_check_witness :
    (SpiReach (fixed_device 64 64 (packet_of_list [0x42, 0, 58, 0x40])) spi_settings_frame 120
        [] counting_data sample_spi_state ∧
      (spi_exchange (fixed_device 64 64 (packet_of_list [0x42, 0, 58, 0x40]))
        sample_spi_state).ret = 0 ∧
      rd (spi_exchange (fixed_device 64 64 (packet_of_list [0x42, 0, 58, 0x40]))
        sample_spi_state).packet 3 = 0x40) ∧
    ∃ n, ∀ fuel, mcp2210_spi_transfer (fixed_device 64 64 (packet_of_list [0x42, 0, 58, 0x40]))
        (fuel + n + 1) [] spi_settings_frame counting_data 120 =
      some { outcome := SpiOutcome.returned (-MCP2210_EBADTXSTAT),
             trace := (spi_exchange (fixed_device 64 64 (packet_of_list [0x42, 0, 58, 0x40]))
                 sample_spi_state).trace ++
               [IoEvent.nanosleep sample_spi_state.delay.tv_sec
                 sample_spi_state.delay.tv_nsec],
             data := sample_spi_state.data, rd := sample_spi_state.rd,
             wr := sample_spi_state.wr + sample_spi_state.wr_len } :=
  ⟨⟨SpiReach.enter sample_spi_state rfl, by decide, by decide⟩,
    (spi_status_check (fixed_device 64 64 (packet_of_list [0x42, 0, 58, 0x40]))
      spi_settings_frame 120 [] counting_data sample_spi_state
      (SpiReach.enter sample_spi_state rfl) (by decide)).2.1 (by decide)⟩

/-! ## SPI transfer engine: received and written counts -/

/-- The device `loopback_device` reports in byte 2 of a successful response the length of the
chunk it was sent. -/
theorem loopback_reports_chunk (sp : mcp2210_packet) (len : Int) (t0 : Trace) (d0 : Buffer)
    (st : SpiState) (h : SpiReach loopback_device sp len t0 d0 st)
    (h0 : (spi_exchange loopback_device st).ret = 0) :
    (rd (spi_exchange loopback_device st).packet 2 : Int) = st.wr_len := by
  obtain ⟨c0, c1, c2⟩ := spi_reach_chunk loopback_device sp len t0 d0 st h
  have hl : 0 ≤ st.wr_len ∧ st.wr_len ≤ 58 := by
    rw [c2]
    split <;> omega
  obtain ⟨_, hb, _⟩ := spi_frame_bytes st hl.1 hl.2
  obtain ⟨_, _, _, ha, _⟩ := loopback_device_answers st.trace (spi_frame st)
  rw [(spi_exchange_ret_zero loopback_device st).2 h0, ha, hb]

/-- C23, counterexample: with a device that reports 60 received bytes for a chunk of 58, the
transfer of 120 bytes arrives at its second iteration with `rd = 60` and `wr = 58`. -/
theorem spi_received_exceeds_written :
    SpiReach over_reporting_device spi_settings_frame 120 [] counting_data
      (spi_second_arrival over_reporting_device) ∧
    (spi_second_arrival over_reporting_device).rd = 60 ∧
    (spi_second_arrival over_reporting_device).wr = 58 ∧
    ¬ (spi_second_arrival over_reporting_device).rd ≤
      (spi_second_arrival over_reporting_device).wr :=
  ⟨SpiReach.step sample_spi_state _ (SpiReach.enter sample_spi_state rfl) rfl,
    by decide, by decide, by decide⟩

/-- C23, amended: when every response that `mcp2210_spi_transfer` accepts (successful
exchange, valid status) reports in byte 2 at most the length of the chunk sent in that
exchange, `rd <= wr` holds at every arrival at the label `retry`, in particular at the start
of the block of every loop iteration. -/
theorem spi_received_le_written (fd : Device) (sp : mcp2210_packet) (len : Int) (t0 : Trace)
    (d0 : Buffer)
    (hdev : ∀ st, SpiReach fd sp len t0 d0 st → (spi_exchange fd st).ret = 0 →
      (rd (spi_exchange fd st).packet 3 = 0x20 ∨ rd (spi_exchange fd st).packet 3 = 0x10 ∨
        rd (spi_exchange fd st).packet 3 = 0x30) →
      (rd (spi_exchange fd st).packet 2 : Int) ≤ st.wr_len)
    (st : SpiState) (h : SpiReach fd sp len t0 d0 st) : st.rd ≤ st.wr := by
  induction h with
  | enter st h =>
    obtain ⟨_, _, hr, hw, _⟩ := spi_loop_head_at_retry sp len t0 d0 0 0 st h
    rw [hr, hw]
  | step st st2 hreach h ih =>
    rcases spi_retry_block_at_retry fd sp len st st2 h with ⟨_, e⟩ | ⟨h0, e⟩
    · rw [e]
      exact ih
    · by_cases hs : rd (spi_exchange fd st).packet 3 = 0x20 ∨
          rd (spi_exchange fd st).packet 3 = 0x10 ∨ rd (spi_exchange fd st).packet 3 = 0x30
      · obtain ⟨_, _, hr, hw, _⟩ := spi_loop_head_at_retry _ _ _ _ _ _ _ e
        have hc := hdev st hreach h0 hs
        rw [hr, hw]
        omega
      · rw [spi_retry_block_success fd sp len st h0, if_neg hs] at h
        exact SpiNext.noConfusion h

set_option maxRecDepth 100000 in
theorem spi_received_le_written_witness :
    SpiReach loopback_device spi_settings_frame 120 [] counting_data
      (spi_second_arrival loopback_device) ∧
    (spi_second_arrival loopback_device).rd = 58 ∧
    (spi_second_arrival loopback_device).rd ≤ (spi_second_arrival loopback_device).wr :=
  have hreach : SpiReach loopback_device spi_settings_frame 120 [] counting_data
      (spi_second_arrival loopback_device) :=
    SpiReach.step sample_spi_state _ (SpiReach.enter sample_spi_state rfl) rfl
  ⟨hreach, by decide,
    spi_received_le_written loopback_device spi_settings_frame 120 [] counting_data
      (fun st h h0 _ =>
        le_of_eq (loopback_reports_chunk spi_settings_frame 120 [] counting_data st h h0))
      (spi_second_arrival loopback_device) hreach⟩

/-! ## SPI transfer engine: the count received when the transfer returns 0 -/

/-- The loop test that ends an execution with the value 0. -/
theorem spi_loop_head_finished_zero (sp : mcp2210_packet) (len : Int) (t : Trace)
    (data : Buffer) (r w : Int) (res : SpiResult)
    (h : spi_loop_head sp len t data r w = SpiNext.finished res)
    (hret : spi_returned res = some 0) : ¬ r < len ∧ res.rd = r := by
  unfold spi_loop_head at h
  by_cases hlt : r < len
  · rw [if_pos hlt] at h
    dsimp only at h
    split at h
    · injection h with h
      subst h
      exact Option.noConfusion hret
    · exact SpiNext.noConfusion h
  · rw [if_neg hlt] at h
    injection h with h
    subst h
    exact ⟨hlt, rfl⟩

/-- C24, counterexample: asked for 1 byte from a device that reports 60 received bytes,
`mcp2210_spi_transfer` returns 0 with `rd = 60`. -/
theorem spi_transfer_receives_more_than_asked :
    (mcp2210_spi_transfer over_reporting_device 1 [] spi_settings_frame counting_data 1).map
      (fun r => (spi_returned r, r.rd)) = some (some 0, 60) := by
  decide

/-- C24, amended: when `mcp2210_spi_transfer` returns 0, at least `len` bytes have been
received (`len <= rd`); `rd` is exactly `len` when moreover `len` is not negative and no
accepted response reports more bytes than were still to be received. -/
theorem spi_transfer_zero_received (fd : Device) (sp : mcp2210_packet) (len : Int)
    (t0 : Trace) (d0 : Buffer) (fuel : Nat) (res : SpiResult)
    (hrun : mcp2210_spi_transfer fd fuel t0 sp d0 len = some res)
    (hret : spi_returned res = some 0) :
    len ≤ res.rd ∧
    (0 ≤ len →
      (∀ st, SpiReach fd sp len t0 d0 st → (spi_exchange fd st).ret = 0 →
        (rd (spi_exchange fd st).packet 3 = 0x20 ∨ rd (spi_exchange fd st).packet 3 = 0x10 ∨
          rd (spi_exchange fd st).packet 3 = 0x30) →
        st.rd + rd (spi_exchange fd st).packet 2 ≤ len) →
      res.rd = len) := by
  rcases spi_run_last fd sp len t0 d0 fuel (spi_loop_head sp len t0 d0 0 0) res
    (fun st h => SpiReach.enter st h) hrun with h | ⟨st, hreach, h⟩
  · obtain ⟨hn, hr⟩ := spi_loop_head_finished_zero sp len t0 d0 0 0 res h hret
    exact ⟨by omega, fun _ _ => by omega⟩
  · have hle := spi_exchange_ret_nonpos fd st
    by_cases hb : (spi_exchange fd st).ret = -MCP2210_ESPIINPROGRESS
    · rw [spi_retry_block_busy fd sp len st hb] at h
      exact SpiNext.noConfusion h
    · by_cases hneg : (spi_exchange fd st).ret < 0
      · rw [spi_retry_block_error fd sp len st hneg hb] at h
        injection h with h
        subst h
        have e : (spi_exchange fd st).ret = 0 := Option.some.inj hret
        omega
      · have h0 : (spi_exchange fd st).ret = 0 := by omega
        by_cases hs : rd (spi_exchange fd st).packet 3 = 0x20 ∨
            rd (spi_exchange fd st).packet 3 = 0x10 ∨ rd (spi_exchange fd st).packet 3 = 0x30
        · rw [spi_retry_block_ok fd sp len st h0 hs] at h
          obtain ⟨hn, hr⟩ := spi_loop_head_finished_zero _ _ _ _ _ _ res h hret
          refine ⟨by omega, fun _ hdev => ?_⟩
          have := hdev st hreach h0 hs
          omega
        · rw [spi_retry_block_success fd sp len st h0, if_neg hs] at h
          injection h with h
          subst h
          have e : (-0x106 : Int) = 0 := Option.some.inj hret
          omega

set_option maxRecDepth 100000 in
theorem spi_transfer_zero_received_witness :
    ∃ res, mcp2210_spi_transfer loopback_device 3 [] spi_settings_frame counting_data 120 =
        some res ∧
      spi_returned res = some 0 ∧ res.rd = 120 ∧ (120 : Int) ≤ res.rd :=
  ⟨(mcp2210_spi_transfer loopback_device 3 [] spi_settings_frame counting_data 120).get
      (by decide),
    (Option.some_get _).symm, by decide, by decide,
    (spi_transfer_zero_received loopback_device spi_settings_frame 120 [] counting_data 3
      _ (Option.some_get _).symm (by decide)).1⟩

/-! ## SPI transfer engine: the destination buffer -/

/-- C25: after a successful exchange with a valid status whose response reports `c` bytes in
byte 2, `mcp2210_spi_transfer` goes to the next loop test with the response bytes
`4 .. 4+c-1` copied to `data[rd .. rd+c-1]` (the rest of the memory unchanged), `rd` advanced
by `c` and `wr` advanced by the chunk length sent; and when the transfer returns 0, `rd` is
the total length of the payloads of the successful responses and the memory at `data` holds
these payloads in order from offset 0, the bytes behind them as the caller left them.
Response bytes at offsets 64 and above, which the copy reads when `c` exceeds 60, lie outside
the packet and stand as 0 (`rd_byte`). -/
theorem spi_transfer_payloads (fd : Device) (sp : mcp2210_packet) (len : Int) (t0 : Trace)
    (d0 : Buffer) :
    (∀ st, SpiReach fd sp len t0 d0 st → (spi_exchange fd st).ret = 0 →
      (rd (spi_exchange fd st).packet 3 = 0x20 ∨ rd (spi_exchange fd st).packet 3 = 0x10 ∨
        rd (spi_exchange fd st).packet 3 = 0x30) →
      0 ≤ st.rd ∧
      spi_retry_block fd sp len st =
        spi_loop_head sp len
          ((spi_exchange fd st).trace ++ [IoEvent.nanosleep st.delay.tv_sec st.delay.tv_nsec])
          (memcpy_packet_to_data st.data st.rd.toNat (spi_exchange fd st).packet 4
            (rd (spi_exchange fd st).packet 2))
          (st.rd + rd (spi_exchange fd st).packet 2) (st.wr + st.wr_len) ∧
      (∀ i, i < rd (spi_exchange fd st).packet 2 →
        memcpy_packet_to_data st.data st.rd.toNat (spi_exchange fd st).packet 4
          (rd (spi_exchange fd st).packet 2) (st.rd.toNat + i) =
            rd_byte (spi_exchange fd st).packet (4 + i)) ∧
      (∀ a, ¬ (st.rd.toNat ≤ a ∧ a < st.rd.toNat + rd (spi_exchange fd st).packet 2) →
        memcpy_packet_to_data st.data st.rd.toNat (spi_exchange fd st).packet 4
          (rd (spi_exchange fd st).packet 2) a = st.data a)) ∧
    (∀ fuel res, mcp2210_spi_transfer fd fuel t0 sp d0 len = some res →
      spi_returned res = some 0 →
      ∃ sfx, res.trace = t0 ++ sfx ∧ res.rd = (spi_payloads_from fd t0 sfx).length ∧
        ∀ i, res.data i = (spi_payloads_from fd t0 sfx).getD i (d0 i)) := by
  obtain ⟨ha, hf⟩ := spi_payloads_invariant fd sp len t0 d0
  refine ⟨fun st hreach h0 hs => ⟨?_, spi_retry_block_ok fd sp len st h0 hs, ?_, ?_⟩, hf⟩
  · obtain ⟨sfx, _, hrd, _⟩ := ha st hreach
    rw [hrd]
    exact Int.ofNat_nonneg _
  · intro i hi
    unfold memcpy_packet_to_data
    rw [if_pos ⟨Nat.le_add_right _ _, by omega⟩, Nat.add_sub_cancel_left]
  · intro a hna
    unfold memcpy_packet_to_data
    rw [if_neg hna]

set_option maxRecDepth 100000 in
theorem spi_transfer_payloads_witness :
    (SpiReach loopback_device spi_settings_frame 120 [] counting_data sample_spi_state ∧
      (spi_exchange loopback_device sample_spi_state).ret = 0 ∧
      rd (spi_exchange loopback_device sample_spi_state).packet 3 = 0x30 ∧
      rd (spi_exchange loopback_device sample_spi_state).packet 2 = 58) ∧
    spi_retry_block loopback_device spi_settings_frame 120 sample_spi_state =
      spi_loop_head spi_settings_frame 120
        ((spi_exchange loopback_device sample_spi_state).trace ++
          [IoEvent.nanosleep sample_spi_state.delay.tv_sec sample_spi_state.delay.tv_nsec])
        (memcpy_packet_to_data sample_spi_state.data sample_spi_state.rd.toNat
          (spi_exchange loopback_device sample_spi_state).packet 4
          (rd (spi_exchange loopback_device sample_spi_state).packet 2))
        (sample_spi_state.rd + rd (spi_exchange loopback_device sample_spi_state).packet 2)
        (sample_spi_state.wr + sample_spi_state.wr_len) ∧
    ∃ res, mcp2210_spi_transfer loopback_device 3 [] spi_settings_frame counting_data 120 =
        some res ∧
      spi_returned res = some 0 ∧
      ∃ sfx, res.trace = [] ++ sfx ∧
        res.rd = (spi_payloads_from loopback_device [] sfx).length ∧
        ∀ i, res.data i = (spi_payloads_from loopback_device [] sfx).getD i (counting_data i) :=
  ⟨⟨SpiReach.enter sample_spi_state rfl, by decide, by decide, by decide⟩,
    ((spi_transfer_payloads loopback_device spi_settings_frame 120 [] counting_data).1
      sample_spi_state (SpiReach.enter sample_spi_state rfl) (by decide)
      (Or.inr (Or.inr (by decide)))).2.1,
    ⟨(mcp2210_spi_transfer loopback_device 3 [] spi_settings_frame counting_data 120).get
        (by decide),
      (Option.some_get _).symm, by decide,
      (spi_transfer_payloads loopback_device spi_settings_frame 120 [] counting_data).2 3 _
        (Option.some_get _).symm (by decide)⟩⟩

/-! ## Command-line tool: validation of a delay -/

/-- The values `get_delay` accepts: the multiples of 100 from 0 to 0xffff, that is up to
65500, for which it returns the value divided by 100. -/
theorem get_delay_accepts (d v : Int) :
    get_delay d = some v ↔ (d % 100 = 0 ∧ 0 ≤ d ∧ d ≤ 0xffff ∧ v = d / 100) := by
  unfold get_delay
  by_cases hneg : d < 0
  · have h2 : d < 0 ∨ d > 0xffff := Or.inl hneg
    constructor
    · intro h
      rw [if_pos h2, ite_self] at h
      exact Option.noConfusion h
    · rintro ⟨_, h, _⟩
      omega
  · have hd : 0 ≤ d := by omega
    rw [Int.tmod_eq_emod hd (by decide), Int.tdiv_eq_ediv hd (by decide)]
    constructor
    · intro h
      split at h
      · exact Option.noConfusion h
      · next hm =>
        split at h
        · exact Option.noConfusion h
        · next hr =>
          have e := Option.some.inj h
          exact ⟨not_not.mp hm, hd, by omega, e.symm⟩
    · rintro ⟨hm, _, hr, hv⟩
      rw [if_neg (not_not.mpr hm), if_neg (by omega), hv]

/-- C26: `get_delay` compares the microsecond value itself, not the scaled value, with
0xffff: every multiple of 100 above 0xffff is rejected, although its scaled value `d / 100`
lies in `0 .. 0xFFFF` as long as `d` is at most 6553500. -/
theorem get_delay_rejects_scaled_range (d : Int) (hm : d % 100 = 0) (hlo : 0xffff < d)
    (hhi : d ≤ 6553500) :
    get_delay d = none ∧ 0 ≤ d / 100 ∧ d / 100 ≤ 0xFFFF := by
  refine ⟨?_, by omega, by omega⟩
  cases h : get_delay d with
  | none => rfl
  | some v =>
    have := (get_delay_accepts d v).mp h
    omega

theorem get_delay_rejects_scaled_range_witness :
    ((100000 : Int) % 100 = 0 ∧ (0xffff : Int) < 100000 ∧ (100000 : Int) ≤ 6553500) ∧
    get_delay 100000 = none ∧ (0 : Int) ≤ 100000 / 100 ∧ (100000 : Int) / 100 ≤ 0xFFFF :=
  ⟨⟨by decide, by decide, by decide⟩,
    get_delay_rejects_scaled_range 100000 (by decide) (by decide) (by decide)⟩

/-! ## Packet transport: the classes of failure -/

/-- C27, counterexample: a response whose error code (byte 1) is 1 makes `mcp2210_command`
return -1, the value it also returns when `write` fails. -/
theorem command_device_error_like_io_failure :
    (mcp2210_command (fixed_device 64 64 (packet_of_list [0x10, 0x01])) [] zero_packet 0x10).ret
      = -1 ∧
    (mcp2210_command (fixed_device (-1) 64 zero_packet) [] zero_packet 0x10).ret = -1 := by
  decide

/-- C27, amended: `mcp2210_command` returns -1, `-0x101` or `-0x102` for an I/O failure
(call A), minus the error code of the response, between -255 and -1, for a device-reported
error (call B) and `-0x103` for a command-echo mismatch (call C). The value for an echo
mismatch differs from the other two, and the values for an I/O failure and for a device
error coincide only when the device reports the error code 1 and `write` or `read` returned
-1. -/
theorem command_failure_classes (fdA fdB fdC : Device) (tA tB tC : Trace)
    (pA pB pC : mcp2210_packet) (cA cB cC : Nat)
    (hA : fdA.write tA (wr pA 0 cA) ≠ 64 ∨
      (fdA.read (tA ++ [IoEvent.write (wr pA 0 cA)])).1 ≠ 64)
    (hB : fdB.write tB (wr pB 0 cB) = 64 ∧
      (fdB.read (tB ++ [IoEvent.write (wr pB 0 cB)])).1 = 64 ∧
      rd (fdB.read (tB ++ [IoEvent.write (wr pB 0 cB)])).2 1 ≠ 0)
    (hC : fdC.write tC (wr pC 0 cC) = 64 ∧
      (fdC.read (tC ++ [IoEvent.write (wr pC 0 cC)])).1 = 64 ∧
      rd (fdC.read (tC ++ [IoEvent.write (wr pC 0 cC)])).2 1 = 0 ∧
      rd (fdC.read (tC ++ [IoEvent.write (wr pC 0 cC)])).2 0 ≠ cC) :
    ((mcp2210_command fdA tA pA cA).ret = -1 ∨
      (mcp2210_command fdA tA pA cA).ret = -MCP2210_EWRSHORT ∨
      (mcp2210_command fdA tA pA cA).ret = -MCP2210_ERDSHORT) ∧
    ((mcp2210_command fdB tB pB cB).ret =
        -(rd (fdB.read (tB ++ [IoEvent.write (wr pB 0 cB)])).2 1 : Int) ∧
      -255 ≤ (mcp2210_command fdB tB pB cB).ret ∧ (mcp2210_command fdB tB pB cB).ret ≤ -1) ∧
    (mcp2210_command fdC tC pC cC).ret = -MCP2210_EBADCMD ∧
    (mcp2210_command fdA tA pA cA).ret ≠ (mcp2210_command fdC tC pC cC).ret ∧
    (mcp2210_command fdB tB pB cB).ret ≠ (mcp2210_command fdC tC pC cC).ret ∧
    (rd (fdB.read (tB ++ [IoEvent.write (wr pB 0 cB)])).2 1 ≠ 1 →
      (mcp2210_command fdA tA pA cA).ret ≠ (mcp2210_command fdB tB pB cB).ret) ∧
    ((mcp2210_command fdA tA pA cA).ret = (mcp2210_command fdB tB pB cB).ret →
      (mcp2210_command fdA tA pA cA).ret = -1 ∧
      rd (fdB.read (tB ++ [IoEvent.write (wr pB 0 cB)])).2 1 = 1) := by
  have hb1 := rd_lt (fdB.read (tB ++ [IoEvent.write (wr pB 0 cB)])).2 1
  have eB : (mcp2210_command fdB tB pB cB).ret =
      -(rd (fdB.read (tB ++ [IoEvent.write (wr pB 0 cB)])).2 1 : Int) := by
    rw [command_of_complete fdB tB pB cB hB.1 hB.2.1]
    dsimp only
    rw [if_pos hB.2.2]
  have eC : (mcp2210_command fdC tC pC cC).ret = -MCP2210_EBADCMD := by
    rw [command_of_complete fdC tC pC cC hC.1 hC.2.1]
    dsimp only
    rw [if_neg (not_not.mpr hC.2.2.1), if_pos hC.2.2.2]
  have eA : (mcp2210_command fdA tA pA cA).ret = -1 ∨
      (mcp2210_command fdA tA pA cA).ret = -MCP2210_EWRSHORT ∨
      (mcp2210_command fdA tA pA cA).ret = -MCP2210_ERDSHORT := by
    by_cases hw : fdA.write tA (wr pA 0 cA) = 64
    · have hr : (fdA.read (tA ++ [IoEvent.write (wr pA 0 cA)])).1 ≠ 64 := by
        rcases hA with h | h
        · exact absurd hw h
        · exact h
      rw [command_of_read_ne fdA tA pA cA hw hr]
      dsimp only
      split
      · exact Or.inl rfl
      · exact Or.inr (Or.inr rfl)
    · rw [command_of_write_ne fdA tA pA cA hw]
      dsimp only
      split
      · exact Or.inl rfl
      · exact Or.inr (Or.inl rfl)
  rw [eB, eC]
  unfold MCP2210_EWRSHORT MCP2210_ERDSHORT at eA
  unfold MCP2210_EWRSHORT MCP2210_ERDSHORT MCP2210_EBADCMD
  have hb0 := hB.2.2
  refine ⟨eA, ⟨rfl, by omega, by omega⟩, rfl, by omega, by omega, fun h => by omega,
    fun h => by omega⟩

theorem command_failure_classes_witness :
    ((fixed_device (-1) 64 zero_packet).write [] (wr zero_packet 0 0x10) ≠ 64 ∧
      rd ((fixed_device 64 64 (packet_of_list [0x10, 0xf7])).read
        ([] ++ [IoEvent.write (wr zero_packet 0 0x10)])).2 1 = 0xf7 ∧
      rd ((fixed_device 64 64 (packet_of_list [0x11])).read
        ([] ++ [IoEvent.write (wr zero_packet 0 0x10)])).2 0 ≠ 0x10) ∧
    (mcp2210_command (fixed_device (-1) 64 zero_packet) [] zero_packet 0x10).ret ≠
      (mcp2210_command (fixed_device 64 64 (packet_of_list [0x10, 0xf7])) [] zero_packet
        0x10).ret ∧
    (mcp2210_command (fixed_device (-1) 64 zero_packet) [] zero_packet 0x10).ret ≠
      (mcp2210_command (fixed_device 64 64 (packet_of_list [0x11])) [] zero_packet 0x10).ret ∧
    (mcp2210_command (fixed_device 64 64 (packet_of_list [0x10, 0xf7])) [] zero_packet
        0x10).ret ≠
      (mcp2210_command (fixed_device 64 64 (packet_of_list [0x11])) [] zero_packet 0x10).ret :=
  have h := command_failure_classes (fixed_device (-1) 64 zero_packet)
    (fixed_device 64 64 (packet_of_list [0x10, 0xf7]))
    (fixed_device 64 64 (packet_of_list [0x11])) [] [] [] zero_packet zero_packet zero_packet
    0x10 0x10 0x10 (Or.inl (by decide)) ⟨by decide, by decide, by decide⟩
    ⟨by decide, by decide, by decide, by decide⟩
  ⟨⟨by decide, by decide, by decide⟩, h.2.2.2.2.2.1 (by decide), h.2.2.2.1, h.2.2.2.2.1⟩

/-! ## EEPROM access -/

/-- Success of `mcp2210_command` in terms of the device: complete write and read, no error
code and the command code echoed; the packet buffer then holds the response. -/
theorem command_ret_zero (fd : Device) (t : Trace) (p : mcp2210_packet) (command : Nat) :
    ((mcp2210_command fd t p command).ret = 0 ↔
      fd.write t (wr p 0 command) = 64 ∧
      (fd.read (t ++ [IoEvent.write (wr p 0 command)])).1 = 64 ∧
      rd (fd.read (t ++ [IoEvent.write (wr p 0 command)])).2 1 = 0 ∧
      rd (fd.read (t ++ [IoEvent.write (wr p 0 command)])).2 0 = command) ∧
    ((mcp2210_command fd t p command).ret = 0 →
      (mcp2210_command fd t p command).packet =
        (fd.read (t ++ [IoEvent.write (wr p 0 command)])).2) := by
  have h1 := rd_lt (fd.read (t ++ [IoEvent.write (wr p 0 command)])).2 1
  by_cases hw : fd.write t (wr p 0 command) = 64
  · by_cases hr : (fd.read (t ++ [IoEvent.write (wr p 0 command)])).1 = 64
    · rw [command_of_complete fd t p command hw hr]
      dsimp only
      unfold MCP2210_EBADCMD
      refine ⟨⟨?_, ?_⟩, fun _ => rfl⟩
      · intro h
        split at h
        · omega
        · next hb =>
          split at h
          · omega
          · next hc => exact ⟨hw, hr, not_not.mp hb, not_not.mp hc⟩
      · rintro ⟨_, _, hb, hc⟩
        rw [if_neg (not_not.mpr hb), if_neg (not_not.mpr hc)]
    · rw [command_of_read_ne fd t p command hw hr]
      dsimp only
      unfold MCP2210_ERDSHORT
      have hne : (if (fd.read (t ++ [IoEvent.write (wr p 0 command)])).1 = -1
          then (-1 : Int) else -258) ≠ 0 := by
        split <;> omega
      exact ⟨⟨fun h => absurd h hne, fun h => absurd h.2.1 hr⟩, fun h => absurd h hne⟩
  · rw [command_of_write_ne fd t p command hw]
    dsimp only
    unfold MCP2210_EWRSHORT
    have hne : (if fd.write t (wr p 0 command) = -1 then (-1 : Int) else -257) ≠ 0 := by
      split <;> omega
    exact ⟨⟨fun h => absurd h hne, fun h => absurd h.1 hw⟩, fun h => absurd h hne⟩

/-- C28: `mcp2210_read_eeprom (fd, packet, addr)` hands to `write` the frame that is zero
except for 0x50 in byte 0 and `addr` (its low 8 bits) in byte 1. It returns a non-negative
value if and only if the exchange succeeded (complete write and read, error code 0, command
code 0x50 echoed) and byte 2 of the response equals `addr`; the value is then byte 3 of the
response, at most 255. When the exchange succeeded and byte 2 differs from `addr` it returns
`-MCP2210_EBADADDR` (`-0x105`); when the exchange failed it returns the error of
`mcp2210_command`. -/
theorem read_eeprom_contract (fd : Device) (t : Trace) (p : mcp2210_packet) (addr : Nat) :
    ((mcp2210_read_eeprom fd t p addr).trace =
        t ++ IoEvent.write (wr (wr zero_packet 1 addr) 0 0x50) ::
          (if fd.write t (wr (wr zero_packet 1 addr) 0 0x50) = 64 then [IoEvent.read]
           else []) ∧
      rd (wr (wr zero_packet 1 addr) 0 0x50) 0 = 0x50 ∧
      rd (wr (wr zero_packet 1 addr) 0 0x50) 1 = addr % 256 ∧
      ∀ i, 2 ≤ i → rd (wr (wr zero_packet 1 addr) 0 0x50) i = 0) ∧
    (0 ≤ (mcp2210_read_eeprom fd t p addr).ret ↔
      (fd.write t (wr (wr zero_packet 1 addr) 0 0x50) = 64 ∧
        (fd.read (t ++ [IoEvent.write (wr (wr zero_packet 1 addr) 0 0x50)])).1 = 64 ∧
        rd (fd.read (t ++ [IoEvent.write (wr (wr zero_packet 1 addr) 0 0x50)])).2 1 = 0 ∧
        rd (fd.read (t ++ [IoEvent.write (wr (wr zero_packet 1 addr) 0 0x50)])).2 0 = 0x50) ∧
      rd (fd.read (t ++ [IoEvent.write (wr (wr zero_packet 1 addr) 0 0x50)])).2 2 = addr) ∧
    (0 ≤ (mcp2210_read_eeprom fd t p addr).ret →
      (mcp2210_read_eeprom fd t p addr).ret =
        rd (fd.read (t ++ [IoEvent.write (wr (wr zero_packet 1 addr) 0 0x50)])).2 3 ∧
      (mcp2210_read_eeprom fd t p addr).ret ≤ 255) ∧
    ((mcp2210_command fd t (wr zero_packet 1 addr) 0x50).ret = 0 →
      rd (fd.read (t ++ [IoEvent.write (wr (wr zero_packet 1 addr) 0 0x50)])).2 2 ≠ addr →
      (mcp2210_read_eeprom fd t p addr).ret = -0x105) ∧
    ((mcp2210_command fd t (wr zero_packet 1 addr) 0x50).ret < 0 →
      (mcp2210_read_eeprom fd t p addr).ret =
        (mcp2210_command fd t (wr zero_packet 1 addr) 0x50).ret) := by
  obtain ⟨hiff, hpk⟩ := command_ret_zero fd t (wr zero_packet 1 addr) 0x50
  have hle := command_ret_nonpos fd t (wr zero_packet 1 addr) 0x50
  have h3 := rd_lt (fd.read (t ++ [IoEvent.write (wr (wr zero_packet 1 addr) 0 0x50)])).2 3
  have hret : (mcp2210_read_eeprom fd t p addr).ret =
      if (mcp2210_command fd t (wr zero_packet 1 addr) 0x50).ret < 0 then
        (mcp2210_command fd t (wr zero_packet 1 addr) 0x50).ret
      else if rd (mcp2210_command fd t (wr zero_packet 1 addr) 0x50).packet 2 ≠ addr then -0x105
      else rd (mcp2210_command fd t (wr zero_packet 1 addr) 0x50).packet 3 := by
    unfold mcp2210_read_eeprom memset_zero MCP2210_EEPROM_READ MCP2210_EBADADDR
    dsimp only
    split
    · rfl
    · split <;> rfl
  have htr : (mcp2210_read_eeprom fd t p addr).trace =
      (mcp2210_command fd t (wr zero_packet 1 addr) 0x50).trace := by
    unfold mcp2210_read_eeprom memset_zero MCP2210_EEPROM_READ
    dsimp only
    split
    · rfl
    · split <;> rfl
  refine ⟨⟨?_, ?_, ?_, ?_⟩, ?_, ?_, ?_, ?_⟩
  · rw [htr, command_trace]
  · rw [rd_wr_same _ _ _ (by decide)]
  · rw [rd_wr_ne _ _ _ _ (by decide), rd_wr_same _ _ _ (by decide)]
  · intro i hi
    rw [rd_wr_ne _ _ _ _ (by omega), rd_wr_ne _ _ _ _ (by omega)]
    unfold rd zero_packet
    split <;> rfl
  · rw [hret]
    constructor
    · intro h
      by_cases hn : (mcp2210_command fd t (wr zero_packet 1 addr) 0x50).ret < 0
      · rw [if_pos hn] at h
        omega
      · have h0 : (mcp2210_command fd t (wr zero_packet 1 addr) 0x50).ret = 0 := by omega
        rw [if_neg hn, hpk h0] at h
        refine ⟨hiff.mp h0, ?_⟩
        by_contra hne
        rw [if_pos hne] at h
        omega
    · rintro ⟨hdev, ha⟩
      have h0 := hiff.mpr hdev
      rw [if_neg (by omega), hpk h0, if_neg (not_not.mpr ha)]
      omega
  · intro h
    rw [hret] at h ⊢
    by_cases hn : (mcp2210_command fd t (wr zero_packet 1 addr) 0x50).ret < 0
    · rw [if_pos hn] at h
      omega
    · have h0 : (mcp2210_command fd t (wr zero_packet 1 addr) 0x50).ret = 0 := by omega
      rw [if_neg hn, hpk h0] at h ⊢
      by_cases hne : rd (fd.read (t ++ [IoEvent.write (wr (wr zero_packet 1 addr) 0 0x50)])).2 2
          ≠ addr
      · rw [if_pos hne] at h
        omega
      · rw [if_neg hne]
        exact ⟨rfl, by omega⟩
  · intro h0 hne
    rw [hret, if_neg (by omega), hpk h0, if_pos hne]
  · intro hn
    rw [hret, if_pos hn]

theorem read_eeprom_contract_witness :
    0 ≤ (mcp2210_read_eeprom (fixed_device 64 64 (packet_of_list [0x50, 0, 5, 0xab])) []
      zero_packet 5).ret ∧
    (mcp2210_read_eeprom (fixed_device 64 64 (packet_of_list [0x50, 0, 5, 0xab])) []
      zero_packet 5).ret = 0xab ∧
    ((mcp2210_read_eeprom (fixed_device 64 64 (packet_of_list [0x50, 0, 5, 0xab])) []
        zero_packet 5).ret =
      rd ((fixed_device 64 64 (packet_of_list [0x50, 0, 5, 0xab])).read
        ([] ++ [IoEvent.write (wr (wr zero_packet 1 5) 0 0x50)])).2 3 ∧
      (mcp2210_read_eeprom (fixed_device 64 64 (packet_of_list [0x50, 0, 5, 0xab])) []
        zero_packet 5).ret ≤ 255) :=
  ⟨by decide, by decide,
    (read_eeprom_contract (fixed_device 64 64 (packet_of_list [0x50, 0, 5, 0xab])) []
      zero_packet 5).2.2.1 (by decide)⟩

/-! ## SPI transfer engine: the width of the length parameter -/

/-- C29: the length parameter of `mcp2210_spi_transfer` is a `short`. A length `N` from 32768
to 65535 (`MCP2210_SPI_TX_MAX`), which the command-line tool passes from its
`unsigned short spi_tx_len`, arrives as the negative value `N - 65536`: the loop test
`rd < len` fails at once and the function returns 0 without any exchange and with nothing
received. -/
theorem spi_transfer_short_len (fd : Device) (sp : mcp2210_packet) (t : Trace) (data : Buffer)
    (N : Int) (fuel : Nat) (hlo : 32768 ≤ N) (hhi : N ≤ MCP2210_SPI_TX_MAX) :
    to_short N = N - 65536 ∧
    mcp2210_spi_transfer fd fuel t sp data (to_short N) =
      some { outcome := SpiOutcome.returned 0, trace := t, data := data, rd := 0, wr := 0 } := by
  unfold MCP2210_SPI_TX_MAX at hhi
  have e : to_short N = N - 65536 := by
    unfold to_short
    omega
  refine ⟨e, ?_⟩
  unfold mcp2210_spi_transfer
  rw [spi_loop_head_exit sp (to_short N) t data 0 0 (by omega), spi_run_finished]

set_option maxRecDepth 100000 in
theorem spi_transfer_short_len_witness :
    ((32768 : Int) ≤ 65535 ∧ (65535 : Int) ≤ MCP2210_SPI_TX_MAX) ∧
    to_short 65535 = -1 ∧
    (mcp2210_spi_transfer loopback_device 1130 [] spi_settings_frame counting_data
        (to_short 65535)).map (fun r => (spi_returned r, r.rd, count_writes r.trace)) =
      some (some 0, 0, 0) :=
  have h := spi_transfer_short_len loopback_device spi_settings_frame [] counting_data 65535
    1130 (by decide) (by decide)
  ⟨⟨by decide, by decide⟩, h.1, by rw [h.2]; rfl⟩

/-! ## SPI transfer engine: the duration of the sleep -/

/-- The delay computed for a chunk of `c` bytes when the bit rate is positive and none of the
three `unsigned int` products wraps. -/
theorem spi_delay_value (sp : mcp2210_packet) (len r w c : Int)
    (hr : 0 < mcp2210_spi_get_bitrate sp) (hc : 0 ≤ c) (hc58 : c ≤ 58)
    (h1 : c * mcp2210_spi_get_byte_delay_100us sp * 130000 < 2 ^ 32)
    (h2 : (mcp2210_spi_get_cs_data_delay_100us sp : Int) * 100000 < 2 ^ 32)
    (h3 : (mcp2210_spi_get_data_cs_delay_100us sp : Int) * 130000 < 2 ^ 32) :
    ∃ ts, spi_delay sp len r w c = some ts ∧
      ts.tv_sec * 1000000000 + ts.tv_nsec =
        c * 8 / mcp2210_spi_get_bitrate sp * 1000000000 +
        c * 8 % mcp2210_spi_get_bitrate sp * (1000000000 / mcp2210_spi_get_bitrate sp) +
        c * mcp2210_spi_get_byte_delay_100us sp * 130000 +
        (if w = 0 then (mcp2210_spi_get_cs_data_delay_100us sp : Int) * 100000 else 0) +
        (if r + c = len then (mcp2210_spi_get_data_cs_delay_100us sp : Int) * 130000 else 0) ∧
      0 ≤ ts.tv_nsec ∧ ts.tv_nsec < 1000000000 := by
  have hc8 : 0 ≤ c * 8 := by omega
  have hp := spi_delay_product_bound_pos (c * 8) (mcp2210_spi_get_bitrate sp) hc8 hr
  rw [Int.tmod_eq_emod hc8 (le_of_lt hr), Int.tdiv_eq_ediv (by decide) (le_of_lt hr)] at hp
  have hd : (0 : Int) ≤ mcp2210_spi_get_byte_delay_100us sp := Int.ofNat_nonneg _
  have ha : (0 : Int) ≤ mcp2210_spi_get_cs_data_delay_100us sp := Int.ofNat_nonneg _
  have hb : (0 : Int) ≤ mcp2210_spi_get_data_cs_delay_100us sp := Int.ofNat_nonneg _
  have hcd : 0 ≤ c * mcp2210_spi_get_byte_delay_100us sp := mul_nonneg hc hd
  have e1 : to_uint32 (to_uint32 (to_uint32 c * mcp2210_spi_get_byte_delay_100us sp) *
      (100000 + 30000)) = c * mcp2210_spi_get_byte_delay_100us sp * 130000 := by
    unfold to_uint32
    rw [Int.emod_eq_of_lt hc (by omega),
      Int.emod_eq_of_lt hcd (by omega), Int.emod_eq_of_lt (by omega) (by omega)]
    norm_num
  have e2 : to_uint32 ((mcp2210_spi_get_cs_data_delay_100us sp : Int) * 100000) =
      (mcp2210_spi_get_cs_data_delay_100us sp : Int) * 100000 := by
    unfold to_uint32
    rw [Int.emod_eq_of_lt (by omega) h2]
  have e3 : to_uint32 ((mcp2210_spi_get_data_cs_delay_100us sp : Int) * (100000 + 30000)) =
      (mcp2210_spi_get_data_cs_delay_100us sp : Int) * 130000 := by
    unfold to_uint32
    rw [Int.emod_eq_of_lt (by omega) (by omega)]
    norm_num
  unfold spi_delay
  rw [if_neg (ne_of_gt hr)]
  dsimp only
  rw [e1, e2, e3, Int.tdiv_eq_ediv hc8 (le_of_lt hr), Int.tmod_eq_emod hc8 (le_of_lt hr),
    Int.tdiv_eq_ediv (by decide) (le_of_lt hr)]
  refine ⟨_, rfl, ?_⟩
  dsimp only
  generalize c * 8 / mcp2210_spi_get_bitrate sp = s0 at *
  generalize c * 8 % mcp2210_spi_get_bitrate sp * (1000000000 / mcp2210_spi_get_bitrate sp)
    = n0 at *
  generalize c * (mcp2210_spi_get_byte_delay_100us sp : Int) = x at *
  have hT : ∀ T : Int, 0 ≤ T →
      (s0 + Int.tdiv T 1000000000) * 1000000000 + Int.tmod T 1000000000 =
        s0 * 1000000000 + T ∧
      0 ≤ Int.tmod T 1000000000 ∧ Int.tmod T 1000000000 < 1000000000 := by
    intro T hT
    rw [Int.tdiv_eq_ediv hT (by decide), Int.tmod_eq_emod hT (by decide)]
    omega
  by_cases hw : w = 0
  · by_cases hl : r + c = len
    · rw [if_pos hw, if_pos hl, if_pos hw, if_pos hl]
      have := hT (n0 + x * 130000 + (mcp2210_spi_get_cs_data_delay_100us sp : Int) * 100000 +
        (mcp2210_spi_get_data_cs_delay_100us sp : Int) * 130000) (by omega)
      omega
    · rw [if_pos hw, if_neg hl, if_pos hw, if_neg hl]
      have := hT (n0 + x * 130000 + (mcp2210_spi_get_cs_data_delay_100us sp : Int) * 100000)
        (by omega)
      omega
  · by_cases hl : r + c = len
    · rw [if_neg hw, if_pos hl, if_neg hw, if_pos hl]
      have := hT (n0 + x * 130000 +
        (mcp2210_spi_get_data_cs_delay_100us sp : Int) * 130000) (by omega)
      omega
    · rw [if_neg hw, if_neg hl, if_neg hw, if_neg hl]
      have := hT (n0 + x * 130000) (by omega)
      omega

/-- C30, counterexample: for a first chunk of 58 bytes (of 120) at 1000000 bits per second
with a delay between bytes of 1 (100 us) and the other delays 0, the computed sleep is
8004000 ns, while clocking 464 bits takes 464000 ns and 58 delays of 100 us take 5800000 ns,
6264000 ns together. -/
theorem spi_delay_has_margin :
    (mcp2210_spi_get_bitrate spi_byte_delay_frame = 1000000 ∧
      mcp2210_spi_get_byte_delay_100us spi_byte_delay_frame = 1 ∧
      mcp2210_spi_get_cs_data_delay_100us spi_byte_delay_frame = 0 ∧
      mcp2210_spi_get_data_cs_delay_100us spi_byte_delay_frame = 0) ∧
    (spi_delay spi_byte_delay_frame 120 0 0 58).map (fun d => (d.tv_sec, d.tv_nsec)) =
      some (0, 8004000) ∧
    (8004000 : Int) ≠ 464000 + 58 * 1 * 100000 := by
  decide

/-- C30, amended: for a chunk of `c` bytes (`c` the smaller of 58 and `len - rd`), bit rate
`r > 0` and delays `d`, `a`, `b` in units of 100 us whose `unsigned int` products
`c * d * 130000`, `a * 100000`, `b * 130000` stay below `2 ^ 32`, the sleep of
`mcp2210_spi_transfer` lasts, in nanoseconds, `(c * 8 / r) * 10^9 + (c * 8 % r) * (10^9 / r)`
(integer division) for the bits, plus `c * d * 130000` for the delays between bytes, plus
`a * 100000` exactly when `wr = 0`, plus `b * 130000` exactly when `rd + c = len`: the delays
between bytes and from data to CS are counted at 130 us per unit, 30 % above the configured
100 us. The `struct timespec` is normalised (`0 <= tv_nsec < 10^9`). -/
theorem spi_sleep_duration (sp : mcp2210_packet) (len : Int) (t : Trace) (data : Buffer)
    (r w c : Int)
    (hr : 0 < mcp2210_spi_get_bitrate sp) (hlt : r < len)
    (hc : c = if r + 58 > len then len - r else 58)
    (h1 : c * mcp2210_spi_get_byte_delay_100us sp * 130000 < 2 ^ 32)
    (h2 : (mcp2210_spi_get_cs_data_delay_100us sp : Int) * 100000 < 2 ^ 32)
    (h3 : (mcp2210_spi_get_data_cs_delay_100us sp : Int) * 130000 < 2 ^ 32) :
    ∃ st, spi_loop_head sp len t data r w = SpiNext.at_retry st ∧
      st.delay.tv_sec * 1000000000 + st.delay.tv_nsec =
        c * 8 / mcp2210_spi_get_bitrate sp * 1000000000 +
        c * 8 % mcp2210_spi_get_bitrate sp * (1000000000 / mcp2210_spi_get_bitrate sp) +
        c * mcp2210_spi_get_byte_delay_100us sp * 130000 +
        (if w = 0 then (mcp2210_spi_get_cs_data_delay_100us sp : Int) * 100000 else 0) +
        (if r + c = len then (mcp2210_spi_get_data_cs_delay_100us sp : Int) * 130000 else 0) ∧
      0 ≤ st.delay.tv_nsec ∧ st.delay.tv_nsec < 1000000000 := by
  have hc0 : 0 ≤ c ∧ c ≤ 58 := by
    rw [hc]
    split <;> omega
  obtain ⟨ts, hts, hv⟩ := spi_delay_value sp len r w c hr hc0.1 hc0.2 h1 h2 h3
  have hc2 : (if r + MCP2210_SPI_CHUNK > len then len - r else MCP2210_SPI_CHUNK) = c :=
    hc.symm
  unfold spi_loop_head
  rw [if_pos hlt]
  dsimp only
  rw [hc2, hts]
  exact ⟨_, rfl, hv⟩

theorem spi_sleep_duration_witness :
    ((0 : Int) < mcp2210_spi_get_bitrate spi_byte_delay_frame ∧ (0 : Int) < 120 ∧
      (58 : Int) = if (0 : Int) + 58 > 120 then 120 - 0 else 58) ∧
    ∃ st, spi_loop_head spi_byte_delay_frame 120 [] counting_data 0 0 = SpiNext.at_retry st ∧
      st.delay.tv_sec * 1000000000 + st.delay.tv_nsec =
        58 * 8 / mcp2210_spi_get_bitrate spi_byte_delay_frame * 1000000000 +
        58 * 8 % mcp2210_spi_get_bitrate spi_byte_delay_frame *
          (1000000000 / mcp2210_spi_get_bitrate spi_byte_delay_frame) +
        58 * mcp2210_spi_get_byte_delay_100us spi_byte_delay_frame * 130000 +
        (if (0 : Int) = 0 then
          (mcp2210_spi_get_cs_data_delay_100us spi_byte_delay_frame : Int) * 100000 else 0) +
        (if (0 : Int) + 58 = 120 then
          (mcp2210_spi_get_data_cs_delay_100us spi_byte_delay_frame : Int) * 130000 else 0) ∧
      0 ≤ st.delay.tv_nsec ∧ st.delay.tv_nsec < 1000000000 :=
  ⟨⟨by decide, by decide, by decide⟩,
    spi_sleep_duration spi_byte_delay_frame 120 [] counting_data 0 0 58 (by decide) (by decide)
      (by decide) (by decide) (by decide) (by decide)⟩

/-! ## Chip settings: the fields of byte 17 -/

theorem chip_set_wakeup_eq (p : mcp2210_packet) (e : Nat) :
    mcp2210_chip_set_wakeup p e =
      wr p 17 ((rd p 17 &&& int_not 0x10) % 256 ||| (bang_bang e <<< 4)) := by
  unfold mcp2210_chip_set_wakeup
  exact wr_wr_rd_or _ _ _ _ (by decide)

theorem chip_set_gp6_mode_eq (p : mcp2210_packet) (m : Nat) :
    mcp2210_chip_set_gp6_mode p m =
      wr p 17 ((rd p 17 &&& int_not 0xe) % 256 ||| (m <<< 1)) := by
  unfold mcp2210_chip_set_gp6_mode
  exact wr_wr_rd_or _ _ _ _ (by decide)

theorem chip_set_no_spi_release_eq (p : mcp2210_packet) (n : Nat) :
    mcp2210_chip_set_no_spi_release p n =
      wr p 17 ((rd p 17 &&& int_not 0x1) % 256 ||| bang_bang n) := by
  unfold mcp2210_chip_set_no_spi_release
  exact wr_wr_rd_or _ _ _ _ (by decide)

set_option maxRecDepth 100000 in
theorem byte17_wakeup :
    ∀ b, b < 256 → ∀ t, t < 2 →
      bang_bang (((b &&& int_not 0x10) % 256 ||| (t <<< 4)) % 256 &&& 0x10) = t ∧
      bang_bang (((b &&& int_not 0x10) % 256 ||| (t <<< 4)) % 256 &&& 0x1) =
        bang_bang (b &&& 0x1) ∧
      ((((b &&& int_not 0x10) % 256 ||| (t <<< 4)) % 256) >>> 1) &&& 7 = (b >>> 1) &&& 7 ∧
      (((b &&& int_not 0x10) % 256 ||| (t <<< 4)) % 256) >>> 5 = b >>> 5 := by
  decide

set_option maxRecDepth 100000 in
theorem byte17_no_spi_release :
    ∀ b, b < 256 → ∀ t, t < 2 →
      bang_bang (((b &&& int_not 0x1) % 256 ||| t) % 256 &&& 0x1) = t ∧
      bang_bang (((b &&& int_not 0x1) % 256 ||| t) % 256 &&& 0x10) = bang_bang (b &&& 0x10) ∧
      ((((b &&& int_not 0x1) % 256 ||| t) % 256) >>> 1) &&& 7 = (b >>> 1) &&& 7 ∧
      (((b &&& int_not 0x1) % 256 ||| t) % 256) >>> 5 = b >>> 5 := by
  decide

set_option maxRecDepth 100000 in
theorem byte17_gp6_mode :
    ∀ b, b < 256 → ∀ m, m < 8 →
      ((((b &&& int_not 0xe) % 256 ||| (m <<< 1)) % 256) >>> 1) &&& 7 = m ∧
      bang_bang (((b &&& int_not 0xe) % 256 ||| (m <<< 1)) % 256 &&& 0x10) =
        bang_bang (b &&& 0x10) ∧
      bang_bang (((b &&& int_not 0xe) % 256 ||| (m <<< 1)) % 256 &&& 0x1) =
        bang_bang (b &&& 0x1) ∧
      (((b &&& int_not 0xe) % 256 ||| (m <<< 1)) % 256) >>> 5 = b >>> 5 := by
  decide

/-- C34: in a chip-settings frame the three fields of byte 17 round-trip independently. For
every frame `p`, all flag values `e` and `n` and every mode `m` in 0..7: the wake-up getter
after its setter returns `!!e`, the no-SPI-release getter after its setter returns `!!n`, the
GP6 mode getter after its setter returns `m`; and each setter leaves the other two fields,
bits 5-7 of byte 17 and every other byte of the frame unchanged. -/
theorem chip_byte17_fields (p : mcp2210_packet) (e n m : Nat) (hm : m < 8) :
    (mcp2210_chip_get_wakeup (mcp2210_chip_set_wakeup p e) = bang_bang e ∧
      mcp2210_chip_get_no_spi_release (mcp2210_chip_set_no_spi_release p n) = bang_bang n ∧
      mcp2210_chip_get_gp6_mode (mcp2210_chip_set_gp6_mode p m) = m) ∧
    (mcp2210_chip_get_no_spi_release (mcp2210_chip_set_wakeup p e) =
        mcp2210_chip_get_no_spi_release p ∧
      mcp2210_chip_get_gp6_mode (mcp2210_chip_set_wakeup p e) = mcp2210_chip_get_gp6_mode p ∧
      rd (mcp2210_chip_set_wakeup p e) 17 >>> 5 = rd p 17 >>> 5 ∧
      ∀ j, j ≠ 17 → rd (mcp2210_chip_set_wakeup p e) j = rd p j) ∧
    (mcp2210_chip_get_wakeup (mcp2210_chip_set_no_spi_release p n) =
        mcp2210_chip_get_wakeup p ∧
      mcp2210_chip_get_gp6_mode (mcp2210_chip_set_no_spi_release p n) =
        mcp2210_chip_get_gp6_mode p ∧
      rd (mcp2210_chip_set_no_spi_release p n) 17 >>> 5 = rd p 17 >>> 5 ∧
      ∀ j, j ≠ 17 → rd (mcp2210_chip_set_no_spi_release p n) j = rd p j) ∧
    (mcp2210_chip_get_wakeup (mcp2210_chip_set_gp6_mode p m) = mcp2210_chip_get_wakeup p ∧
      mcp2210_chip_get_no_spi_release (mcp2210_chip_set_gp6_mode p m) =
        mcp2210_chip_get_no_spi_release p ∧
      rd (mcp2210_chip_set_gp6_mode p m) 17 >>> 5 = rd p 17 >>> 5 ∧
      ∀ j, j ≠ 17 → rd (mcp2210_chip_set_gp6_mode p m) j = rd p j) := by
  obtain ⟨w1, w2, w3, w4⟩ := byte17_wakeup _ (rd_lt p 17) _ (bang_bang_lt e)
  obtain ⟨n1, n2, n3, n4⟩ := byte17_no_spi_release _ (rd_lt p 17) _ (bang_bang_lt n)
  obtain ⟨g1, g2, g3, g4⟩ := byte17_gp6_mode _ (rd_lt p 17) _ hm
  unfold mcp2210_chip_get_wakeup mcp2210_chip_get_no_spi_release mcp2210_chip_get_gp6_mode
  rw [chip_set_wakeup_eq, chip_set_no_spi_release_eq, chip_set_gp6_mode_eq]
  simp only [rd_wr_same _ _ _ (show 17 < 64 by decide)]
  refine ⟨⟨w1, n1, g1⟩, ⟨w2, w3, w4, ?_⟩, ⟨n2, n3, n4, ?_⟩, ⟨g2, g3, g4, ?_⟩⟩ <;>
    exact fun j hj => rd_wr_ne _ _ _ _ hj

theorem chip_byte17_fields_witness :
    (5 : Nat) < 8 ∧
    mcp2210_chip_get_gp6_mode (mcp2210_chip_set_gp6_mode (packet_of_list
      [0x20, 0, 0, 0, 0, 0, 0, 0, 0, 0, 0, 0, 0, 0, 0, 0, 0, 0xf1]) 5) = 5 ∧
    mcp2210_chip_get_wakeup (mcp2210_chip_set_gp6_mode (packet_of_list
      [0x20, 0, 0, 0, 0, 0, 0, 0, 0, 0, 0, 0, 0, 0, 0, 0, 0, 0xf1]) 5) = 1 :=
  ⟨by decide,
    (chip_byte17_fields (packet_of_list
      [0x20, 0, 0, 0, 0, 0, 0, 0, 0, 0, 0, 0, 0, 0, 0, 0, 0, 0xf1]) 1 1 5 (by decide)).1.2.2,
    by decide⟩

/-! ## Chip settings: the GP6 mode setter with any argument -/

theorem or_mod_two_pow (a b n : Nat) : (a ||| b) % 2 ^ n = a % 2 ^ n ||| b % 2 ^ n := by
  apply Nat.eq_of_testBit_eq
  intro i
  simp only [Nat.testBit_mod_two_pow, Nat.testBit_or]
  by_cases h : i < n <;> simp [h]

set_option maxRecDepth 100000 in
theorem byte17_clear_gp6_mode :
    ∀ b, b < 256 → (b &&& int_not 0xe) % 256 % 256 = b &&& 0xf1 ∧ (b &&& 0xf1) % 2 = b % 2 := by
  decide

/-- The byte 17 that `mcp2210_chip_set_gp6_mode` stores, for any mode. -/
theorem chip_set_gp6_mode_rd (p : mcp2210_packet) (mode : Nat) :
    rd (mcp2210_chip_set_gp6_mode p mode) 17 =
      (rd p 17 &&& 0xf1) ||| ((mode <<< 1) % 256) := by
  rw [chip_set_gp6_mode_eq, rd_wr_same _ _ _ (by decide)]
  have h := or_mod_two_pow ((rd p 17 &&& int_not 0xe) % 256) (mode <<< 1) 8
  rw [show (2 : Nat) ^ 8 = 256 by decide] at h
  rw [h, (byte17_clear_gp6_mode _ (rd_lt p 17)).1]

/-- C40, counterexample: on the all-zero frame `mcp2210_chip_set_gp6_mode` with the mode 8
sets bit 4 of byte 17, the wake-up flag, and leaves the GP6 mode 0. -/
theorem chip_set_gp6_mode_spills :
    rd (mcp2210_chip_set_gp6_mode zero_packet 8) 17 = 0x10 ∧
    mcp2210_chip_get_wakeup zero_packet = 0 ∧
    mcp2210_chip_get_wakeup (mcp2210_chip_set_gp6_mode zero_packet 8) = 1 ∧
    mcp2210_chip_get_gp6_mode (mcp2210_chip_set_gp6_mode zero_packet 8) = 0 := by
  decide

/-- C40, amended: for every frame and every mode, `mcp2210_chip_set_gp6_mode` changes byte 17
only, to `(old & 0xf1) | ((mode << 1) & 0xff)`: bit 0, the no-SPI-release flag, keeps its
value for every mode, and for every mode in 0..7 the getter returns the mode and the wake-up
flag (bit 4) and bits 5-7 keep their values. A mode of 8 or more is or-ed into bits 4-7. -/
theorem chip_set_gp6_mode_effect (p : mcp2210_packet) (mode : Nat) :
    (∀ j, j ≠ 17 → rd (mcp2210_chip_set_gp6_mode p mode) j = rd p j) ∧
    rd (mcp2210_chip_set_gp6_mode p mode) 17 = (rd p 17 &&& 0xf1) ||| ((mode <<< 1) % 256) ∧
    mcp2210_chip_get_no_spi_release (mcp2210_chip_set_gp6_mode p mode) =
      mcp2210_chip_get_no_spi_release p ∧
    (mode < 8 →
      mcp2210_chip_get_gp6_mode (mcp2210_chip_set_gp6_mode p mode) = mode ∧
      mcp2210_chip_get_wakeup (mcp2210_chip_set_gp6_mode p mode) = mcp2210_chip_get_wakeup p ∧
      rd (mcp2210_chip_set_gp6_mode p mode) 17 >>> 5 = rd p 17 >>> 5) := by
  have hm := chip_set_gp6_mode_rd p mode
  refine ⟨fun j hj => ?_, hm, ?_, fun h8 => ?_⟩
  · rw [chip_set_gp6_mode_eq, rd_wr_ne _ _ _ _ hj]
  · unfold mcp2210_chip_get_no_spi_release
    rw [hm, Nat.and_one_is_mod, Nat.and_one_is_mod]
    have h := or_mod_two_pow (rd p 17 &&& 0xf1) ((mode <<< 1) % 256) 1
    rw [show (2 : Nat) ^ 1 = 2 by decide] at h
    have he : (mode <<< 1) % 256 % 2 = 0 := by
      rw [Nat.shiftLeft_eq]
      omega
    rw [h, he, Nat.or_zero, (byte17_clear_gp6_mode _ (rd_lt p 17)).2]
  · obtain ⟨g1, g2, _, g4⟩ := byte17_gp6_mode _ (rd_lt p 17) _ h8
    unfold mcp2210_chip_get_gp6_mode mcp2210_chip_get_wakeup
    rw [chip_set_gp6_mode_eq, rd_wr_same _ _ _ (by decide)]
    exact ⟨g1, g2, g4⟩

theorem chip_set_gp6_mode_effect_witness :
    (4 : Nat) < 8 ∧
    mcp2210_chip_get_gp6_mode (mcp2210_chip_set_gp6_mode (packet_of_list
      [0x20, 0, 0, 0, 0, 0, 0, 0, 0, 0, 0, 0, 0, 0, 0, 0, 0, 0xf1]) 4) = 4 ∧
    mcp2210_chip_get_wakeup (mcp2210_chip_set_gp6_mode (packet_of_list
        [0x20, 0, 0, 0, 0, 0, 0, 0, 0, 0, 0, 0, 0, 0, 0, 0, 0, 0xf1]) 4) =
      mcp2210_chip_get_wakeup (packet_of_list
        [0x20, 0, 0, 0, 0, 0, 0, 0, 0, 0, 0, 0, 0, 0, 0, 0, 0, 0xf1]) ∧
    rd (mcp2210_chip_set_gp6_mode (packet_of_list
        [0x20, 0, 0, 0, 0, 0, 0, 0, 0, 0, 0, 0, 0, 0, 0, 0, 0, 0xf1]) 4) 17 >>> 5 =
      rd (packet_of_list [0x20, 0, 0, 0, 0, 0, 0, 0, 0, 0, 0, 0, 0, 0, 0, 0, 0, 0xf1]) 17 >>> 5 :=
  ⟨by decide,
    (chip_set_gp6_mode_effect (packet_of_list
      [0x20, 0, 0, 0, 0, 0, 0, 0, 0, 0, 0, 0, 0, 0, 0, 0, 0, 0xf1]) 4).2.2.2 (by decide)⟩

/-! ## USB string descriptors: the length getter -/

/-- The frames for which `mcp2210_usb_string_get_len` stays within the 58 bytes of the string
area: those whose byte 4 is between 2 and 60. -/
theorem usb_string_get_len_le (p : mcp2210_packet) :
    mcp2210_usb_string_get_len p ≤ 58 ↔ (2 ≤ rd p 4 ∧ rd p 4 ≤ 60) := by
  have h := rd_lt p 4
  unfold mcp2210_usb_string_get_len
  omega

/-- C39: `mcp2210_usb_string_get_len` returns `packet[4] - 2` converted to `unsigned short`
without any check: for the all-zero frame the value is 65534, and for a frame whose byte 4 is
255 it is 253, both above 58. -/
theorem usb_string_get_len_unbounded :
    mcp2210_usb_string_get_len zero_packet = 65534 ∧
    mcp2210_usb_string_get_len (packet_of_list [0x61, 0, 0x40, 0, 0xff]) = 253 ∧
    ¬ mcp2210_usb_string_get_len zero_packet ≤ 58 := by
  decide

/-! ## SPI transfer engine: the delay computation at the edges of its domain -/
/-- With a positive bit rate the delay computation yields a valid `struct timespec`. -/
theorem spi_delay_valid_of_pos (sp : mcp2210_packet) (len r w c : Int)
    (hr : 0 < mcp2210_spi_get_bitrate sp) (hc : 0 ≤ c) :
    ∃ ts, spi_delay sp len r w c = some ts ∧ 0 ≤ ts.tv_sec ∧ 0 ≤ ts.tv_nsec ∧
      ts.tv_nsec < 1000000000 := by
  have hc8 : 0 ≤ c * 8 := by omega
  have hp := spi_delay_product_bound_pos (c * 8) (mcp2210_spi_get_bitrate sp) hc8 hr
  have hs : 0 ≤ Int.tdiv (c * 8) (mcp2210_spi_get_bitrate sp) := by
    rw [Int.tdiv_eq_ediv hc8 (le_of_lt hr)]
    exact Int.ediv_nonneg hc8 (le_of_lt hr)
  have hu : ∀ x, 0 ≤ to_uint32 x := fun x => Int.emod_nonneg x (by decide)
  have h1 := hu (to_uint32 (to_uint32 c * mcp2210_spi_get_byte_delay_100us sp) *
    (100000 + 30000))
  have h2 := hu ((mcp2210_spi_get_cs_data_delay_100us sp : Int) * 100000)
  have h3 := hu ((mcp2210_spi_get_data_cs_delay_100us sp : Int) * (100000 + 30000))
  unfold spi_delay
  rw [if_neg (ne_of_gt hr)]
  dsimp only
  refine ⟨_, rfl, ?_⟩
  dsimp only
  generalize Int.tdiv (c * 8) (mcp2210_spi_get_bitrate sp) = s0 at *
  generalize Int.tmod (c * 8) (mcp2210_spi_get_bitrate sp) *
    Int.tdiv 1000000000 (mcp2210_spi_get_bitrate sp) = n0 at *
  generalize to_uint32 (to_uint32 (to_uint32 c * mcp2210_spi_get_byte_delay_100us sp) *
    (100000 + 30000)) = u1 at *
  generalize to_uint32 ((mcp2210_spi_get_cs_data_delay_100us sp : Int) * 100000) = u2 at *
  generalize to_uint32 ((mcp2210_spi_get_data_cs_delay_100us sp : Int) * (100000 + 30000))
    = u3 at *
  have hT : ∀ T : Int, 0 ≤ T →
      0 ≤ s0 + Int.tdiv T 1000000000 ∧ 0 ≤ Int.tmod T 1000000000 ∧
        Int.tmod T 1000000000 < 1000000000 := by
    intro T hT
    rw [Int.tdiv_eq_ediv hT (by decide), Int.tmod_eq_emod hT (by decide)]
    omega
  by_cases hw : w = 0
  · by_cases hl : r + c = len
    · rw [if_pos hw, if_pos hl]
      exact hT _ (by omega)
    · rw [if_pos hw, if_neg hl]
      exact hT _ (by omega)
  · by_cases hl : r + c = len
    · rw [if_neg hw, if_pos hl]
      exact hT _ (by omega)
    · rw [if_neg hw, if_neg hl]
      exact hT _ (by omega)

/-- C37: the function keeps the bit rate in an `int`, and the getter builds it with
`spi_packet[7] << 24`, so stored bit rates of 0x80000000 and above arrive negative. For the
stored bit rate 0xffffffff (read as -1) a chunk of 58 bytes gives `tv_sec = -464`; for
0xfffffffd (read as -3) it gives `tv_sec = -154` and `tv_nsec = -666666666`. Neither is a
valid sleep time, although the stored bit rate is not zero. -/
theorem spi_delay_negative_rate :
    (mcp2210_spi_get_bitrate spi_all_ones_rate_frame = -1 ∧
      (spi_delay spi_all_ones_rate_frame 120 0 0 58).map (fun d => (d.tv_sec, d.tv_nsec)) =
        some (-464, 0)) ∧
    (mcp2210_spi_get_bitrate spi_high_rate_frame = -3 ∧
      (spi_delay spi_high_rate_frame 120 0 0 58).map (fun d => (d.tv_sec, d.tv_nsec)) =
        some (-154, -666666666)) := by
  decide

/-- The place of the inter-byte term in the delay computation. -/
theorem spi_delay_byte_term (sp : mcp2210_packet) (len r w c : Int)
    (hb : mcp2210_spi_get_bitrate sp ≠ 0) (hw : w ≠ 0) (hl : r + c ≠ len) :
    (spi_delay sp len r w c).map (fun d => (d.tv_sec, d.tv_nsec)) =
      some (Int.tdiv (c * 8) (mcp2210_spi_get_bitrate sp) +
          Int.tdiv (Int.tmod (c * 8) (mcp2210_spi_get_bitrate sp) *
            Int.tdiv 1000000000 (mcp2210_spi_get_bitrate sp) + spi_byte_delay_ns sp c)
            1000000000,
        Int.tmod (Int.tmod (c * 8) (mcp2210_spi_get_bitrate sp) *
            Int.tdiv 1000000000 (mcp2210_spi_get_bitrate sp) + spi_byte_delay_ns sp c)
          1000000000) := by
  unfold spi_delay spi_byte_delay_ns
  rw [if_neg hb]
  dsimp only
  rw [if_neg hw, if_neg hl]
  rfl

/-- The value of the inter-byte term: the exact product reduced modulo `2 ^ 32`. -/
theorem spi_byte_delay_ns_eq (sp : mcp2210_packet) (c : Int) :
    spi_byte_delay_ns sp c = c * mcp2210_spi_get_byte_delay_100us sp * 130000 % 2 ^ 32 := by
  unfold spi_byte_delay_ns to_uint32
  rw [show ((100000 : Int) + 30000) = 130000 by decide]
  rw [Int.mul_emod (c % 2 ^ 32 * mcp2210_spi_get_byte_delay_100us sp % 2 ^ 32) 130000,
    Int.emod_emod, ← Int.mul_emod, mul_assoc, Int.mul_emod (c % 2 ^ 32), Int.emod_emod,
    ← Int.mul_emod, mul_assoc]

/-- C38: the inter-byte term is computed in `unsigned int` and wraps around: for a chunk of
58 bytes and a delay between bytes of 570 (57 ms) the exact product is 4297800000 ns, above
`2 ^ 32`, and the term added to the sleep is 2832704 ns; the whole sleep of that chunk (not
the first nor the last) is 3296704 ns instead of 4 s 298264000 ns. -/
theorem spi_byte_delay_wraps :
    (mcp2210_spi_get_byte_delay_100us spi_long_byte_delay_frame = 570 ∧
      (58 : Int) * 570 * 130000 = 4297800000 ∧ (2 : Int) ^ 32 ≤ 4297800000) ∧
    spi_byte_delay_ns spi_long_byte_delay_frame 58 = 2832704 ∧
    (spi_delay spi_long_byte_delay_frame 120 58 58 58).map (fun d => (d.tv_sec, d.tv_nsec)) =
      some (0, 464000 + 2832704) := by
  decide

/-! ## SPI transfer engine: the bounds of the payload copy -/
/-- C36: the count of `memcpy (&data[rd], &packet[4], packet[2])` is the byte the device
reports, which the function compares with nothing. With a response that reports 255 bytes in
the first exchange of a transfer of 120 bytes, 255 bytes are copied: more than the 60 bytes
the packet holds from offset 4 on (the source runs to offset 258) and more than the 120 bytes
of the destination (the copy reaches `data[254]`, and `data[200]`, which held 200, is
overwritten); the function then returns 0 with `rd = 255`. With a response that reports 60
bytes in a transfer of 1 byte, 60 bytes are copied to a destination of 1 byte. -/
theorem spi_copy_out_of_bounds :
    ((spi_exchange max_reporting_device sample_spi_state).ret = 0 ∧
      rd (spi_exchange max_reporting_device sample_spi_state).packet 3 = MCP2210_SPI_DATA ∧
      rd (spi_exchange max_reporting_device sample_spi_state).packet 2 = 255 ∧
      ¬ (255 : Int) ≤ min 60 (120 - sample_spi_state.rd)) ∧
    ((counting_data 200).val = 200 ∧
      (next_data (spi_retry_block max_reporting_device spi_settings_frame 120
        sample_spi_state) 200).val = 0) ∧
    (mcp2210_spi_transfer max_reporting_device 1 [] spi_settings_frame counting_data 120).map
      (fun r => (spi_returned r, r.rd)) = some (some 0, 255) ∧
    (mcp2210_spi_transfer over_reporting_device 1 [] spi_settings_frame counting_data 1).map
      (fun r => (spi_returned r, r.rd, (r.data 0).val, (r.data 59).val)) =
        some (some 0, 60, 0, 0) ∧
    (counting_data 59).val = 59 := by
  decide

/-! ## SPI transfer engine: the sleep after an exchange -/
/-- An exchange that reports "transfer in progress" completed its write and its read. -/
theorem spi_exchange_busy_complete (fd : Device) (st : SpiState)
    (h : (spi_exchange fd st).ret = -MCP2210_ESPIINPROGRESS) :
    fd.write st.trace (spi_frame st) = 64 := by
  by_contra hw
  have e : spi_exchange fd st = _ :=
    command_of_write_ne fd st.trace (spi_request st) MCP2210_SPI_TRANSFER hw
  rw [e] at h
  dsimp only at h
  unfold MCP2210_EWRSHORT MCP2210_ESPIINPROGRESS at h
  split at h <;> omega

theorem spi_after_busy_delay (fd : Device) (st : SpiState) (k : Nat) :
    (spi_after_busy fd (k + 1) st).delay.tv_sec = 0 ∧
    (spi_after_busy fd (k + 1) st).delay.tv_nsec = 5000000 :=
  ⟨rfl, rfl⟩

/-- C31, counterexample: with a device that reports "transfer in progress" for the first
exchange of a transfer of 120 bytes at 1000000 bits per second, the calls up to the third
arrival at `retry` are: write, read, a sleep of 464000 ns, then the re-send (write, read) and
a sleep of 5 ms. The sleep between the busy response and the re-send is the delay computed
for the chunk, not 5 ms. -/
theorem spi_first_retry_sleep :
    (spi_exchange (busy_device 1) sample_spi_state).ret = -MCP2210_ESPIINPROGRESS ∧
    (spi_busy_again (busy_device 1) sample_spi_state).trace.map sleep_of_event =
      [none, none, some (0, 464000)] ∧
    (next_trace (spi_retry_block (busy_device 1) spi_settings_frame 120
      (spi_busy_again (busy_device 1) sample_spi_state))).map sleep_of_event =
      [none, none, some (0, 464000), none, none, some (0, 5000000)] := by
  decide

/-- C31, amended: every exchange of `mcp2210_spi_transfer`, whatever its outcome, is followed
by exactly one `nanosleep` before its result is examined. When an exchange reports "transfer
in progress", the same chunk is sent again right after that sleep, whose duration is the one
pending at the exchange (the delay computed for the chunk at a first attempt), and the sleep
that follows the re-send, like every later sleep for the chunk, is the fixed 5 ms. -/
theorem spi_sleep_after_exchange (fd : Device) (sp : mcp2210_packet) (len : Int)
    (st : SpiState) :
    next_trace (spi_retry_block fd sp len st) =
      st.trace ++ (IoEvent.write (spi_frame st) ::
        (if fd.write st.trace (spi_frame st) = 64 then [IoEvent.read] else [])) ++
        [IoEvent.nanosleep st.delay.tv_sec st.delay.tv_nsec] ∧
    ((spi_exchange fd st).ret = -MCP2210_ESPIINPROGRESS →
      spi_retry_block fd sp len st = SpiNext.at_retry (spi_busy_again fd st) ∧
      (spi_busy_again fd st).trace =
        st.trace ++ [IoEvent.write (spi_frame st), IoEvent.read,
          IoEvent.nanosleep st.delay.tv_sec st.delay.tv_nsec] ∧
      (spi_busy_again fd st).wr = st.wr ∧ (spi_busy_again fd st).wr_len = st.wr_len ∧
      (spi_busy_again fd st).data = st.data ∧
      (spi_busy_again fd st).delay.tv_sec = 0 ∧
      (spi_busy_again fd st).delay.tv_nsec = 5000000 ∧
      ∀ k, (spi_after_busy fd (k + 1) st).delay.tv_sec = 0 ∧
        (spi_after_busy fd (k + 1) st).delay.tv_nsec = 5000000) := by
  refine ⟨?_, fun h => ⟨spi_retry_block_busy fd sp len st h, ?_, rfl, rfl, rfl, rfl, rfl,
    fun k => spi_after_busy_delay fd st k⟩⟩
  · rw [spi_retry_block_trace, spi_exchange_trace]
  · have hw := spi_exchange_busy_complete fd st h
    show (spi_exchange fd st).trace ++ _ = _
    rw [spi_exchange_trace, if_pos hw]
    simp only [List.append_assoc, List.cons_append, List.nil_append]

set_option maxRecDepth 100000 in
theorem spi_sleep_after_exchange_witness :
    (spi_exchange (busy_device 1) sample_spi_state).ret = -MCP2210_ESPIINPROGRESS ∧
    (spi_busy_again (busy_device 1) sample_spi_state).trace =
      sample_spi_state.trace ++ [IoEvent.write (spi_frame sample_spi_state), IoEvent.read,
        IoEvent.nanosleep sample_spi_state.delay.tv_sec sample_spi_state.delay.tv_nsec] ∧
    (sample_spi_state.delay.tv_sec, sample_spi_state.delay.tv_nsec) = (0, 464000) ∧
    (spi_busy_again (busy_device 1) sample_spi_state).delay.tv_nsec = 5000000 :=
  have h := (spi_sleep_after_exchange (busy_device 1) spi_settings_frame 120
    sample_spi_state).2 (by decide)
  ⟨by decide, h.2.1, by decide, h.2.2.2.2.2.2.1⟩

/-! ## SPI transfer engine: the bytes sent come from the caller -/

/-- When no accepted response reports more bytes than have been sent and not yet received,
`rd <= wr` holds at every arrival at `retry` and the memory from `data[rd]` on is as the
caller left it. -/
theorem spi_reach_unsent (fd : Device) (sp : mcp2210_packet) (len : Int) (t0 : Trace)
    (d0 : Buffer)
    (hdev : ∀ st, SpiReach fd sp len t0 d0 st → (spi_exchange fd st).ret = 0 →
      (rd (spi_exchange fd st).packet 3 = 0x20 ∨ rd (spi_exchange fd st).packet 3 = 0x10 ∨
        rd (spi_exchange fd st).packet 3 = 0x30) →
      st.rd + rd (spi_exchange fd st).packet 2 ≤ st.wr + st.wr_len)
    (st : SpiState) (h : SpiReach fd sp len t0 d0 st) :
    0 ≤ st.rd ∧ st.rd ≤ st.wr ∧ ∀ i, st.rd.toNat ≤ i → st.data i = d0 i := by
  have hle : st.rd ≤ st.wr := by
    induction h with
    | enter st h =>
      obtain ⟨_, _, hr, hw, _⟩ := spi_loop_head_at_retry sp len t0 d0 0 0 st h
      rw [hr, hw]
    | step st st2 hreach h ih =>
      rcases spi_retry_block_at_retry fd sp len st st2 h with ⟨_, e⟩ | ⟨h0, e⟩
      · rw [e]
        exact ih
      · by_cases hs : rd (spi_exchange fd st).packet 3 = 0x20 ∨
            rd (spi_exchange fd st).packet 3 = 0x10 ∨ rd (spi_exchange fd st).packet 3 = 0x30
        · obtain ⟨_, _, hr, hw, _⟩ := spi_loop_head_at_retry _ _ _ _ _ _ _ e
          have hc := hdev st hreach h0 hs
          rw [hr, hw]
          exact hc
        · rw [spi_retry_block_success fd sp len st h0, if_neg hs] at h
          exact SpiNext.noConfusion h
  obtain ⟨sfx, _, hrd, hdata⟩ := (spi_payloads_invariant fd sp len t0 d0).1 st h
  refine ⟨by rw [hrd]; exact Int.ofNat_nonneg _, hle, fun i hi => ?_⟩
  rw [hdata i, List.getD_eq_default]
  rw [hrd, Int.toNat_ofNat] at hi
  exact hi

/-- At every arrival at `retry` of a transfer to `loopback_device`, as many bytes have been
received as have been sent. -/
theorem loopback_rd_eq_wr (sp : mcp2210_packet) (len : Int) (t0 : Trace) (d0 : Buffer)
    (st : SpiState) (h : SpiReach loopback_device sp len t0 d0 st) : st.rd = st.wr := by
  induction h with
  | enter st h =>
    obtain ⟨_, _, hr, hw, _⟩ := spi_loop_head_at_retry sp len t0 d0 0 0 st h
    rw [hr, hw]
  | step st st2 hreach h ih =>
    rcases spi_retry_block_at_retry loopback_device sp len st st2 h with ⟨_, e⟩ | ⟨h0, e⟩
    · rw [e]
      exact ih
    · obtain ⟨_, _, hr, hw, _⟩ := spi_loop_head_at_retry _ _ _ _ _ _ _ e
      rw [hr, hw, loopback_reports_chunk sp len t0 d0 st hreach h0, ih]

/-- C33: if every accepted response reports a byte count `c` with `rd + c <= wr + wr_len`
(`wr + wr_len` being `written` after the chunk just sent), then at every exchange of
`mcp2210_spi_transfer` the frame handed to the device carries, at offsets `2 + i` for
`i < wr_len`, the bytes the caller supplied at `data[wr + i]`: the memory from `data[rd]` on
is still as the caller left it, and `rd <= wr`. -/
theorem spi_sends_original_bytes (fd : Device) (sp : mcp2210_packet) (len : Int) (t0 : Trace)
    (d0 : Buffer)
    (hdev : ∀ st, SpiReach fd sp len t0 d0 st → (spi_exchange fd st).ret = 0 →
      (rd (spi_exchange fd st).packet 3 = 0x20 ∨ rd (spi_exchange fd st).packet 3 = 0x10 ∨
        rd (spi_exchange fd st).packet 3 = 0x30) →
      st.rd + rd (spi_exchange fd st).packet 2 ≤ st.wr + st.wr_len)
    (st : SpiState) (h : SpiReach fd sp len t0 d0 st) :
    (spi_exchange fd st).trace =
      st.trace ++ IoEvent.write (spi_frame st) ::
        (if fd.write st.trace (spi_frame st) = 64 then [IoEvent.read] else []) ∧
    (rd (spi_frame st) 1 : Int) = st.wr_len ∧
    (∀ i : Nat, (i : Int) < st.wr_len →
      rd (spi_frame st) (2 + i) = (d0 (st.wr.toNat + i)).val) ∧
    st.rd ≤ st.wr ∧ ∀ i, st.rd.toNat ≤ i → st.data i = d0 i := by
  obtain ⟨h0, hle, hdata⟩ := spi_reach_unsent fd sp len t0 d0 hdev st h
  obtain ⟨c0, c1, c2⟩ := spi_reach_chunk fd sp len t0 d0 st h
  have hl : 0 ≤ st.wr_len ∧ st.wr_len ≤ 58 := by
    rw [c2]
    split <;> omega
  obtain ⟨_, hb, hbytes⟩ := spi_frame_bytes st hl.1 hl.2
  refine ⟨spi_exchange_trace fd st, hb, fun i hi => ?_, hle, hdata⟩
  rw [hbytes i hi, hdata (st.wr.toNat + i) (by omega)]

set_option maxRecDepth 100000 in
theorem spi_sends_original_bytes_witness :
    (SpiReach loopback_device spi_settings_frame 120 [] counting_data
        (spi_second_arrival loopback_device) ∧
      (spi_second_arrival loopback_device).wr = 58 ∧
      (spi_second_arrival loopback_device).wr_len = 58) ∧
    ∀ i : Nat, (i : Int) < (spi_second_arrival loopback_device).wr_len →
      rd (spi_frame (spi_second_arrival loopback_device)) (2 + i) =
        (counting_data ((spi_second_arrival loopback_device).wr.toNat + i)).val :=
  have hreach : SpiReach loopback_device spi_settings_frame 120 [] counting_data
      (spi_second_arrival loopback_device) :=
    SpiReach.step sample_spi_state _ (SpiReach.enter sample_spi_state rfl) rfl
  ⟨⟨hreach, by decide, by decide⟩,
    (spi_sends_original_bytes loopback_device spi_settings_frame 120 [] counting_data
      (fun st h h0 _ => by
        rw [loopback_reports_chunk spi_settings_frame 120 [] counting_data st h h0,
          loopback_rd_eq_wr spi_settings_frame 120 [] counting_data st h])
      (spi_second_arrival loopback_device) hreach).2.2.1⟩

/-! ## Command-line tool: the GP6 counting options -/
/-- The block under `if (nvram)` of `--gp6-count-low`, `--gp6-count-rising` and
`--gp6-count-falling`, when the NVRAM chip frame is not cached: the frame is fetched with
the sub-command `MCP2210_NVRAM_PARAM_CHIP` of `MCP2210_NVRAM_GET`, and the GP6 mode is set in
the frame the device returned. -/
theorem gp6_count_nvram_fetches (fd : Device) (mode : Nat) (s s2 : UtilState)
    (hn : s.nvram ≠ 0) (h0 : rd s.nvram_chip_packet 0 = 0)
    (h : gp6_count_nvram fd mode s = some s2) :
    0 ≤ (mcp2210_subcommand fd s.trace s.nvram_chip_packet MCP2210_NVRAM_GET
      MCP2210_NVRAM_PARAM_CHIP).ret ∧
    s2.trace = (mcp2210_subcommand fd s.trace s.nvram_chip_packet MCP2210_NVRAM_GET
      MCP2210_NVRAM_PARAM_CHIP).trace ∧
    s2.nvram_chip_packet = mcp2210_chip_set_gp6_mode
      (mcp2210_subcommand fd s.trace s.nvram_chip_packet MCP2210_NVRAM_GET
        MCP2210_NVRAM_PARAM_CHIP).packet mode ∧
    s2.nvram_chip_mod = 1 := by
  unfold gp6_count_nvram maybe_get_nvram at h
  rw [if_pos hn, if_neg (not_not.mpr h0)] at h
  dsimp only at h
  by_cases hr : (mcp2210_subcommand fd s.trace s.nvram_chip_packet MCP2210_NVRAM_GET
      MCP2210_NVRAM_PARAM_CHIP).ret < 0
  · rw [if_pos hr] at h
    exact Option.noConfusion h
  · rw [if_neg hr] at h
    have e := Option.some.inj h
    subst e
    exact ⟨by omega, rfl, rfl, rfl⟩

/-- The block under `if (nvram)` of `--gp6-count-high` sets the GP6 mode in the NVRAM chip
frame as it is, cached or not: nothing read from the device enters that frame. -/
theorem gp6_count_high_nvram_no_fetch (fd : Device) (s s2 : UtilState) (hn : s.nvram ≠ 0)
    (h : gp6_count_high_nvram fd s = some s2) :
    s2.nvram_chip_packet =
      mcp2210_chip_set_gp6_mode s.nvram_chip_packet MCP2210_CHIP_GP6_CNT_HI_PULSE ∧
    s2.nvram_chip_mod = 1 := by
  unfold gp6_count_high_nvram at h
  rw [if_pos hn] at h
  cases hm : maybe_get fd s.trace s.chip_packet MCP2210_CHIP_GET with
  | none =>
    rw [hm] at h
    exact Option.noConfusion h
  | some r =>
    rw [hm] at h
    have e := Option.some.inj h
    subst e
    exact ⟨rfl, rfl⟩

/-- C35: with NVRAM selected and nothing cached, `--gp6-count-high` fetches the run-time chip
settings (command 0x20) instead of the NVRAM chip settings, and its write-back with the
NVRAM-set chip sub-command (0x60, 0x20) sends a frame whose settings bytes are all zero
except the GP6 mode in byte 17 (0x08). On the same device `--gp6-count-low`,
`--gp6-count-rising` and `--gp6-count-falling` send the NVRAM read (0x61) first and write
back the stored settings (pin functions 1, default output 0x01ff, access control 0x40) with
only bits 1-3 of byte 17 changed (0x12 becomes 0x16, 0x14 and 0x12). -/
theorem gp6_count_high_nvram_not_fetched :
    (option_gp6_count_high chip_settings_device (initial_util_state 0 1)).map
        (fun s => ((write_back_chip chip_settings_device s).1,
          (writes_of (write_back_chip chip_settings_device s).2.trace).map (fun p => rd p 0),
          (bytes_of (last_write (write_back_chip chip_settings_device s).2.trace)).take 19)) =
      some (0, [0x20, 0x60],
        [0x60, 0x20, 0, 0, 0, 0, 0, 0, 0, 0, 0, 0, 0, 0, 0, 0, 0, 0x08, 0]) ∧
    (option_gp6_count_low chip_settings_device (initial_util_state 0 1)).map
        (fun s => ((write_back_chip chip_settings_device s).1,
          (writes_of (write_back_chip chip_settings_device s).2.trace).map (fun p => rd p 0),
          (bytes_of (last_write (write_back_chip chip_settings_device s).2.trace)).take 19)) =
      some (0, [0x61, 0x60],
        [0x60, 0x20, 0x20, 0, 1, 1, 1, 1, 1, 1, 1, 1, 1, 0xff, 0x01, 0, 0, 0x16, 0x40]) ∧
    (option_gp6_count_rising chip_settings_device (initial_util_state 0 1)).map
        (fun s => ((write_back_chip chip_settings_device s).1,
          (writes_of (write_back_chip chip_settings_device s).2.trace).map (fun p => rd p 0),
          (bytes_of (last_write (write_back_chip chip_settings_device s).2.trace)).take 19)) =
      some (0, [0x61, 0x60],
        [0x60, 0x20, 0x20, 0, 1, 1, 1, 1, 1, 1, 1, 1, 1, 0xff, 0x01, 0, 0, 0x14, 0x40]) ∧
    (option_gp6_count_falling chip_settings_device (initial_util_state 0 1)).map
        (fun s => ((write_back_chip chip_settings_device s).1,
          (writes_of (write_back_chip chip_settings_device s).2.trace).map (fun p => rd p 0),
          (bytes_of (last_write (write_back_chip chip_settings_device s).2.trace)).take 19)) =
      some (0, [0x61, 0x60],
        [0x60, 0x20, 0x20, 0, 1, 1, 1, 1, 1, 1, 1, 1, 1, 0xff, 0x01, 0, 0, 0x12, 0x40]) ∧
    (bytes_of nvram_chip_response).take 19 =
      [0x61, 0, 0x20, 0, 1, 1, 1, 1, 1, 1, 1, 1, 1, 0xff, 0x01, 0, 0, 0x12, 0x40] := by
  decide

/-! ## SPI transfer engine: termination -/
theorem spi_successes_from_append (fd : Device) (a : Trace) :
    ∀ (pre b : Trace), spi_successes_from fd pre (a ++ b) =
      spi_successes_from fd pre a + spi_successes_from fd (pre ++ a) b := by
  induction a with
  | nil =>
    intro pre b
    simp [spi_successes_from]
  | cons e a ih =>
    intro pre b
    have hpre : pre ++ e :: a = pre ++ [e] ++ a := by simp
    rw [hpre]
    cases e with
    | write buf =>
      show spi_successes_from fd pre (IoEvent.write buf :: (a ++ b)) = _
      rw [spi_successes_from, spi_successes_from, ih]
    | read =>
      show spi_successes_from fd pre (IoEvent.read :: (a ++ b)) = _
      rw [spi_successes_from, spi_successes_from, ih, Nat.add_assoc]
    | nanosleep sec nsec =>
      show spi_successes_from fd pre (IoEvent.nanosleep sec nsec :: (a ++ b)) = _
      rw [spi_successes_from, spi_successes_from, ih]

/-- The exchange made from the state `st` counts as one success exactly when
`mcp2210_command` returns 0. -/
theorem spi_block_successes (fd : Device) (st : SpiState) (s n : Int) :
    spi_successes_from fd st.trace
      (IoEvent.write (spi_frame st) ::
        (if fd.write st.trace (spi_frame st) = 64 then [IoEvent.read] else []) ++
          [IoEvent.nanosleep s n]) =
      if (spi_exchange fd st).ret = 0 then 1 else 0 := by
  obtain ⟨hiff, _⟩ := spi_exchange_ret_zero fd st
  by_cases hw : fd.write st.trace (spi_frame st) = 64
  · rw [if_pos hw]
    show spi_successes_from fd st.trace
      (IoEvent.write (spi_frame st) :: IoEvent.read :: [IoEvent.nanosleep s n]) = _
    rw [spi_successes_from, spi_successes_from, spi_successes_from, spi_successes_from,
      Nat.add_zero]
    unfold MCP2210_SPI_TRANSFER
    by_cases h0 : (spi_exchange fd st).ret = 0
    · obtain ⟨_, hr, h1, hc⟩ := hiff.mp h0
      rw [if_pos ⟨hr, h1, hc⟩, if_pos h0]
    · rw [if_neg (fun h => h0 (hiff.mpr ⟨hw, h.1, h.2.1, h.2.2⟩)), if_neg h0]
  · rw [if_neg hw]
    show spi_successes_from fd st.trace
      (IoEvent.write (spi_frame st) :: [IoEvent.nanosleep s n]) = _
    rw [spi_successes_from, spi_successes_from, spi_successes_from,
      if_neg (fun h => hw (hiff.mp h).1)]

/-- With a non-zero bit rate the loop head ends the execution only by the failed loop
test. -/
theorem spi_loop_head_finished_returned (sp : mcp2210_packet) (len : Int) (t : Trace)
    (data : Buffer) (r w : Int) (res : SpiResult) (hb : mcp2210_spi_get_bitrate sp ≠ 0)
    (h : spi_loop_head sp len t data r w = SpiNext.finished res) :
    res.outcome = SpiOutcome.returned 0 ∧ ¬ r < len := by
  by_cases hlt : r < len
  · obtain ⟨st, hst, _⟩ := spi_loop_head_enter sp len t data r w hlt hb
    rw [hst] at h
    exact SpiNext.noConfusion h
  · rw [spi_loop_head_exit sp len t data r w hlt] at h
    injection h with h
    subst h
    exact ⟨rfl, hlt⟩

/-- The loop body is entered only with `rd < len`. -/
theorem spi_reach_rd_lt (fd : Device) (sp : mcp2210_packet) (len : Int) (t0 : Trace)
    (d0 : Buffer) (st : SpiState) (h : SpiReach fd sp len t0 d0 st) : st.rd < len := by
  induction h with
  | enter st h =>
    obtain ⟨_, _, hr, _, _, _, hlt⟩ := spi_loop_head_at_retry sp len t0 d0 0 0 st h
    rw [hr]
    exact hlt
  | step st st2 _ h ih =>
    rcases spi_retry_block_at_retry fd sp len st st2 h with ⟨_, e⟩ | ⟨_, e⟩
    · rw [e]
      exact ih
    · obtain ⟨_, _, hr, _, _, _, hlt⟩ := spi_loop_head_at_retry _ _ _ _ _ _ _ e
      rw [hr]
      exact hlt

theorem spi_reach_after_busy (fd : Device) (sp : mcp2210_packet) (len : Int) (t0 : Trace)
    (d0 : Buffer) (st : SpiState) (h : SpiReach fd sp len t0 d0 st) :
    ∀ k, (∀ j, j < k →
        (spi_exchange fd (spi_after_busy fd j st)).ret = -MCP2210_ESPIINPROGRESS) →
      SpiReach fd sp len t0 d0 (spi_after_busy fd k st) := by
  intro k
  induction k with
  | zero => exact fun _ => h
  | succ k ih =>
    intro hbusy
    exact SpiReach.step _ _ (ih (fun j hj => hbusy j (by omega)))
      (spi_retry_block_busy fd sp len _ (hbusy k (by omega)))

/-- The number of successful exchanges of an execution in which every accepted response
reports at least one byte: at every arrival at `retry` it is at most `rd`, which is below
`len`; at the end it is at most `len` (0 when `len` is negative), and with a non-zero bit
rate the execution ends by a `return`. -/
theorem spi_successes_invariant (fd : Device) (sp : mcp2210_packet) (len : Int) (t0 : Trace)
    (d0 : Buffer) (hb : mcp2210_spi_get_bitrate sp ≠ 0)
    (hpos : ∀ st, SpiReach fd sp len t0 d0 st → (spi_exchange fd st).ret = 0 →
      (rd (spi_exchange fd st).packet 3 = 0x20 ∨ rd (spi_exchange fd st).packet 3 = 0x10 ∨
        rd (spi_exchange fd st).packet 3 = 0x30) →
      1 ≤ rd (spi_exchange fd st).packet 2) :
    (∀ st, SpiReach fd sp len t0 d0 st →
      ∃ sfx, st.trace = t0 ++ sfx ∧ (spi_successes_from fd t0 sfx : Int) ≤ st.rd) ∧
    (∀ fuel res, mcp2210_spi_transfer fd fuel t0 sp d0 len = some res →
      (∃ ret, res.outcome = SpiOutcome.returned ret) ∧
      ∃ sfx, res.trace = t0 ++ sfx ∧ (spi_successes_from fd t0 sfx : Int) ≤ max len 0) := by
  have hinv := spi_invariant fd sp len t0 d0
    (fun nx => ∃ sfx, next_trace nx = t0 ++ sfx ∧
      (∀ st, nx = SpiNext.at_retry st → (spi_successes_from fd t0 sfx : Int) ≤ st.rd) ∧
      (∀ r, nx = SpiNext.finished r → (∃ ret, r.outcome = SpiOutcome.returned ret) ∧
        (spi_successes_from fd t0 sfx : Int) ≤ max len 0)) ?_ ?_
  · obtain ⟨ha, hf⟩ := hinv
    constructor
    · intro st hst
      obtain ⟨sfx, ht, h1, _⟩ := ha st hst
      exact ⟨sfx, ht, h1 st rfl⟩
    · intro fuel res hrun
      obtain ⟨sfx, ht, _, h2⟩ := hf fuel res hrun
      exact ⟨(h2 res rfl).1, sfx, ht, (h2 res rfl).2⟩
  · refine ⟨[], ?_, ?_, ?_⟩
    · rw [spi_loop_head_trace, List.append_nil]
    · intro st h
      obtain ⟨_, _, hr, _⟩ := spi_loop_head_at_retry sp len t0 d0 0 0 st h
      rw [hr]
      exact le_refl 0
    · intro r h
      obtain ⟨ho, _⟩ := spi_loop_head_finished_returned sp len t0 d0 0 0 r hb h
      refine ⟨⟨0, ho⟩, ?_⟩
      show (0 : Int) ≤ max len 0
      omega
  · rintro st hreach ⟨sfx, ht, h1, _⟩
    have ht : st.trace = t0 ++ sfx := ht
    have hc : (spi_successes_from fd t0 sfx : Int) ≤ st.rd := h1 st rfl
    have hlt := spi_reach_rd_lt fd sp len t0 d0 st hreach
    have hpay := spi_block_successes fd st st.delay.tv_sec st.delay.tv_nsec
    have hle := spi_exchange_ret_nonpos fd st
    refine ⟨sfx ++ (IoEvent.write (spi_frame st) ::
        (if fd.write st.trace (spi_frame st) = 64 then [IoEvent.read] else []) ++
          [IoEvent.nanosleep st.delay.tv_sec st.delay.tv_nsec]), ?_, ?_, ?_⟩
    · rw [spi_retry_block_trace, spi_exchange_trace, ht]
      simp only [List.append_assoc, List.cons_append]
    · intro st2 h2
      rw [spi_successes_from_append, ← ht, hpay]
      rcases spi_retry_block_at_retry fd sp len st st2 h2 with ⟨hbusy, e⟩ | ⟨h0, e⟩
      · have hne : ¬ (spi_exchange fd st).ret = 0 := by
          rw [hbusy]
          decide
        rw [if_neg hne, e]
        show ((spi_successes_from fd t0 sfx + 0 : Nat) : Int) ≤ st.rd
        omega
      · by_cases hs : rd (spi_exchange fd st).packet 3 = 0x20 ∨
            rd (spi_exchange fd st).packet 3 = 0x10 ∨ rd (spi_exchange fd st).packet 3 = 0x30
        · obtain ⟨_, _, hr, _⟩ := spi_loop_head_at_retry _ _ _ _ _ _ _ e
          have hp := hpos st hreach h0 hs
          rw [if_pos h0, hr]
          omega
        · rw [spi_retry_block_success fd sp len st h0, if_neg hs] at h2
          exact SpiNext.noConfusion h2
    · intro r h2
      rw [spi_successes_from_append, ← ht, hpay]
      by_cases hbusy : (spi_exchange fd st).ret = -MCP2210_ESPIINPROGRESS
      · rw [spi_retry_block_busy fd sp len st hbusy] at h2
        exact SpiNext.noConfusion h2
      · by_cases hneg : (spi_exchange fd st).ret < 0
        · rw [spi_retry_block_error fd sp len st hneg hbusy] at h2
          injection h2 with h2
          subst h2
          rw [if_neg (by omega)]
          exact ⟨⟨_, rfl⟩, by omega⟩
        · have h0 : (spi_exchange fd st).ret = 0 := by omega
          rw [if_pos h0]
          by_cases hs : rd (spi_exchange fd st).packet 3 = 0x20 ∨
              rd (spi_exchange fd st).packet 3 = 0x10 ∨
              rd (spi_exchange fd st).packet 3 = 0x30
          · rw [spi_retry_block_ok fd sp len st h0 hs] at h2
            obtain ⟨ho, _⟩ := spi_loop_head_finished_returned _ _ _ _ _ _ r hb h2
            exact ⟨⟨0, ho⟩, by omega⟩
          · rw [spi_retry_block_success fd sp len st h0, if_neg hs] at h2
            injection h2 with h2
            subst h2
            exact ⟨⟨_, rfl⟩, by omega⟩

/-- An execution that has arrived at `retry` returns after finitely many exchanges when every
accepted response reports at least one byte and no chunk is answered with "transfer in
progress" for ever. -/
theorem spi_run_terminates (fd : Device) (sp : mcp2210_packet) (len : Int) (t0 : Trace)
    (d0 : Buffer)
    (hpos : ∀ st, SpiReach fd sp len t0 d0 st → (spi_exchange fd st).ret = 0 →
      (rd (spi_exchange fd st).packet 3 = 0x20 ∨ rd (spi_exchange fd st).packet 3 = 0x10 ∨
        rd (spi_exchange fd st).packet 3 = 0x30) →
      1 ≤ rd (spi_exchange fd st).packet 2)
    (hbusy : ∀ st, SpiReach fd sp len t0 d0 st →
      ∃ k, (spi_exchange fd (spi_after_busy fd k st)).ret ≠ -MCP2210_ESPIINPROGRESS) :
    ∀ (m : Nat) (st : SpiState), SpiReach fd sp len t0 d0 st → (len - st.rd).toNat ≤ m →
      ∃ n res, ∀ fuel, spi_run fd sp len (fuel + n) (SpiNext.at_retry st) = some res := by
  intro m
  induction m with
  | zero =>
    intro st hreach hm
    have := spi_reach_rd_lt fd sp len t0 d0 st hreach
    omega
  | succ m ih =>
    intro st hreach hm
    have hlt := spi_reach_rd_lt fd sp len t0 d0 st hreach
    have hex := hbusy st hreach
    have hk := Nat.find_spec hex
    have hmin : ∀ j, j < Nat.find hex →
        (spi_exchange fd (spi_after_busy fd j st)).ret = -MCP2210_ESPIINPROGRESS :=
      fun j hj => not_not.mp (Nat.find_min hex hj)
    have hreachk := spi_reach_after_busy fd sp len t0 d0 st hreach (Nat.find hex) hmin
    have hrun := spi_run_after_busy fd sp len st (Nat.find hex) hmin
    obtain ⟨_, hrd, _, _⟩ := spi_after_busy_fields fd st (Nat.find hex)
    cases hblock : spi_retry_block fd sp len (spi_after_busy fd (Nat.find hex) st) with
    | finished res =>
      refine ⟨1 + Nat.find hex, res, fun fuel => ?_⟩
      have e : fuel + (1 + Nat.find hex) = (fuel + 1) + Nat.find hex := by omega
      rw [e, hrun (fuel + 1), spi_run_at_retry, hblock, spi_run_finished]
    | at_retry st2 =>
      rcases spi_retry_block_at_retry fd sp len _ st2 hblock with ⟨hb, _⟩ | ⟨h0, e⟩
      · exact absurd hb hk
      · by_cases hs :
            rd (spi_exchange fd (spi_after_busy fd (Nat.find hex) st)).packet 3 = 0x20 ∨
            rd (spi_exchange fd (spi_after_busy fd (Nat.find hex) st)).packet 3 = 0x10 ∨
            rd (spi_exchange fd (spi_after_busy fd (Nat.find hex) st)).packet 3 = 0x30
        · obtain ⟨_, _, hr, _, _, _, hlt2⟩ := spi_loop_head_at_retry _ _ _ _ _ _ _ e
          have hp := hpos _ hreachk h0 hs
          have hreach2 := SpiReach.step _ st2 hreachk hblock
          rw [hrd] at hr
          obtain ⟨n2, res, hn2⟩ := ih st2 hreach2 (by omega)
          refine ⟨n2 + 1 + Nat.find hex, res, fun fuel => ?_⟩
          have e2 : fuel + (n2 + 1 + Nat.find hex) = (fuel + n2 + 1) + Nat.find hex := by omega
          rw [e2, hrun (fuel + n2 + 1), spi_run_at_retry, hblock, hn2 fuel]
        · rw [spi_retry_block_success fd sp len _ h0, if_neg hs] at hblock
          exact SpiNext.noConfusion hblock

/-- The device `loopback_device` answers every exchange successfully. -/
theorem loopback_exchange_ok (st : SpiState) :
    (spi_exchange loopback_device st).ret = 0 := by
  obtain ⟨a, b, c, _⟩ := loopback_device_answers st.trace (spi_frame st)
  exact (spi_exchange_ret_zero loopback_device st).1.mpr ⟨rfl, a, c, b⟩

/-- C32, counterexample: a device that answers every exchange successfully and reports 60
bytes each time meets the conditions of the claim (at least one byte per successful
exchange, no "transfer in progress"), and a transfer of 1 byte ends at a loop test where
`len - rd` is -59. -/
theorem spi_variant_negative_at_loop_test :
    (∀ t, (over_reporting_device.read t).1 = 64 ∧ rd (over_reporting_device.read t).2 1 = 0 ∧
      rd (over_reporting_device.read t).2 2 = 60) ∧
    (mcp2210_spi_transfer over_reporting_device 1 [] spi_settings_frame counting_data 1).map
      (fun r => (spi_returned r, 1 - r.rd)) = some (some 0, -59) := by
  refine ⟨fun _ => ?_, ?_⟩
  · show (64 : Int) = 64 ∧ rd (packet_of_list [0x42, 0, 60, 0x30]) 1 = 0 ∧
      rd (packet_of_list [0x42, 0, 60, 0x30]) 2 = 60
    decide
  · decide

/-- C32, amended: with a non-zero bit rate, if every accepted response reports at least one
byte and every chunk is answered with "transfer in progress" only finitely many times, then
`mcp2210_spi_transfer` returns after finitely many exchanges, of which at most `len` (none
when `len` is negative) are successful. `len - rd` is positive at every arrival at `retry`,
that is whenever the loop body runs, with `rd` not negative, and it decreases strictly with
every accepted response; at the loop test that ends the loop it may be negative. -/
theorem spi_transfer_terminates (fd : Device) (sp : mcp2210_packet) (len : Int) (t0 : Trace)
    (d0 : Buffer) (hb : mcp2210_spi_get_bitrate sp ≠ 0)
    (hpos : ∀ st, SpiReach fd sp len t0 d0 st → (spi_exchange fd st).ret = 0 →
      (rd (spi_exchange fd st).packet 3 = 0x20 ∨ rd (spi_exchange fd st).packet 3 = 0x10 ∨
        rd (spi_exchange fd st).packet 3 = 0x30) →
      1 ≤ rd (spi_exchange fd st).packet 2)
    (hbusy : ∀ st, SpiReach fd sp len t0 d0 st →
      ∃ k, (spi_exchange fd (spi_after_busy fd k st)).ret ≠ -MCP2210_ESPIINPROGRESS) :
    (∀ st, SpiReach fd sp len t0 d0 st → 0 ≤ st.rd ∧ 0 < len - st.rd) ∧
    (∀ st, SpiReach fd sp len t0 d0 st → (spi_exchange fd st).ret = 0 →
      (rd (spi_exchange fd st).packet 3 = 0x20 ∨ rd (spi_exchange fd st).packet 3 = 0x10 ∨
        rd (spi_exchange fd st).packet 3 = 0x30) →
      len - next_rd (spi_retry_block fd sp len st) < len - st.rd) ∧
    ∃ n res, (∀ fuel, mcp2210_spi_transfer fd (fuel + n) t0 sp d0 len = some res) ∧
      (∃ ret, res.outcome = SpiOutcome.returned ret) ∧
      ∃ sfx, res.trace = t0 ++ sfx ∧ (spi_successes_from fd t0 sfx : Int) ≤ max len 0 := by
  obtain ⟨hcount, hfin⟩ := spi_successes_invariant fd sp len t0 d0 hb hpos
  refine ⟨fun st h => ?_, fun st h h0 hs => ?_, ?_⟩
  · obtain ⟨sfx, _, hc⟩ := hcount st h
    have := spi_reach_rd_lt fd sp len t0 d0 st h
    exact ⟨by omega, by omega⟩
  · have hp := hpos st h h0 hs
    rw [((spi_retry_block_next fd sp len st).1 ⟨h0, hs⟩).2.1]
    omega
  · have hterm : ∃ n res, ∀ fuel,
        mcp2210_spi_transfer fd (fuel + n) t0 sp d0 len = some res := by
      unfold mcp2210_spi_transfer
      cases hl : spi_loop_head sp len t0 d0 0 0 with
      | finished res => exact ⟨0, res, fun fuel => spi_run_finished fd sp len _ res⟩
      | at_retry st =>
        exact spi_run_terminates fd sp len t0 d0 hpos hbusy _ st (SpiReach.enter st hl)
          (le_refl _)
    obtain ⟨n, res, hn⟩ := hterm
    exact ⟨n, res, hn, hfin n res (by simpa using hn 0)⟩

set_option maxRecDepth 100000 in
theorem spi_transfer_terminates_witness :
    mcp2210_spi_get_bitrate spi_settings_frame ≠ 0 ∧
    ∃ n res, (∀ fuel, mcp2210_spi_transfer loopback_device (fuel + n) [] spi_settings_frame
        counting_data 120 = some res) ∧
      (∃ ret, res.outcome = SpiOutcome.returned ret) ∧
      ∃ sfx, res.trace = [] ++ sfx ∧
        (spi_successes_from loopback_device [] sfx : Int) ≤ max 120 0 :=
  ⟨by decide,
    (spi_transfer_terminates loopback_device spi_settings_frame 120 [] counting_data
      (by decide)
      (fun st h h0 _ => by
        have e := loopback_reports_chunk spi_settings_frame 120 [] counting_data st h h0
        have hw := loopback_rd_eq_wr spi_settings_frame 120 [] counting_data st h
        have hlt := spi_reach_rd_lt loopback_device spi_settings_frame 120 [] counting_data st h
        obtain ⟨_, _, c2⟩ :=
          spi_reach_chunk loopback_device spi_settings_frame 120 [] counting_data st h
        rw [c2] at e
        split at e <;> omega)
      (fun st _ => ⟨0, by
        show (spi_exchange loopback_device st).ret ≠ _
        rw [loopback_exchange_ok]
        decide⟩)).2.2⟩

end MCP2210
